import Mathlib

/-!
# Contact management application: backend model

A shallow embedding of the Express backend (`backend/app.js`,
`backend/middlewares/auth.js`, `backend/models/Contact.js`,
`backend/routes/auth.js`, `backend/routes/contact.js`).

* The document database is a value of type `Store` (two collections kept in
  insertion order); every handler is a function from a request and a store to
  an outcome and a new store.
* Third-party libraries (mongoose casting, jsonwebtoken, bcrypt, the Joi
  type checks) are not part of the repository; their behaviour is a parameter
  `Lib`, and the theorems hold for every such library.
* A database call that raises is described by `Ctx.fault`: call number `k`
  made while serving the request raises when `fault k` is true.
* Where a handler answers 500 with `err.message`, the text comes from the
  library that raised; the model puts a fixed text in its place. Dates are
  kept as milliseconds, and a rendered document leaves out the version key.
* Requests are served one after the other.
-/

set_option autoImplicit false

namespace ContactApp

/-! ## JSON values and the JavaScript operations the handlers apply to them -/

/-- JSON values as parsed by `express.json()`. -/
inductive Json where
  | null : Json
  | bool (b : Bool) : Json
  | num (n : Int) : Json
  | str (s : String) : Json
  | arr (xs : List Json) : Json
  | obj (kvs : List (String × Json)) : Json
  deriving Inhabited

/-- Property lookup on a list of members; the last occurrence of a key wins,
as in `JSON.parse`. -/
def lookupKey (k : String) : List (String × Json) → Option Json
  | [] => none
  | (k', v) :: rest =>
    match lookupKey k rest with
    | some w => some w
    | none => if k' = k then some v else none

/-- Destructuring `const { k } = body`: `none` stands for `undefined`. -/
def Json.field (j : Json) (k : String) : Option Json :=
  match j with
  | Json.obj kvs => lookupKey k kvs
  | _ => none

/-- Number of UTF-16 code units of a character. -/
def utf16Units (c : Char) : Nat := if c.val.toNat < 65536 then 1 else 2

/-- JavaScript `s.length` for a string: the number of UTF-16 code units. -/
def jsLength (s : String) : Nat := (s.toList.map utf16Units).sum

/-- JavaScript truthiness of a possibly undefined JSON value (`!v` is its negation). -/
def truthy : Option Json → Bool
  | none => false
  | some Json.null => false
  | some (Json.bool b) => b
  | some (Json.num n) => n != 0
  | some (Json.str s) => s != ""
  | some (Json.arr _) => true
  | some (Json.obj _) => true

/-- Result of reading `.length` off a JavaScript value. -/
inductive LengthOf where
  /-- The access raises a `TypeError`. -/
  | typeError : LengthOf
  /-- The value has no such property. -/
  | undefined : LengthOf
  /-- The property is a number. -/
  | number (n : Int) : LengthOf
  /-- The property is a member `length` of another type. -/
  | other (j : Json) : LengthOf

/-- The property access `v.length`: a `TypeError` on `undefined` and `null`, the
code-unit count of a string, the element count of an array, the member
`length` of an object, `undefined` for numbers and booleans. -/
def lengthOf : Option Json → LengthOf
  | none => LengthOf.typeError
  | some Json.null => LengthOf.typeError
  | some (Json.str s) => LengthOf.number (jsLength s)
  | some (Json.arr xs) => LengthOf.number xs.length
  | some (Json.obj kvs) =>
    match lookupKey "length" kvs with
    | none => LengthOf.undefined
    | some (Json.num n) => LengthOf.number n
    | some j => LengthOf.other j
  | some _ => LengthOf.undefined

/-- Decimal rendering of an integer, as `String(n)` gives for a JSON integer. -/
def intToString (n : Int) : String :=
  if n < 0 then "-" ++ toString n.natAbs else toString n.natAbs

/-- JavaScript's conversion of a value to a string, which `RegExp.prototype.test` and
a template literal apply. `none` is the `TypeError` of the conversion: it is
raised for an object with an own member `toString` (no member of a parsed body
is callable, and `Object.prototype.valueOf` returns the object), and for an array
with such an element. The conversion to a primitive for a comparison with a
number raises on the same values. -/
def jsToString : Json → Option String
  | Json.null => some "null"
  | Json.bool b => some (if b then "true" else "false")
  | Json.num n => some (intToString n)
  | Json.str s => some s
  | Json.arr xs =>
    match elems xs with
    | some l => some (String.intercalate "," l)
    | none => none
  | Json.obj kvs => if (lookupKey "toString" kvs).isSome then none else some "[object Object]"
where
  /-- Elements of an array as joined by `Array.prototype.toString`. -/
  elems : List Json → Option (List String)
    | [] => some []
    | Json.null :: rest =>
      match elems rest with
      | some l => some ("" :: l)
      | none => none
    | x :: rest =>
      match jsToString x, elems rest with
      | some a, some l => some (a :: l)
      | _, _ => none

/-! ## Documents and the store -/

/-- An ObjectId in its 24-digit hexadecimal string form. -/
abbrev ObjectId := String

/-- Modelled from the spec: `backend/models/User.js` is not among the sources.
A user record has a name, a unique email, the hashed password and timestamps;
`_id` is the identifier every document of the database carries. -/
structure User where
  _id : ObjectId
  name : String
  email : String
  password : String
  createdAt : Nat
  updatedAt : Nat
  deriving DecidableEq, Inhabited

/-- A user document with the password field left out (`select("-password")`,
or `password: undefined`, which `JSON.stringify` drops). -/
structure SanitizedUser where
  _id : ObjectId
  name : String
  email : String
  createdAt : Nat
  updatedAt : Nat
  deriving DecidableEq, Inhabited

/-- Strip the password from a user document. -/
def User.sanitize (u : User) : SanitizedUser :=
  { _id := u._id, name := u.name, email := u.email,
    createdAt := u.createdAt, updatedAt := u.updatedAt }

/-- A document of the `Contact` collection (`ContactSchema` with timestamps).
A field that is `none` is absent from the document. -/
structure Contact where
  _id : ObjectId
  name : Option Json
  phone : Option Json
  email : Option Json
  address : Option Json
  notes : Option Json
  birthday : Option Json
  tags : Option Json
  favorite : Option Json
  postedBy : ObjectId
  createdAt : Nat
  updatedAt : Nat
  deriving Inhabited

/-- The document database: the two collections, each in insertion order. -/
structure Store where
  users : List User
  contacts : List Contact
  deriving Inhabited

/-! ## Regular expressions (the two patterns of the source) -/

/-- Regular expressions over characters, matched against a whole string
(both patterns of the source are anchored with `^` and `$`). -/
inductive RE where
  | none : RE
  | eps : RE
  | cls (p : Char → Bool) : RE
  | cat (a b : RE) : RE
  | alt (a b : RE) : RE
  | star (a : RE) : RE

namespace RE

/-- Does the expression accept the empty string? -/
def nullable : RE → Bool
  | none => false
  | eps => true
  | cls _ => false
  | cat a b => nullable a && nullable b
  | alt a b => nullable a || nullable b
  | star _ => true

/-- Brzozowski derivative with respect to one character. -/
def deriv (c : Char) : RE → RE
  | none => none
  | eps => none
  | cls p => if p c then eps else none
  | cat a b => if nullable a then alt (cat (deriv c a) b) (deriv c b) else cat (deriv c a) b
  | alt a b => alt (deriv c a) (deriv c b)
  | star a => cat (deriv c a) (star a)

/-- Whole-string match. -/
def accepts (r : RE) : List Char → Bool
  | [] => nullable r
  | c :: cs => accepts (deriv c r) cs

/-- One character literal. -/
def chr (c : Char) : RE := cls (fun d => d == c)
/-- The quantifier `+`. -/
def plus (a : RE) : RE := cat a (star a)
/-- The quantifier `?`. -/
def opt (a : RE) : RE := alt eps a
/-- The quantifier `{1,3}`. -/
def oneToThree (a : RE) : RE := cat a (cat (opt a) (opt a))
/-- The quantifier `{2,}`. -/
def twoOrMore (a : RE) : RE := cat a (cat a (star a))

end RE

/-- The class `\s` of JavaScript regular expressions. -/
def isJsSpace (c : Char) : Bool :=
  let n := c.val.toNat
  n = 9 || n = 10 || n = 11 || n = 12 || n = 13 || n = 32 || n = 160 || n = 5760 ||
  (8192 ≤ n && n ≤ 8202) || n = 8232 || n = 8233 || n = 8239 || n = 8287 || n = 12288 ||
  n = 65279

/-- The class `[^<>()[\]\\.,;:\s@"]`. -/
def isEmailAtom (c : Char) : Bool :=
  !(c == '<' || c == '>' || c == '(' || c == ')' || c == '[' || c == ']' || c == '\\' ||
    c == '.' || c == ',' || c == ';' || c == ':' || isJsSpace c || c == '@' || c == '"')

/-- The metacharacter `.`: anything but a line terminator. -/
def isDot (c : Char) : Bool :=
  let n := c.val.toNat
  !(n = 10 || n = 13 || n = 8232 || n = 8233)

/-- The class `[0-9]`. -/
def isDigit09 (c : Char) : Bool := '0' ≤ c && c ≤ '9'
/-- The class `[a-zA-Z]`. -/
def isAlphaAZ (c : Char) : Bool := ('a' ≤ c && c ≤ 'z') || ('A' ≤ c && c ≤ 'Z')
/-- The class `[a-zA-Z\-0-9]`. -/
def isHostChar (c : Char) : Bool := isAlphaAZ c || c == '-' || isDigit09 c
/-- The class `[0-9+()-]` of the phone pattern. -/
def isPhoneChar (c : Char) : Bool :=
  isDigit09 c || c == '+' || c == '(' || c == ')' || c == '-'

/-- The `emailReg` literal of `routes/auth.js` (register and login):
`^(([^<>()[\]\\.,;:\s@"]+(\.[^<>()[\]\\.,;:\s@"]+)*)|(".+"))@((\[[0-9]{1,3}\.[0-9]{1,3}\.[0-9]{1,3}\.[0-9]{1,3}\])|(([a-zA-Z\-0-9]+\.)+[a-zA-Z]{2,}))$`. -/
def emailRegExp : RE :=
  let atom := RE.plus (RE.cls isEmailAtom)
  let localPart :=
    RE.alt (RE.cat atom (RE.star (RE.cat (RE.chr '.') atom)))
      (RE.cat (RE.chr '"') (RE.cat (RE.plus (RE.cls isDot)) (RE.chr '"')))
  let octet := RE.oneToThree (RE.cls isDigit09)
  let ip :=
    RE.cat (RE.chr '[') (RE.cat octet (RE.cat (RE.chr '.') (RE.cat octet (RE.cat (RE.chr '.')
      (RE.cat octet (RE.cat (RE.chr '.') (RE.cat octet (RE.chr ']'))))))))
  let host :=
    RE.cat (RE.plus (RE.cat (RE.plus (RE.cls isHostChar)) (RE.chr '.')))
      (RE.twoOrMore (RE.cls isAlphaAZ))
  RE.cat localPart (RE.cat (RE.chr '@') (RE.alt ip host))

/-- The call `emailReg.test(email)`; `test` converts its argument to a string
(`undefined` becomes `"undefined"`). `none` is the `TypeError` of that conversion. -/
def emailRegTest (email : Option Json) : Option Bool :=
  match email with
  | Option.none => some (emailRegExp.accepts "undefined".toList)
  | some j =>
    match jsToString j with
    | some t => some (emailRegExp.accepts t.toList)
    | none => none

/-- The phone pattern `/^[0-9+()-]+$/` of `validateContact`. -/
def phoneRegExp : RE := RE.plus (RE.cls isPhoneChar)

/-! ## Third-party libraries, requests and responses -/

/-- The claims of a token: the payload `{ _id }` of the login route together
with the `iat` and `exp` that `jwt.sign` adds (seconds since the epoch). -/
structure Claims where
  _id : Json
  iat : Nat
  exp : Nat

/-- Behaviour of the libraries the backend calls. -/
structure Lib where
  /-- Mongoose's cast of a query value to an ObjectId; `none` is a `CastError`.
  `mongoose.isValidObjectId` is true exactly when this cast succeeds. -/
  castObjectId : Json → Option ObjectId
  /-- Mongoose's cast of a query value for `_id` that is an object of query
  operators, such as `{ "$ne": null }`: the test the operators put on the `_id`
  of a document. `none` when the value is no such object, or when the cast of
  an operand is a `CastError`. -/
  castIdOperators : Json → Option (ObjectId → Bool)
  /-- Mongoose's cast of an update or constructor value for a path of
  `ContactSchema`; `none` is a `CastError`. -/
  castContactPath : String → Json → Option Json
  /-- Mongoose's cast of a value for a `String` path of the user schema;
  `none` is a `CastError`. -/
  castUserString : Json → Option String
  /-- The compact serialisation of claims signed with a secret. -/
  jwtEncode : String → Claims → String
  /-- Signature check and decoding of a compact token with a secret. -/
  jwtDecode : String → String → Option Claims
  /-- The call `bcrypt.hash(data, rounds)` with the salt it draws. -/
  bcryptHash : String → Nat → String → String
  /-- The call `bcrypt.compare(data, hash)`. -/
  bcryptCompare : String → String → Bool
  /-- The rule `Joi.string().email()`. -/
  joiEmail : String → Bool
  /-- The type `Joi.date()`. -/
  joiDate : Json → Bool
  /-- Joi's conversion of a string to an object (`convert` is on by default). -/
  joiParseObject : String → Option (List (String × Json))
  /-- Joi's conversion of a string to an array. -/
  joiParseArray : String → Option (List Json)
  /-- JavaScript's conversion of a value that is not a number to a number, for
  a comparison; `none` is `NaN`. -/
  jsToNumber : Json → Option Int

/-- What a request meets besides the store: environment, clock, failures of
the database and the random choices of the libraries. -/
structure Ctx where
  /-- The value of `process.env.JWT_SECRET`. -/
  secret : String
  /-- The value of `Date.now()`, in milliseconds. -/
  nowMs : Nat
  /-- Whether database call number `k` of this request raises. -/
  fault : Nat → Bool
  /-- The identifier mongoose generates for a new document. -/
  freshId : ObjectId
  /-- The salt bcrypt draws. -/
  salt : String

/-- The HTTP methods of the requests the client sends; the routers register
handlers for the first four. -/
inductive Method where
  | GET | POST | PUT | DELETE | PATCH
  deriving DecidableEq, Inhabited

/-- The parts of an Express request the router and the handlers read. -/
structure Request where
  /-- The request method. -/
  method : Method
  /-- The segments of the request path, for example `["api", "contact", "5f..."]`. -/
  path : List String
  /-- The header `req.headers.authorization`. -/
  authorization : Option String
  /-- The parsed body `req.body`. -/
  body : Json
  /-- The route parameter `req.params.id`. -/
  id : String
  /-- The user `req.user` attached by the auth middleware. -/
  user : Option SanitizedUser

/-- A response: `res.status(status).json(body)`. -/
structure Response where
  status : Nat
  body : Json

/-- How a middleware or handler ends. -/
inductive Outcome where
  /-- A response was sent. -/
  | respond (r : Response) : Outcome
  /-- The function `next()` was called with the (possibly extended) request. -/
  | next (req : Request) : Outcome
  /-- An exception left the handler; no response was sent. -/
  | throws : Outcome

/-- The response `res.status(code).json({ error: msg })`. -/
def errorResponse (code : Nat) (msg : String) : Response :=
  { status := code, body := Json.obj [("error", Json.str msg)] }

/-- The response `res.status(code).json({ message: msg })`. -/
def messageResponse (code : Nat) (msg : String) : Response :=
  { status := code, body := Json.obj [("message", Json.str msg)] }

/-- Status of an outcome, when a response was sent. -/
def Outcome.status? : Outcome → Option Nat
  | Outcome.respond r => some r.status
  | _ => none

/-- Body of an outcome, when a response was sent. -/
def Outcome.body? : Outcome → Option Json
  | Outcome.respond r => some r.body
  | _ => none

/-! ## `validateContact` (models/Contact.js) -/

/-- A label in double quotes, as Joi prints it. -/
def quoted (label : String) : String := "\"" ++ label ++ "\""

/-- The first error of a list of checks (`abortEarly` is on by default). -/
def firstError : List (Option String) → Option String
  | [] => none
  | some e :: _ => some e
  | none :: rest => firstError rest

/-- The rule `.min(n)` of a Joi string. -/
def ruleMin (n : Nat) (label s : String) : Option String :=
  if jsLength s < n then
    some (quoted label ++ " length must be at least " ++ toString n ++ " characters long")
  else none

/-- The rule `.max(n)` of a Joi string. -/
def ruleMax (n : Nat) (label s : String) : Option String :=
  if n < jsLength s then
    some (quoted label ++ " length must be less than or equal to " ++ toString n ++
      " characters long")
  else none

/-- The rule `.pattern(/^[0-9+()-]+$/)`. -/
def rulePhonePattern (label s : String) : Option String :=
  if phoneRegExp.accepts s.toList then none
  else some (quoted label ++ " with value " ++ quoted s ++
    " fails to match the required pattern: /^[0-9+()-]+$/")

/-- The rule `.email()`. -/
def ruleEmail (L : Lib) (label s : String) : Option String :=
  if L.joiEmail s then none else some (quoted label ++ " must be a valid email")

/-- The type `Joi.string()` followed by its rules in the order written;
`allowEmpty` stands for `.allow("")`. Without it the empty string is refused. -/
def joiString (label : String) (allowEmpty : Bool)
    (rules : List (String → String → Option String)) (v : Json) : Option String :=
  match v with
  | Json.str s =>
    if s = "" then
      (if allowEmpty then none else some (quoted label ++ " is not allowed to be empty"))
    else firstError (rules.map (fun r => r label s))
  | _ => some (quoted label ++ " must be a string")

/-- A key marked `.required()`. -/
def joiRequired (label : String) (check : Json → Option String) : Option Json → Option String
  | none => some (quoted label ++ " is required")
  | some v => check v

/-- A key that may be left out. -/
def joiOptional (check : Json → Option String) : Option Json → Option String
  | none => none
  | some v => check v

/-- The first member whose key the schema does not list. -/
def unknownKey (known : List String) (outer : String) :
    List (String × Json) → Option String
  | [] => none
  | (k, _) :: rest =>
    if k ∈ known then unknownKey known outer rest
    else some (quoted (outer ++ k) ++ " is not allowed")

/-- The members of the `address` schema. -/
def validateAddressMembers (kvs : List (String × Json)) : Option String :=
  firstError
    [ joiOptional (joiString "address.street" true [ruleMin 4, ruleMax 100]) (lookupKey "street" kvs),
      joiOptional (joiString "address.city" true [ruleMin 2, ruleMax 50]) (lookupKey "city" kvs),
      joiOptional (joiString "address.state" true [ruleMin 2, ruleMax 50]) (lookupKey "state" kvs),
      joiOptional (joiString "address.postalCode" true [ruleMin 4, ruleMax 20])
        (lookupKey "postalCode" kvs),
      unknownKey ["street", "city", "state", "postalCode"] "address." kvs ]

/-- The `address` schema: an object, or a string Joi converts to one. -/
def validateAddress (L : Lib) (v : Json) : Option String :=
  match v with
  | Json.obj kvs => validateAddressMembers kvs
  | Json.str s =>
    match L.joiParseObject s with
    | some kvs => validateAddressMembers kvs
    | none => some (quoted "address" ++ " must be of type object")
  | _ => some (quoted "address" ++ " must be of type object")

/-- The schema `Joi.date().allow(null)`. -/
def validateBirthday (L : Lib) (v : Json) : Option String :=
  match v with
  | Json.null => none
  | _ => if L.joiDate v then none else some (quoted "birthday" ++ " must be a valid date")

/-- The items of `tags`, each a `Joi.string().min(1).max(50)`. -/
def validateTagItems : Nat → List Json → Option String
  | _, [] => none
  | i, x :: rest =>
    match joiString ("tags[" ++ toString i ++ "]") false [ruleMin 1, ruleMax 50] x with
    | some e => some e
    | none => validateTagItems (i + 1) rest

/-- The schema `Joi.array().items(...)`. -/
def validateTags (L : Lib) (v : Json) : Option String :=
  match v with
  | Json.arr xs => validateTagItems 0 xs
  | Json.str s =>
    match L.joiParseArray s with
    | some xs => validateTagItems 0 xs
    | none => some (quoted "tags" ++ " must be an array")
  | _ => some (quoted "tags" ++ " must be an array")

/-- The schema `Joi.boolean()`; the strings "true" and "false" are converted. -/
def validateFavorite (v : Json) : Option String :=
  match v with
  | Json.bool _ => none
  | Json.str s =>
    if s.toLower = "true" ∨ s.toLower = "false" then none
    else some (quoted "favorite" ++ " must be a boolean")
  | _ => some (quoted "favorite" ++ " must be a boolean")

/-- The function `validateContact(data)`: `none` when `error` is undefined, otherwise
`error.details[0].message`. Keys are checked in the order of the schema,
unknown keys last. -/
def validateContact (L : Lib) (data : Json) : Option String :=
  match data with
  | Json.obj kvs =>
    firstError
      [ joiRequired "name" (joiString "name" false [ruleMin 4, ruleMax 50]) (lookupKey "name" kvs),
        joiRequired "phone" (joiString "phone" false [rulePhonePattern, ruleMin 7, ruleMax 15])
          (lookupKey "phone" kvs),
        joiRequired "email" (joiString "email" false [ruleEmail L]) (lookupKey "email" kvs),
        joiOptional (validateAddress L) (lookupKey "address" kvs),
        joiOptional (joiString "notes" true [ruleMax 500]) (lookupKey "notes" kvs),
        joiOptional (validateBirthday L) (lookupKey "birthday" kvs),
        joiOptional (validateTags L) (lookupKey "tags" kvs),
        joiOptional validateFavorite (lookupKey "favorite" kvs),
        unknownKey ["name", "phone", "email", "address", "notes", "birthday", "tags", "favorite"]
          "" kvs ]
  | _ => some (quoted "value" ++ " must be of type object")

/-! ## Store queries -/

/-- A middleware or route handler. -/
abbrev Handler := Ctx → Request → Store → Outcome × Store

/-- The test `v.length < k` for `v.length` read by `lengthOf` (false on `NaN` and on
`undefined`). `none` is a `TypeError`: that of the property access, or that of
the conversion of a member `length` to a primitive. -/
def lengthLt (L : Lib) (x : LengthOf) (k : Int) : Option Bool :=
  match x with
  | LengthOf.typeError => none
  | LengthOf.undefined => some false
  | LengthOf.number n => some (decide (n < k))
  | LengthOf.other j =>
    match jsToString j with
    | none => none
    | some _ =>
      match L.jsToNumber j with
      | some n => some (decide (n < k))
      | none => some false

/-- The test `v.length > k` for `v.length` read by `lengthOf` (false on `NaN` and on
`undefined`). `none` is a `TypeError`: that of the property access, or that of
the conversion of a member `length` to a primitive. -/
def lengthGt (L : Lib) (x : LengthOf) (k : Int) : Option Bool :=
  match x with
  | LengthOf.typeError => none
  | LengthOf.undefined => some false
  | LengthOf.number n => some (decide (k < n))
  | LengthOf.other j =>
    match jsToString j with
    | none => none
    | some _ =>
      match L.jsToNumber j with
      | some n => some (decide (k < n))
      | none => some false

/-- The call `mongoose.isValidObjectId(id)` on a route parameter. -/
def isValidObjectId (L : Lib) (id : String) : Bool := (L.castObjectId (Json.str id)).isSome

/-- The query `Contact.findOne({ _id: id, postedBy: owner })` after the cast of `id`. -/
def findOwnedContact (s : Store) (id owner : ObjectId) : Option Contact :=
  s.contacts.find? (fun c => c._id = id && c.postedBy = owner)

/-- The query `Contact.findOne({ _id: id })` after the cast of `id`. -/
def findContactById (s : Store) (id : ObjectId) : Option Contact :=
  s.contacts.find? (fun c => c._id = id)

/-- The query `User.findOne({ _id: id })`, also `User.findById(id)`. -/
def findUserById (s : Store) (id : ObjectId) : Option User :=
  s.users.find? (fun u => u._id = id)

/-- The query `User.findOne({ email })` after the cast of `email`. -/
def findUserByEmail (s : Store) (email : String) : Option User :=
  s.users.find? (fun u => u.email = email)

/-- The JSON form of a sanitized user. -/
def SanitizedUser.toJson (u : SanitizedUser) : Json :=
  Json.obj [("_id", Json.str u._id), ("name", Json.str u.name), ("email", Json.str u.email),
    ("createdAt", Json.num u.createdAt), ("updatedAt", Json.num u.updatedAt)]

/-- A present field as a JSON member. -/
def member (k : String) : Option Json → List (String × Json)
  | none => []
  | some v => [(k, v)]

/-- The JSON form of a contact document whose `postedBy` is rendered as `owner`. -/
def Contact.toJsonWith (c : Contact) (owner : Json) : Json :=
  Json.obj ([("_id", Json.str c._id)] ++ member "name" c.name ++ member "phone" c.phone ++
    member "email" c.email ++ member "address" c.address ++ member "notes" c.notes ++
    member "birthday" c.birthday ++ member "tags" c.tags ++ member "favorite" c.favorite ++
    [("postedBy", owner), ("createdAt", Json.num c.createdAt),
     ("updatedAt", Json.num c.updatedAt)])

/-- The JSON form of a contact document (`{ ...contact._doc }`). -/
def Contact.toJson (c : Contact) : Json := c.toJsonWith (Json.str c.postedBy)

/-- The result of `.populate("postedBy", "-password")` on one contact: the owner
without the password, or `null` when no such user exists. -/
def populatedJson (s : Store) (c : Contact) : Json :=
  match findUserById s c.postedBy with
  | some u => c.toJsonWith u.sanitize.toJson
  | none => c.toJsonWith Json.null

/-! ## The auth middleware (middlewares/auth.js) -/

/-- The call `s.split(" ")` on the characters of a string. -/
def splitOnSpace : List Char → List (List Char)
  | [] => [[]]
  | c :: cs =>
    match splitOnSpace cs with
    | [] => [[]]
    | w :: ws => if c = ' ' then [] :: w :: ws else (c :: w) :: ws

/-- The expression `authHeader.split(" ")[1]`; `none` is `undefined`. -/
def bearerToken (header : String) : Option String :=
  ((splitOnSpace header.toList).map String.mk)[1]?

/-- The call `jwt.sign(payload, secret, { expiresIn: "1h" })` for the payload
`{ _id }`: `iat` is the current time in seconds and `exp` lies 3600 seconds later. -/
def loginClaims (ctx : Ctx) (id : ObjectId) : Claims :=
  { _id := Json.str id, iat := ctx.nowMs / 1000, exp := ctx.nowMs / 1000 + 3600 }

/-- The call `jwt.verify(token, secret, callback)`: `none` when the callback gets
an error (no token, bad signature or malformed token, or the current time in
seconds has reached `exp`). -/
def jwtVerify (L : Lib) (ctx : Ctx) (token : Option String) : Option Claims :=
  match token with
  | none => none
  | some t =>
    match L.jwtDecode ctx.secret t with
    | none => none
    | some claims => if claims.exp ≤ ctx.nowMs / 1000 then none else some claims

/-- The body of the auth middleware: the response it sends, or the user it
attaches to the request. Its user lookup is database call 0 of the request. -/
def authenticate (L : Lib) (ctx : Ctx) (authorization : Option String) (s : Store) :
    Except Response SanitizedUser :=
  match authorization with
  | none => Except.error (errorResponse 403 "Forbidden: No token provided!")
  | some header =>
    if header = "" then Except.error (errorResponse 403 "Forbidden: No token provided!")
    else
      match jwtVerify L ctx (bearerToken header) with
      | none => Except.error (errorResponse 401 "Unauthorized!")
      | some payload =>
        if ctx.fault 0 then Except.error (errorResponse 500 "Internal Server Error")
        else
          match L.castObjectId payload._id with
          | none => Except.error (errorResponse 500 "Internal Server Error")
          | some uid =>
            match findUserById s uid with
            | none => Except.error (errorResponse 401 "Unauthorized!")
            | some user => Except.ok user.sanitize

/-- The auth middleware: it answers the request itself, or sets `req.user` and
calls `next()`. It never writes to the store. -/
def auth (L : Lib) : Handler := fun ctx req s =>
  match authenticate L ctx req.authorization s with
  | Except.error r => (Outcome.respond r, s)
  | Except.ok user => (Outcome.next { req with user := some user }, s)

/-! ## Contact routes (routes/contact.js) -/

/-- Mongoose's cast of one optional field of a new or updated contact:
the outer `none` is a `CastError`, an absent field stays absent. -/
def castOptional (L : Lib) (path : String) : Option Json → Option (Option Json)
  | none => some none
  | some v =>
    match L.castContactPath path v with
    | none => none
    | some w => some (some w)

/-- The check mongoose runs for `required: true` on a `String` path. -/
def requiredString : Option Json → Bool
  | some (Json.str s) => s != ""
  | _ => false

/-- The document `new Contact({ name, address, email, phone, notes, birthday, tags,
favorite, postedBy })` as `save()` stores it; `none` when the cast or the
validation of the schema fails. `favorite` defaults to `false` and `tags` to
the empty array. -/
def newContact (L : Lib) (ctx : Ctx) (body : Json) (owner : ObjectId) : Option Contact :=
  match castOptional L "name" (body.field "name"), castOptional L "address" (body.field "address"),
    castOptional L "email" (body.field "email"), castOptional L "phone" (body.field "phone"),
    castOptional L "notes" (body.field "notes"), castOptional L "birthday" (body.field "birthday"),
    castOptional L "tags" (body.field "tags"),
    castOptional L "favorite" (body.field "favorite") with
  | some name, some address, some email, some phone, some notes, some birthday, some tags,
    some favorite =>
    if requiredString name && requiredString phone && requiredString email then
      some
        { _id := ctx.freshId, name := name, phone := phone, email := email, address := address,
          notes := notes, birthday := birthday,
          tags := (match tags with
            | none => some (Json.arr [])
            | some t => some t),
          favorite := (match favorite with
            | none => some (Json.bool false)
            | some f => some f),
          postedBy := owner, createdAt := ctx.nowMs, updatedAt := ctx.nowMs }
    else none
  | _, _, _, _, _, _, _, _ => none

/-- The handler of `router.post("/contact", auth, ...)`. The insert is database call 1. -/
def postContact (L : Lib) : Handler := fun ctx req s =>
  match validateContact L req.body with
  | some msg => (Outcome.respond (errorResponse 400 msg), s)
  | none =>
    match req.user with
    | none => (Outcome.respond (errorResponse 500 "Server Error"), s)
    | some user =>
      match newContact L ctx req.body user._id with
      | none => (Outcome.respond (errorResponse 500 "Server Error"), s)
      | some c =>
        if ctx.fault 1 then (Outcome.respond (errorResponse 500 "Server Error"), s)
        else
          (Outcome.respond { status := 201, body := c.toJson },
            { s with contacts := s.contacts ++ [c] })

/-- The documents `Contact.find({ postedBy: owner })` returns, reversed. -/
def myContactsDocs (s : Store) (owner : ObjectId) : List Contact :=
  (s.contacts.filter (fun c => c.postedBy = owner)).reverse

/-- The handler of `router.get("/mycontacts", auth, ...)`. The find is database
call 1 and the populate database call 2. -/
def getMyContacts : Handler := fun ctx req s =>
  match req.user with
  | none => (Outcome.respond (errorResponse 500 "Server Error"), s)
  | some user =>
    if ctx.fault 1 || ctx.fault 2 then (Outcome.respond (errorResponse 500 "Server Error"), s)
    else
      (Outcome.respond
        { status := 200,
          body := Json.obj
            [("contacts", Json.arr ((myContactsDocs s user._id).map (populatedJson s)))] }, s)

/-- The first handler of `router.get("/contact/:id", auth, ...)` (lines 133-149). -/
def getContactOwned (L : Lib) : Handler := fun ctx req s =>
  if req.id = "" then (Outcome.respond (errorResponse 400 "No ID specified."), s)
  else if !isValidObjectId L req.id then
    (Outcome.respond (errorResponse 400 "Please enter a valid ID"), s)
  else
    match req.user, L.castObjectId (Json.str req.id) with
    | some user, some id =>
      if ctx.fault 1 then (Outcome.respond (errorResponse 500 "Server Error"), s)
      else
        match findOwnedContact s id user._id with
        | none => (Outcome.respond (errorResponse 404 "Contact not found"), s)
        | some c => (Outcome.respond { status := 200, body := c.toJson }, s)
    | _, _ => (Outcome.respond (errorResponse 500 "Server Error"), s)

/-- The second handler of `router.get("/contact/:id", auth, ...)` (lines 302-318),
which queries by `_id` alone. -/
def getContactAny (L : Lib) : Handler := fun ctx req s =>
  if req.id = "" then (Outcome.respond (errorResponse 400 "No ID specified."), s)
  else if !isValidObjectId L req.id then
    (Outcome.respond (errorResponse 400 "Please enter a valid ID"), s)
  else
    match L.castObjectId (Json.str req.id) with
    | some id =>
      if ctx.fault 1 then (Outcome.respond (errorResponse 500 "Server Error"), s)
      else
        match findContactById s id with
        | none => (Outcome.respond (errorResponse 404 "Contact not found"), s)
        | some c => (Outcome.respond { status := 200, body := c.toJson }, s)
    | none => (Outcome.respond (errorResponse 500 "Server Error"), s)

/-- The update document `{ name, address, email, phone, notes, birthday, tags, favorite }`
applied to a contact by `findByIdAndUpdate`: members that are `undefined` are left
out of the update, the others are cast and set, `updatedAt` is refreshed.
`none` is a `CastError`. -/
def applyUpdate (L : Lib) (ctx : Ctx) (body : Json) (c : Contact) : Option Contact :=
  match castOptional L "name" (body.field "name"), castOptional L "address" (body.field "address"),
    castOptional L "email" (body.field "email"), castOptional L "phone" (body.field "phone"),
    castOptional L "notes" (body.field "notes"), castOptional L "birthday" (body.field "birthday"),
    castOptional L "tags" (body.field "tags"),
    castOptional L "favorite" (body.field "favorite") with
  | some name, some address, some email, some phone, some notes, some birthday, some tags,
    some favorite =>
    some
      { c with
        name := name.orElse (fun _ => c.name), address := address.orElse (fun _ => c.address),
        email := email.orElse (fun _ => c.email), phone := phone.orElse (fun _ => c.phone),
        notes := notes.orElse (fun _ => c.notes),
        birthday := birthday.orElse (fun _ => c.birthday),
        tags := tags.orElse (fun _ => c.tags),
        favorite := favorite.orElse (fun _ => c.favorite),
        updatedAt := ctx.nowMs }
  | _, _, _, _, _, _, _, _ => none

/-- The test the query condition `{ _id: v }` puts on the `_id` of a document, for
a raw value `v` of the request body: equality with the ObjectId a plain value
casts to, or the test of an object of query operators. `none` is a `CastError`. -/
def idCondition (L : Lib) (v : Json) : Option (ObjectId → Bool) :=
  match L.castObjectId v with
  | some id => some (fun i => decide (i = id))
  | none => L.castIdOperators v

/-- The query `Contact.findOne({ _id: id, postedBy: owner })` for a raw `id` whose
condition on `_id` is `sel`. -/
def findOwnedWhere (s : Store) (sel : ObjectId → Bool) (owner : ObjectId) : Option Contact :=
  s.contacts.find? (fun c => sel c._id && c.postedBy = owner)

/-- The document `Contact.findByIdAndUpdate(id, ...)` picks for a raw `id` whose
condition on `_id` is `sel`: the call is `findOneAndUpdate({ _id: id }, ...)`,
with no condition on `postedBy`. -/
def findWhere (s : Store) (sel : ObjectId → Bool) : Option Contact :=
  s.contacts.find? (fun c => sel c._id)

/-- Replace the first contact whose `_id` passes `sel`. -/
def replaceWhere (sel : ObjectId → Bool) (d : Contact) : List Contact → List Contact
  | [] => []
  | c :: rest => if sel c._id then d :: rest else c :: replaceWhere sel d rest

/-- The handler of `router.put("/contact", auth, ...)`. The owner-scoped find is
database call 1 and `findByIdAndUpdate` database call 2; both receive the
member `id` of the body as it came. -/
def putContact (L : Lib) : Handler := fun ctx req s =>
  if !truthy (req.body.field "id") then
    (Outcome.respond (errorResponse 400 "No ID specified."), s)
  else
    match req.user, (req.body.field "id").bind (idCondition L) with
    | some user, some sel =>
      if ctx.fault 1 then (Outcome.respond (errorResponse 500 "Server Error"), s)
      else
        match findOwnedWhere s sel user._id with
        | none => (Outcome.respond (errorResponse 404 "Contact not found."), s)
        | some _ =>
          match findWhere s sel with
          | none =>
            if ctx.fault 2 then (Outcome.respond (errorResponse 500 "Server Error"), s)
            else (Outcome.respond { status := 200, body := Json.null }, s)
          | some target =>
            match applyUpdate L ctx req.body target with
            | none => (Outcome.respond (errorResponse 500 "Server Error"), s)
            | some updated =>
              if ctx.fault 2 then (Outcome.respond (errorResponse 500 "Server Error"), s)
              else
                (Outcome.respond { status := 200, body := updated.toJson },
                  { s with contacts := replaceWhere sel updated s.contacts })
    | _, _ => (Outcome.respond (errorResponse 500 "Server Error"), s)

/-- The handler of `router.delete("/contact/:id", auth, ...)`. The call
`findOneAndDelete` is database call 1; it removes the first match. -/
def deleteContact (L : Lib) : Handler := fun ctx req s =>
  match req.user, L.castObjectId (Json.str req.id) with
  | some user, some id =>
    if ctx.fault 1 then (Outcome.respond (errorResponse 500 "Server Error"), s)
    else
      match findOwnedContact s id user._id with
      | none => (Outcome.respond (errorResponse 404 "Contact not found."), s)
      | some _ =>
        (Outcome.respond (messageResponse 200 "Contact deleted successfully!"),
          { s with
            contacts := s.contacts.eraseP (fun c => c._id = id && c.postedBy = user._id) })
  | _, _ => (Outcome.respond (errorResponse 500 "Server Error"), s)

/-! ## Account routes (routes/auth.js) -/

/-- The text a template literal gives for a possibly undefined value; `none` is the
`TypeError` of the conversion to a string. -/
def templateText : Option Json → Option String
  | none => some "undefined"
  | some j => jsToString j

/-- A string argument of bcrypt; any other value makes the call raise. -/
def asString : Option Json → Option String
  | some (Json.str s) => some s
  | _ => none

/-- The handler of `router.post("/register", ...)`. The email lookup is database
call 0 and the insert database call 1. The four checks stand before the `try`
block, so a `TypeError` raised by one of them leaves the handler. -/
def register (L : Lib) : Handler := fun ctx req s =>
  let name := req.body.field "name"
  let email := req.body.field "email"
  let password := req.body.field "password"
  if !truthy name || !truthy email || !truthy password then
    (Outcome.respond (errorResponse 400 "Please enter all the required field."), s)
  else
    match lengthGt L (lengthOf name) 25 with
    | none => (Outcome.throws, s)
    | some true =>
      (Outcome.respond (errorResponse 400 "name can only be less than 25 characters"), s)
    | some false =>
      match emailRegTest email with
      | none => (Outcome.throws, s)
      | some false =>
        (Outcome.respond (errorResponse 400 "please enter a valid email address."), s)
      | some true =>
        match lengthLt L (lengthOf password) 6 with
        | none => (Outcome.throws, s)
        | some true =>
          (Outcome.respond (errorResponse 400 "password must be atleast 6 characters long"), s)
        | some false =>
          match email.bind L.castUserString with
          | none => (Outcome.respond (errorResponse 500 "Cast to string failed"), s)
          | some e =>
            if ctx.fault 0 then (Outcome.respond (errorResponse 500 "database error"), s)
            else
              match findUserByEmail s e with
              | some _ =>
                (match templateText email with
                 | none =>
                   (Outcome.respond
                     (errorResponse 500 "Cannot convert object to primitive value"), s)
                 | some t =>
                   (Outcome.respond (errorResponse 400
                     ("a user with that email [" ++ t ++
                       "] already exists so please try another one.")), s))
              | none =>
                match asString password, name.bind L.castUserString with
                | some pw, some n =>
                  if ctx.fault 1 then
                    (Outcome.respond (errorResponse 500 "database error"), s)
                  else
                    let user : User :=
                      { _id := ctx.freshId, name := n, email := e,
                        password := L.bcryptHash pw 12 ctx.salt,
                        createdAt := ctx.nowMs, updatedAt := ctx.nowMs }
                    (Outcome.respond { status := 201, body := user.sanitize.toJson },
                      { s with users := s.users ++ [user] })
                | _, _ => (Outcome.respond (errorResponse 500 "invalid arguments"), s)

/-- The handler of `router.post("/login", ...)`. The email lookup is database call 0.
The pattern test stands before the `try` block. -/
def login (L : Lib) : Handler := fun ctx req s =>
  let email := req.body.field "email"
  let password := req.body.field "password"
  if !truthy email || !truthy password then
    (Outcome.respond (errorResponse 400 "please enter all the required fields!"), s)
  else
    match emailRegTest email with
    | none => (Outcome.throws, s)
    | some false =>
      (Outcome.respond (errorResponse 400 "please enter a valid email address."), s)
    | some true =>
      match email.bind L.castUserString with
      | none => (Outcome.respond (errorResponse 500 "Cast to string failed"), s)
      | some e =>
        if ctx.fault 0 then (Outcome.respond (errorResponse 500 "database error"), s)
        else
          match findUserByEmail s e with
          | none => (Outcome.respond (errorResponse 400 "Invalid email or password!"), s)
          | some user =>
            match asString password with
            | none => (Outcome.respond (errorResponse 500 "data and hash must be strings"), s)
            | some pw =>
              if !L.bcryptCompare pw user.password then
                (Outcome.respond (errorResponse 400 "Invalid email or password!"), s)
              else
                (Outcome.respond
                  { status := 200,
                    body := Json.obj
                      [("token", Json.str (L.jwtEncode ctx.secret (loginClaims ctx user._id))),
                       ("user", user.sanitize.toJson)] }, s)

/-- The handler of `router.get("/me", auth, ...)`. -/
def me : Handler := fun _ req s =>
  match req.user with
  | none => (Outcome.throws, s)
  | some user => (Outcome.respond { status := 200, body := user.toJson }, s)

/-- Replace the password of the first user whose `_id` is `id` (`user.save()`). -/
def savePassword (id : ObjectId) (hash : String) (now : Nat) : List User → List User
  | [] => []
  | u :: rest =>
    if u._id = id then { u with password := hash, updatedAt := now } :: rest
    else u :: savePassword id hash now rest

/-- The handler of `router.put("/change-password", auth, ...)`. The call `findById`
is database call 1 and `save` database call 2. The length test stands before
the `try` block, so a `TypeError` raised there leaves the handler. -/
def changePassword (L : Lib) : Handler := fun ctx req s =>
  let currentPassword := req.body.field "currentPassword"
  let newPassword := req.body.field "newPassword"
  match lengthLt L (lengthOf newPassword) 6 with
  | none => (Outcome.throws, s)
  | some true =>
    (Outcome.respond (errorResponse 400 "Password must be at least 6 characters long."), s)
  | some false =>
    match req.user with
    | none => (Outcome.respond (errorResponse 500 "Cannot read properties of undefined"), s)
    | some caller =>
      if ctx.fault 1 then (Outcome.respond (errorResponse 500 "database error"), s)
      else
        match findUserById s caller._id with
        | none => (Outcome.respond (errorResponse 400 "User not found."), s)
        | some user =>
          match asString currentPassword with
          | none => (Outcome.respond (errorResponse 500 "data and hash arguments required"), s)
          | some cur =>
            if !L.bcryptCompare cur user.password then
              (Outcome.respond (errorResponse 400 "Current password is incorrect."), s)
            else
              match asString newPassword with
              | none =>
                (Outcome.respond (errorResponse 500 "data must be a string or Buffer"), s)
              | some new =>
                if ctx.fault 2 then (Outcome.respond (errorResponse 500 "database error"), s)
                else
                  (Outcome.respond (messageResponse 200 "Password successfully updated."),
                    { s with
                      users := savePassword caller._id (L.bcryptHash new 12 ctx.salt)
                        ctx.nowMs s.users })

/-! ## The routers and their dispatch (app.js) -/

/-- A registered route: method, path pattern (the segment `":id"` is the route
parameter) and the functions registered for it. -/
structure Route where
  method : Method
  pattern : List String
  chain : List Handler

/-- Match a path against a pattern; the result is the value of the `id`
parameter, if the pattern has one. -/
def matchPath : List String → List String → Option (Option String)
  | [], [] => some none
  | ":id" :: ps, seg :: segs =>
    (match ps, segs with
     | [], [] => if seg = "" then none else some (some seg)
     | _, _ => none)
  | p :: ps, seg :: segs => if p = seg then matchPath ps segs else none
  | _, _ => none

/-- Run the functions of one route in order; each runs when its predecessor
called `next()`. -/
def runChain : List Handler → Handler
  | [], _, req, s => (Outcome.next req, s)
  | h :: rest, ctx, req, s =>
    match h ctx req s with
    | (Outcome.next req', s') => runChain rest ctx req' s'
    | result => result

/-- Express tries the routes in registration order; a route that matches method
and path runs, and later routes are tried only if it passes control on. A
request that no route answers gets the default 404 of Express. -/
def dispatch : List Route → Handler
  | [], _, _, s => (Outcome.respond { status := 404, body := Json.null }, s)
  | r :: rest, ctx, req, s =>
    if r.method = req.method then
      match matchPath r.pattern req.path with
      | some param =>
        (match runChain r.chain ctx { req with id := param.getD req.id } s with
         | (Outcome.next req', s') => dispatch rest ctx req' s'
         | result => result)
      | none => dispatch rest ctx req s
    else dispatch rest ctx req s

/-- The routes of `routes/auth.js` followed by those of `routes/contact.js`, both
mounted under `/api`, in registration order. -/
def routes (L : Lib) : List Route :=
  [ { method := Method.POST, pattern := ["api", "register"], chain := [register L] },
    { method := Method.POST, pattern := ["api", "login"], chain := [login L] },
    { method := Method.GET, pattern := ["api", "me"], chain := [auth L, me] },
    { method := Method.PUT, pattern := ["api", "change-password"],
      chain := [auth L, changePassword L] },
    { method := Method.POST, pattern := ["api", "contact"], chain := [auth L, postContact L] },
    { method := Method.GET, pattern := ["api", "mycontacts"], chain := [auth L, getMyContacts] },
    { method := Method.GET, pattern := ["api", "contact", ":id"],
      chain := [auth L, getContactOwned L] },
    { method := Method.PUT, pattern := ["api", "contact"], chain := [auth L, putContact L] },
    { method := Method.DELETE, pattern := ["api", "contact", ":id"],
      chain := [auth L, deleteContact L] },
    { method := Method.GET, pattern := ["api", "contact", ":id"],
      chain := [auth L, getContactAny L] } ]

/-- The application: the request is dispatched over the registered routes. -/
def app (L : Lib) : Handler := dispatch (routes L)

/-! ## The client views (frontend/src/pages) -/

/-- A request a view sends with `fetch`: the function that sends it, the method
and the segments of the path of the URL. -/
structure ClientCall where
  sender : String
  method : Method
  path : List String

/-- The call of `fetchContacts` (AllContact.js): `GET /api/mycontacts`. -/
def callFetchContacts : ClientCall :=
  { sender := "AllContact.fetchContacts", method := Method.GET, path := ["api", "mycontacts"] }

/-- The call of `deleteContact(id)` (AllContact.js): `DELETE /api/delete/${id}`. -/
def callDeleteContact (id : String) : ClientCall :=
  { sender := "AllContact.deleteContact", method := Method.DELETE, path := ["api", "delete", id] }

/-- The call of `handleFavoriteToggle(id)` (AllContact.js): `PATCH /api/favorite/${id}`. -/
def callFavoriteToggle (id : String) : ClientCall :=
  { sender := "AllContact.handleFavoriteToggle", method := Method.PATCH,
    path := ["api", "favorite", id] }

/-- The call of `handleSubmit` (CreateContact.js): `POST /api/contact`. -/
def callCreateContact : ClientCall :=
  { sender := "CreateContact.handleSubmit", method := Method.POST, path := ["api", "contact"] }

/-- The call of `fetchContact` (EditContact.js): `GET /api/contact/${id}`. -/
def callFetchContact (id : String) : ClientCall :=
  { sender := "EditContact.fetchContact", method := Method.GET, path := ["api", "contact", id] }

/-- The call of `handleSubmit` (EditContact.js): `PUT /api/contact`. -/
def callUpdateContact : ClientCall :=
  { sender := "EditContact.handleSubmit", method := Method.PUT, path := ["api", "contact"] }

/-- The call of `fetchUserProfile` (Profile.js): `GET /api/me`. -/
def callFetchProfile : ClientCall :=
  { sender := "Profile.fetchUserProfile", method := Method.GET, path := ["api", "me"] }

/-- The call of `handlePasswordChange` (Profile.js): `PUT /user/change-password`. -/
def callChangePassword : ClientCall :=
  { sender := "Profile.handlePasswordChange", method := Method.PUT,
    path := ["user", "change-password"] }

/-- Whether the server registers a route for a call. -/
def serverRegisters (L : Lib) (call : ClientCall) : Bool :=
  (routes L).any (fun r => r.method = call.method && (matchPath r.pattern call.path).isSome)

/-- The functions of the JavaScript runtime the contact list calls. -/
structure Browser where
  /-- The method `String.prototype.toLowerCase`. -/
  toLowerCase : String → String
  /-- The method `a.localeCompare(b)`: negative, zero or positive. -/
  localeCompare : String → String → Int
  /-- The time value of `new Date(v)`; `none` is `NaN`, an invalid date. -/
  dateValue : Json → Option Int

/-- A contact as the list view reads it: search, sort and paging read only
`name` and `birthday`. -/
structure Row where
  _id : String
  name : String
  birthday : Json

/-- The state of `AllContact` that search, sort and paging use. -/
structure ListView where
  contacts : List Row
  originalContacts : List Row
  searchInput : String
  sortField : String
  sortOrder : String
  currentPage : Int

/-- The initial state: `useState([])`, `useState("")`, `useState("name")`, `useState("asc")`,
`useState(1)`. -/
def ListView.initial : ListView :=
  { contacts := [], originalContacts := [], searchInput := "", sortField := "name",
    sortOrder := "asc", currentPage := 1 }

/-- The constant state `contactsPerPage`. -/
def contactsPerPage : Nat := 5

/-- The effect of a successful `fetchContacts`: both lists are set to the result. -/
def ListView.loaded (rows : List Row) (v : ListView) : ListView :=
  { v with contacts := rows, originalContacts := rows }

/-- The change handler of the search field. -/
def ListView.setSearchInput (text : String) (v : ListView) : ListView :=
  { v with searchInput := text }

/-- The method `String.prototype.trim`: white space and line terminators are
removed at both ends. -/
def jsTrim (s : String) : String :=
  String.mk ((s.toList.dropWhile isJsSpace).reverse.dropWhile isJsSpace).reverse

/-- Whether a list of characters begins with another. -/
def startsWithChars : List Char → List Char → Bool
  | _, [] => true
  | [], _ :: _ => false
  | h :: hs, n :: ns => h == n && startsWithChars hs ns

/-- Whether a list of characters occurs in another at some position. -/
def includesChars : List Char → List Char → Bool
  | [], needle => startsWithChars [] needle
  | h :: hs, needle => startsWithChars (h :: hs) needle || includesChars hs needle

/-- The method `hay.includes(needle)`. -/
def jsIncludes (hay needle : String) : Bool := includesChars hay.toList needle.toList

/-- The function `handleSearchSubmit`: a blank input only raises a toast; otherwise
the displayed list becomes the filtered `originalContacts`. -/
def handleSearchSubmit (B : Browser) (v : ListView) : ListView :=
  if jsTrim v.searchInput = "" then v
  else
    { v with
      contacts := v.originalContacts.filter
        (fun contact => jsIncludes (B.toLowerCase contact.name) (B.toLowerCase v.searchInput)) }

/-- The function `clearSearch`. -/
def clearSearch (v : ListView) : ListView :=
  { v with contacts := v.originalContacts, searchInput := "" }

/-- The comparator handed to `sort` in `handleSort`; a result `NaN` counts as zero. -/
def sortCompare (B : Browser) (field newSortOrder : String) (a b : Row) : Int :=
  if field = "name" then
    (if newSortOrder = "asc" then B.localeCompare a.name b.name
     else B.localeCompare b.name a.name)
  else if field = "birthday" then
    (match B.dateValue a.birthday, B.dateValue b.birthday with
     | some x, some y => if newSortOrder = "asc" then x - y else y - x
     | _, _ => 0)
  else 0

/-- The method `Array.prototype.sort` with a comparator, on a copy of the list: a
stable sort. -/
def jsSort (cmp : Row → Row → Int) (rows : List Row) : List Row :=
  rows.insertionSort (fun a b => cmp a b ≤ 0)

/-- The sort order `handleSort(field)` chooses. -/
def newSortOrder (field : String) (v : ListView) : String :=
  if v.sortField = field ∧ v.sortOrder = "asc" then "desc" else "asc"

/-- The function `handleSort(field)`. -/
def handleSort (B : Browser) (field : String) (v : ListView) : ListView :=
  { v with
    sortField := field, sortOrder := newSortOrder field v,
    contacts := jsSort (sortCompare B field (newSortOrder field v)) v.contacts }

/-- An index of `slice` brought into the range of the list: a negative index
counts from the end. -/
def clampIndex (len : Nat) (i : Int) : Nat :=
  if i < 0 then (len + i).toNat else min i.toNat len

/-- The method `Array.prototype.slice(start, end)`. -/
def jsSlice (rows : List Row) (start stop : Int) : List Row :=
  (rows.drop (clampIndex rows.length start)).take
    (clampIndex rows.length stop - clampIndex rows.length start)

/-- The rows of a page: `contacts.slice(indexOfFirstContact, indexOfLastContact)` with
`indexOfLastContact = page * contactsPerPage` and
`indexOfFirstContact = indexOfLastContact - contactsPerPage`. -/
def pageRows (rows : List Row) (page : Int) : List Row :=
  jsSlice rows (page * contactsPerPage - contactsPerPage) (page * contactsPerPage)

/-- The value `Math.ceil(contacts.length / contactsPerPage)`. -/
def pageCount (rows : List Row) : Nat := (rows.length + contactsPerPage - 1) / contactsPerPage

/-- The rows shown: `currentContacts`. -/
def ListView.currentContacts (v : ListView) : List Row := pageRows v.contacts v.currentPage

/-- The number of pages: `totalPages`. -/
def ListView.totalPages (v : ListView) : Int := pageCount v.contacts

/-- The function `handlePageChange(page)`. -/
def handlePageChange (page : Int) (v : ListView) : ListView := { v with currentPage := page }

/-- The attribute `disabled` of the button Previous. -/
def ListView.previousDisabled (v : ListView) : Bool := v.currentPage = 1

/-- The attribute `disabled` of the button Next. -/
def ListView.nextDisabled (v : ListView) : Bool := v.currentPage = v.totalPages

/-- A click on Previous: nothing when the button is disabled. -/
def clickPrevious (v : ListView) : ListView :=
  if v.previousDisabled then v else handlePageChange (v.currentPage - 1) v

/-- A click on Next: nothing when the button is disabled. -/
def clickNext (v : ListView) : ListView :=
  if v.nextDisabled then v else handlePageChange (v.currentPage + 1) v

/-! ## Properties of stores and handlers -/

/-- Uniqueness of `_id` in the contact collection, which the database guarantees. -/
def Store.UniqueContactIds (s : Store) : Prop := (s.contacts.map (fun c => c._id)).Nodup

instance (s : Store) : Decidable s.UniqueContactIds := by
  unfold Store.UniqueContactIds
  infer_instance

/-- A handler that always ends the request itself: it never calls `next()`. -/
def NeverNext (h : Handler) : Prop :=
  ∀ ctx req s req' s', h ctx req s ≠ (Outcome.next req', s')

/-- No two user records carry the same email. -/
def Store.UniqueEmails (s : Store) : Prop := (s.users.map (fun u => u.email)).Nodup

instance (s : Store) : Decidable s.UniqueEmails := by
  unfold Store.UniqueEmails
  infer_instance

/-- The stores the API can reach from the empty database: each step is one
request, of any kind and in any context, served by the application. -/
inductive Reachable (L : Lib) : Store → Prop where
  | empty : Reachable L { users := [], contacts := [] }
  | step (ctx : Ctx) (req : Request) {s : Store} :
      Reachable L s → Reachable L (app L ctx req s).2

/-- A handler under which a property of the store is kept. -/
def Preserves (I : Store → Prop) (h : Handler) : Prop :=
  ∀ ctx req s, I s → I (h ctx req s).2

/-- A handler that leaves the user collection as it is. -/
def KeepsUsers (h : Handler) : Prop := ∀ ctx req s, (h ctx req s).2.users = s.users

/-- A member of the JSON body of an outcome, when a response was sent and its
body has that member. -/
def Outcome.member (o : Outcome) (k : String) : Option Json :=
  o.body?.bind (fun b => b.field k)

/-- The checks of `validateContact` on the members of the body other than
`phone`, in the order of the schema. -/
def validateContactExceptPhone (L : Lib) (kvs : List (String × Json)) : Option String :=
  firstError
    [ joiRequired "name" (joiString "name" false [ruleMin 4, ruleMax 50]) (lookupKey "name" kvs),
      joiRequired "email" (joiString "email" false [ruleEmail L]) (lookupKey "email" kvs),
      joiOptional (validateAddress L) (lookupKey "address" kvs),
      joiOptional (joiString "notes" true [ruleMax 500]) (lookupKey "notes" kvs),
      joiOptional (validateBirthday L) (lookupKey "birthday" kvs),
      joiOptional (validateTags L) (lookupKey "tags" kvs),
      joiOptional validateFavorite (lookupKey "favorite" kvs),
      unknownKey ["name", "phone", "email", "address", "notes", "birthday", "tags", "favorite"]
        "" kvs ]

/-- A phone value as the schema wants it: a string of 7 to 15 characters, each
a digit or one of `+`, `(`, `)`, `-`. -/
def PhoneOk (v : Option Json) : Prop :=
  ∃ p : String, v = some (Json.str p) ∧ 7 ≤ p.length ∧ p.length ≤ 15 ∧
    ∀ c ∈ p.toList, isPhoneChar c = true

/-- An updated contact keeps its identifier and its owner. -/
def SameIdentity (c d : Contact) : Prop := d._id = c._id ∧ d.postedBy = c.postedBy

/-- What serving one request can do to the store, with the outcome `o` of the
request: nothing; one user appended (a 201 of the register route); the
password of the caller's record replaced (a 200 of the change-password
route); one contact of the authenticated caller appended; contacts replaced
by contacts of the same identity; contacts removed. -/
inductive StepEffect (L : Lib) (ctx : Ctx) (req : Request) (s : Store) (o : Outcome) :
    Store → Prop where
  | unchanged : StepEffect L ctx req s o s
  | registered (u : User) :
      req.method = Method.POST → req.path = ["api", "register"] → o.status? = some 201 →
      u._id = ctx.freshId →
      StepEffect L ctx req s o { users := s.users ++ [u], contacts := s.contacts }
  | passwordChanged (A : SanitizedUser) (hash : String) :
      req.method = Method.PUT → req.path = ["api", "change-password"] → o.status? = some 200 →
      authenticate L ctx req.authorization s = Except.ok A →
      StepEffect L ctx req s o
        { users := savePassword A._id hash ctx.nowMs s.users, contacts := s.contacts }
  | created (A : SanitizedUser) (c : Contact) :
      authenticate L ctx req.authorization s = Except.ok A → c.postedBy = A._id →
      StepEffect L ctx req s o { users := s.users, contacts := s.contacts ++ [c] }
  | updated (cs : List Contact) :
      List.Forall₂ SameIdentity s.contacts cs →
      StepEffect L ctx req s o { users := s.users, contacts := cs }
  | deleted (cs : List Contact) :
      cs.Sublist s.contacts →
      StepEffect L ctx req s o { users := s.users, contacts := cs }

/-- A user record after a password change of the user `id`: identifier, name
and email are kept, and a record of another user is kept whole. -/
def UserKept (id : ObjectId) (u v : User) : Prop :=
  v._id = u._id ∧ v.name = u.name ∧ v.email = u.email ∧ (u._id ≠ id → v = u)

/-- The stores reachable from the empty database when every request is
served with an identifier for new documents that no stored user carries, as
the generator of ObjectIds provides. -/
inductive ReachableFresh (L : Lib) : Store → Prop where
  | empty : ReachableFresh L { users := [], contacts := [] }
  | step (ctx : Ctx) (req : Request) {s : Store} :
      ReachableFresh L s → ctx.freshId ∉ s.users.map (fun u => u._id) →
      ReachableFresh L (app L ctx req s).2

/-- User identifiers are pairwise distinct and every contact is owned by a
stored user. -/
def Store.OwnersPresent (s : Store) : Prop :=
  (s.users.map (fun u => u._id)).Nodup ∧
    ∀ c ∈ s.contacts, c.postedBy ∈ s.users.map (fun u => u._id)

/-- A handler from which no exception escapes. -/
def NeverThrows (h : Handler) : Prop := ∀ ctx req s, (h ctx req s).1 ≠ Outcome.throws

/-- Two rows in chronological order of their birthdays, both being valid dates. -/
def BirthdayLe (B : Browser) (a b : Row) : Prop :=
  ∃ x y, B.dateValue a.birthday = some x ∧ B.dateValue b.birthday = some y ∧ x ≤ y

/-- The current page of a view lies between 1 and `totalPages`. -/
def PageInRange (v : ListView) : Prop :=
  1 ≤ v.currentPage ∧ v.currentPage ≤ v.totalPages

/-! ## A concrete library for evaluating the model on examples -/

/-- Read a decimal number. -/
def parseDigits : List Char → Option Nat
  | [] => none
  | cs => cs.foldl (fun acc c =>
      match acc with
      | some n => if isDigit09 c then some (n * 10 + (c.toNat - 48)) else none
      | none => none) (some 0)

/-- Split a list of characters at the dots. -/
def splitOnDot : List Char → List (List Char)
  | [] => [[]]
  | c :: cs =>
    match splitOnDot cs with
    | [] => [[]]
    | w :: ws => if c = '.' then [] :: w :: ws else (c :: w) :: ws

/-- A toy library: every non-empty string is an ObjectId, casts are the
identity on strings, a token is `secret.id.iat.exp` in clear, and a bcrypt hash is
the password behind a fixed tag. -/
def demoLib : Lib where
  castObjectId := fun j =>
    match j with
    | Json.str s => if s = "" then none else some s
    | _ => none
  castIdOperators := fun j =>
    match j with
    | Json.obj [(k, Json.null)] => if k = "$ne" then some (fun _ => true) else none
    | _ => none
  castContactPath := fun _ v => some v
  castUserString := fun j =>
    match j with
    | Json.str s => some s
    | _ => none
  jwtEncode := fun secret c =>
    secret ++ "." ++ (jsToString c._id).getD "" ++ "." ++ toString c.iat ++ "." ++
      toString c.exp
  jwtDecode := fun secret t =>
    match splitOnDot t.toList with
    | [k, id, iat, exp] =>
      if String.mk k = secret then
        match parseDigits iat, parseDigits exp with
        | some i, some e => some { _id := Json.str (String.mk id), iat := i, exp := e }
        | _, _ => none
      else none
    | _ => none
  bcryptHash := fun pw _ _ => "hash:" ++ pw
  bcryptCompare := fun pw hash => hash == "hash:" ++ pw
  joiEmail := fun e => emailRegExp.accepts e.toList
  joiDate := fun j =>
    match j with
    | Json.num _ => true
    | _ => false
  joiParseObject := fun _ => none
  joiParseArray := fun _ => none
  jsToNumber := fun _ => none

/-! ## Example data -/

/-- An example user, the caller of the examples. -/
def demoAnn : User :=
  { _id := "u1", name := "Ann", email := "ann@x.io", password := "hash:secret1",
    createdAt := 1, updatedAt := 1 }

/-- A second example user. -/
def demoBob : User :=
  { _id := "u2", name := "Bob", email := "bob@x.io", password := "hash:secret2",
    createdAt := 2, updatedAt := 2 }

/-- An example contact owned by the second user. -/
def demoContactOfBob : Contact :=
  { _id := "c1", name := some (Json.str "Carl"), phone := some (Json.str "1234567"),
    email := some (Json.str "c@x.io"), address := none, notes := none, birthday := none,
    tags := some (Json.arr []), favorite := some (Json.bool false), postedBy := "u2",
    createdAt := 3, updatedAt := 3 }

/-- An example contact owned by the first user. -/
def demoContactOfAnn : Contact :=
  { _id := "c2", name := some (Json.str "Dora"), phone := some (Json.str "7654321"),
    email := some (Json.str "d@x.io"), address := none, notes := none, birthday := none,
    tags := some (Json.arr []), favorite := some (Json.bool false), postedBy := "u1",
    createdAt := 4, updatedAt := 4 }

/-- An example store: two users and one contact of each. -/
def demoStore : Store :=
  { users := [demoAnn, demoBob], contacts := [demoContactOfBob, demoContactOfAnn] }

/-- An example context: no database call fails, the clock shows 5 seconds. -/
def demoCtx : Ctx :=
  { secret := "k", nowMs := 5000, fault := fun _ => false, freshId := "c9", salt := "s" }

/-- A request of the first example user, carrying a token valid at `demoCtx`. -/
def demoRequest (body : Json) : Request :=
  { method := Method.GET, path := [], authorization := some "Bearer k.u1.5.3605",
    body := body, id := "", user := none }

/-- A body `validateContact` accepts. -/
def demoContactBody : Json :=
  Json.obj [("name", Json.str "Dora Smith"), ("phone", Json.str "+1-555-1234"),
    ("email", Json.str "dora@x.io")]

/-- The example store before any contact is created. -/
def demoEmptyStore : Store := { users := [demoAnn, demoBob], contacts := [] }

/-- The example context with a chosen identifier for the next document. -/
def demoCtxFresh (id : ObjectId) : Ctx := { demoCtx with freshId := id }

/-- The example request for creating a contact. -/
def demoPost : Request :=
  { demoRequest demoContactBody with method := Method.POST, path := ["api", "contact"] }

/-- The example store after one contact was created. -/
def demoAfterOne : Store := (app demoLib (demoCtxFresh "n1") demoPost demoEmptyStore).2

/-- The example store after two contacts were created. -/
def demoAfterTwo : Store := (app demoLib (demoCtxFresh "n2") demoPost demoAfterOne).2

/-- The example store after three contacts were created. -/
def demoAfterThree : Store := (app demoLib (demoCtxFresh "n3") demoPost demoAfterTwo).2

/-- The contact the example request creates under a given identifier. -/
def demoCreated (id : ObjectId) : Contact :=
  { _id := id, name := some (Json.str "Dora Smith"), phone := some (Json.str "+1-555-1234"),
    email := some (Json.str "dora@x.io"), address := none, notes := none, birthday := none,
    tags := some (Json.arr []), favorite := some (Json.bool false), postedBy := "u1",
    createdAt := 5000, updatedAt := 5000 }

/-- A registration payload that repeats the email of the first example user. -/
def demoDuplicateRegistration : Json :=
  Json.obj [("name", Json.str "Ann Again"), ("email", Json.str "ann@x.io"),
    ("password", Json.str "secret12")]

/-- A password change whose current password is wrong. -/
def demoWrongPasswordChange : Json :=
  Json.obj [("currentPassword", Json.str "wrong"), ("newPassword", Json.str "longenough")]

/-- A password change with a wrong current password and no new password. -/
def demoWrongPasswordOnly : Json := Json.obj [("currentPassword", Json.str "wrong")]

/-- The credentials of the first example user. -/
def demoLoginBody : Json :=
  Json.obj [("email", Json.str "ann@x.io"), ("password", Json.str "secret1")]

/-- A request that carries no `Authorization` header. -/
def demoAnonymous : Request :=
  { method := Method.GET, path := [], authorization := none, body := demoContactBody,
    id := "", user := none }

/-- A contact body whose phone fails the pattern. -/
def demoBadPhoneBody : Json :=
  Json.obj [("name", Json.str "Dora Smith"), ("phone", Json.str "abc"),
    ("email", Json.str "dora@x.io")]

/-- A contact body whose name is too short. -/
def demoShortNameBody : Json :=
  Json.obj [("name", Json.str "Al"), ("phone", Json.str "+1-555-1234"),
    ("email", Json.str "dora@x.io")]

/-- A registration whose email is an object with a member `toString`. -/
def demoObjectEmailRegistration : Json :=
  Json.obj [("name", Json.str "N"), ("email", Json.obj [("toString", Json.num 1)]),
    ("password", Json.str "123")]

/-- A registration whose password has 3 characters. -/
def demoShortPasswordRegistration : Json :=
  Json.obj [("name", Json.str "Nora"), ("email", Json.str "new@x.io"),
    ("password", Json.str "123")]

/-- A registration with a name of 25 and a password of 6 characters. -/
def demoBoundaryRegistration : Json :=
  Json.obj [("name", Json.str "abcdefghijklmnopqrstuvwxy"), ("email", Json.str "new@x.io"),
    ("password", Json.str "123456")]

/-- An update of the first example user's contact with a name of two
characters and the phone `"abc"`. -/
def demoInvalidUpdate : Json :=
  Json.obj [("id", Json.str "c2"), ("name", Json.str "ab"), ("phone", Json.str "abc")]

/-- The contact the example update leaves in the store. -/
def demoContactAfterInvalidUpdate : Contact :=
  { demoContactOfAnn with
    name := some (Json.str "ab"), phone := some (Json.str "abc"), updatedAt := 5000 }

/-- An update whose `id` is the query operator object `{ "$ne": null }`. -/
def demoOperatorUpdate : Json :=
  Json.obj [("id", Json.obj [("$ne", Json.null)]), ("name", Json.str "Renamed")]

/-- The contact of the second user with the name of the operator update. -/
def demoContactOfBobRenamed : Contact :=
  { demoContactOfBob with name := some (Json.str "Renamed"), updatedAt := 5000 }

/-- The example store without the contact of the second user. -/
def demoStoreWithoutBob : Store :=
  { users := [demoAnn, demoBob], contacts := [demoContactOfAnn] }

/-- The lower case of an ASCII letter. -/
def demoLowerChar (c : Char) : Char :=
  if 65 ≤ c.toNat ∧ c.toNat ≤ 90 then Char.ofNat (c.toNat + 32) else c

/-- The comparison of two lists of characters by their code points, as a sign. -/
def demoCompareChars : List Char → List Char → Int
  | [], [] => 0
  | [], _ :: _ => -1
  | _ :: _, [] => 1
  | a :: as, b :: bs =>
    if a.toNat < b.toNat then -1 else if b.toNat < a.toNat then 1 else demoCompareChars as bs

/-- A toy runtime: lower case of the ASCII letters, comparison by code points,
and the number itself as the time value of a date. -/
def demoBrowser : Browser where
  toLowerCase := fun s => String.mk (s.toList.map demoLowerChar)
  localeCompare := fun a b => demoCompareChars a.toList b.toList
  dateValue := fun j =>
    match j with
    | Json.num n => some n
    | _ => none

/-- Example rows of the contact list. -/
def demoRows : List Row :=
  [ { _id := "r1", name := "Carl", birthday := Json.num 30 },
    { _id := "r2", name := "Ann", birthday := Json.num 10 },
    { _id := "r3", name := "Bob", birthday := Json.num 20 },
    { _id := "r4", name := "Dora", birthday := Json.num 40 },
    { _id := "r5", name := "Eve", birthday := Json.num 50 },
    { _id := "r6", name := "Anna", birthday := Json.num 60 } ]

/-- The example view: the example rows fetched into the initial state. -/
def demoListView : ListView := ListView.initial.loaded demoRows

/-- The example view after Next was clicked, "ann" typed into the search field and the
search submitted. -/
def demoSearchOnSecondPage : ListView :=
  handleSearchSubmit demoBrowser (ListView.setSearchInput "ann" (clickNext demoListView))

/-! ## Lemmas on lookups and dispatch -/

theorem eq_of_id_eq {s : Store} (h : s.UniqueContactIds) {c d : Contact}
    (hc : c ∈ s.contacts) (hd : d ∈ s.contacts) (hid : d._id = c._id) : d = c :=
  List.inj_on_of_nodup_map h hd hc hid

theorem findOwnedContact_eq_none {s : Store} (h : s.UniqueContactIds) {c : Contact}
    (hc : c ∈ s.contacts) {owner : ObjectId} (hown : c.postedBy ≠ owner) :
    findOwnedContact s c._id owner = none := by
  unfold findOwnedContact
  rw [List.find?_eq_none]
  intro d hd hp
  simp only [Bool.and_eq_true, decide_eq_true_eq] at hp
  have := eq_of_id_eq h hc hd hp.1
  subst this
  exact hown hp.2

theorem dispatch_skip (r : Route) (rest : List Route) (ctx : Ctx) (req : Request) (s : Store)
    (h : r.method ≠ req.method ∨ matchPath r.pattern req.path = none) :
    dispatch (r :: rest) ctx req s = dispatch rest ctx req s := by
  rcases h with h | h
  · simp [dispatch, h]
  · simp [dispatch, h]

theorem dispatch_hit (r : Route) (rest : List Route) (ctx : Ctx) (req : Request) (s : Store)
    (param : Option String) (hm : r.method = req.method)
    (hp : matchPath r.pattern req.path = some param) (hn : NeverNext (runChain r.chain)) :
    dispatch (r :: rest) ctx req s = runChain r.chain ctx { req with id := param.getD req.id } s := by
  simp only [dispatch, hm, hp, if_true]
  split
  · next req' s' heq => exact absurd heq (hn _ _ _ _ _)
  · rfl

theorem neverNext_chain (L : Lib) (h : Handler) (hh : NeverNext h) :
    NeverNext (runChain [auth L, h]) := by
  intro ctx req s req' s'
  simp only [runChain, auth]
  cases authenticate L ctx req.authorization s with
  | error r => simp
  | ok u =>
    simp only
    split
    · next r1 s1 heq => exact absurd heq (hh _ _ _ _ _)
    · next hres => exact hh _ _ _ _ _

theorem neverNext_getContactOwned (L : Lib) : NeverNext (getContactOwned L) := by
  intro ctx req s req' s'
  unfold getContactOwned
  repeat' split
  all_goals simp

theorem neverNext_putContact (L : Lib) : NeverNext (putContact L) := by
  intro ctx req s req' s'
  unfold putContact
  repeat' split
  all_goals simp

theorem neverNext_deleteContact (L : Lib) : NeverNext (deleteContact L) := by
  intro ctx req s req' s'
  unfold deleteContact
  repeat' split
  all_goals simp


theorem app_getContact (L : Lib) (ctx : Ctx) (s : Store) (req : Request) (idStr : String)
    (hne : idStr ≠ "") (hm : req.method = Method.GET)
    (hp : req.path = ["api", "contact", idStr]) :
    app L ctx req s = runChain [auth L, getContactOwned L] ctx { req with id := idStr } s := by
  unfold app routes
  iterate 6 rw [dispatch_skip _ _ _ _ _ (by simp [hm, hp, matchPath])]
  rw [dispatch_hit _ _ _ _ _ (some idStr) (by simp [hm]) (by simp [hp, matchPath, hne])
    (neverNext_chain L _ (neverNext_getContactOwned L))]
  rfl

theorem app_putContact (L : Lib) (ctx : Ctx) (s : Store) (req : Request)
    (hm : req.method = Method.PUT) (hp : req.path = ["api", "contact"]) :
    app L ctx req s = runChain [auth L, putContact L] ctx req s := by
  unfold app routes
  iterate 7 rw [dispatch_skip _ _ _ _ _ (by simp [hm, hp, matchPath])]
  rw [dispatch_hit _ _ _ _ _ none (by simp [hm]) (by simp [hp, matchPath])
    (neverNext_chain L _ (neverNext_putContact L))]
  rfl

theorem app_deleteContact (L : Lib) (ctx : Ctx) (s : Store) (req : Request) (idStr : String)
    (hne : idStr ≠ "") (hm : req.method = Method.DELETE)
    (hp : req.path = ["api", "contact", idStr]) :
    app L ctx req s = runChain [auth L, deleteContact L] ctx { req with id := idStr } s := by
  unfold app routes
  iterate 8 rw [dispatch_skip _ _ _ _ _ (by simp [hm, hp, matchPath])]
  rw [dispatch_hit _ _ _ _ _ (some idStr) (by simp [hm]) (by simp [hp, matchPath, hne])
    (neverNext_chain L _ (neverNext_deleteContact L))]
  rfl

/-- runChain of auth and a handler, once the caller is authenticated. -/
theorem runChain_auth_ok (L : Lib) (h : Handler) (hh : NeverNext h) (ctx : Ctx) (req : Request)
    (s : Store) (A : SanitizedUser) (hdr : Option String)
    (hauth : authenticate L ctx hdr s = Except.ok A) (hreq : req.authorization = hdr) :
    runChain [auth L, h] ctx req s = h ctx { req with user := some A } s := by
  simp only [runChain, auth, hreq, hauth]
  split
  · next r1 s1 heq => exact absurd heq (hh _ _ _ _ _)
  · rfl

theorem idCondition_of_cast {L : Lib} {v : Json} {id : ObjectId}
    (h : L.castObjectId v = some id) :
    idCondition L v = some (fun i => decide (i = id)) := by
  simp only [idCondition, h]

theorem findOwnedWhere_eq (s : Store) (id owner : ObjectId) :
    findOwnedWhere s (fun i => decide (i = id)) owner = findOwnedContact s id owner := rfl

theorem findWhere_eq (s : Store) (id : ObjectId) :
    findWhere s (fun i => decide (i = id)) = findContactById s id := rfl

theorem findOwnedWhere_none_of_foreign {s : Store} {sel : ObjectId → Bool} {owner : ObjectId}
    (h : ∀ c ∈ s.contacts, sel c._id = true → c.postedBy ≠ owner) :
    findOwnedWhere s sel owner = none := by
  unfold findOwnedWhere
  rw [List.find?_eq_none]
  intro d hd hp
  simp only [Bool.and_eq_true, decide_eq_true_eq] at hp
  exact h d hd hp.1 hp.2

/-- Claim C1. A caller `A` who passes the auth middleware and names, by its id,
a contact `c` of the store that another user owns gets 404 from
`GET /api/contact/:id` (as dispatched over the registered routes),
`PUT /api/contact` and `DELETE /api/contact/:id`; the body is the fixed object
`{ error: "Contact not found" }` (with a final dot for PUT and DELETE), so it
carries no field of `c`, and the store is as before. -/
theorem cross_owner_access_is_404 (L : Lib) (ctx : Ctx) (s : Store) (req : Request)
    (A : SanitizedUser) (c : Contact) (idStr : String)
    (hauth : authenticate L ctx req.authorization s = Except.ok A)
    (hfault : ctx.fault 1 = false)
    (hids : s.UniqueContactIds)
    (hc : c ∈ s.contacts) (hown : c.postedBy ≠ A._id)
    (hne : idStr ≠ "") (hid : L.castObjectId (Json.str idStr) = some c._id)
    (hbody : req.body.field "id" = some (Json.str idStr)) :
    app L ctx { req with method := Method.GET, path := ["api", "contact", idStr] } s
        = (Outcome.respond (errorResponse 404 "Contact not found"), s)
    ∧ app L ctx { req with method := Method.PUT, path := ["api", "contact"] } s
        = (Outcome.respond (errorResponse 404 "Contact not found."), s)
    ∧ app L ctx { req with method := Method.DELETE, path := ["api", "contact", idStr] } s
        = (Outcome.respond (errorResponse 404 "Contact not found."), s) := by
  have hfind := findOwnedContact_eq_none hids hc hown
  refine ⟨?_, ?_, ?_⟩
  · rw [app_getContact L ctx s _ idStr hne rfl rfl]
    simp [runChain, auth, hauth, getContactOwned, hne, isValidObjectId, hid, hfault, hfind]
  · rw [app_putContact L ctx s _ rfl rfl]
    simp [runChain, auth, hauth, putContact, hbody, truthy, hne, idCondition_of_cast hid, hfault,
      findOwnedWhere_eq, hfind]
  · rw [app_deleteContact L ctx s _ idStr hne rfl rfl]
    simp [runChain, auth, hauth, deleteContact, hid, hfault, hfind]

theorem cross_owner_access_is_404_witness :
    app demoLib demoCtx
        { demoRequest (Json.obj [("id", Json.str "c1")]) with
          method := Method.GET, path := ["api", "contact", "c1"] } demoStore
        = (Outcome.respond (errorResponse 404 "Contact not found"), demoStore)
    ∧ app demoLib demoCtx
        { demoRequest (Json.obj [("id", Json.str "c1")]) with
          method := Method.PUT, path := ["api", "contact"] } demoStore
        = (Outcome.respond (errorResponse 404 "Contact not found."), demoStore)
    ∧ app demoLib demoCtx
        { demoRequest (Json.obj [("id", Json.str "c1")]) with
          method := Method.DELETE, path := ["api", "contact", "c1"] } demoStore
        = (Outcome.respond (errorResponse 404 "Contact not found."), demoStore) :=
  cross_owner_access_is_404 demoLib demoCtx demoStore
    (demoRequest (Json.obj [("id", Json.str "c1")])) demoAnn.sanitize demoContactOfBob "c1"
    rfl (by decide) (by decide) (by simp [demoStore]) (by decide) (by decide) rfl rfl

theorem findOwnedContact_none_of_foreign {s : Store} {id owner : ObjectId}
    (h : ∀ c ∈ s.contacts, c._id = id → c.postedBy ≠ owner) :
    findOwnedContact s id owner = none := by
  unfold findOwnedContact
  rw [List.find?_eq_none]
  intro d hd hp
  simp only [Bool.and_eq_true, decide_eq_true_eq] at hp
  exact h d hd hp.1 hp.2

theorem putContact_foreign_keeps_store (L : Lib) (ctx : Ctx) (s : Store) (req : Request)
    (A : SanitizedUser) (hu : req.user = some A)
    (h : ∀ sel, (req.body.field "id").bind (idCondition L) = some sel →
      ∀ c ∈ s.contacts, sel c._id = true → c.postedBy ≠ A._id) :
    (putContact L ctx req s).2 = s := by
  unfold putContact
  split
  · rfl
  · rw [hu]
    cases hcast : (req.body.field "id").bind (idCondition L) with
    | none => rfl
    | some sel =>
      have hfind : findOwnedWhere s sel A._id = none :=
        findOwnedWhere_none_of_foreign (h sel hcast)
      simp only [hfind]
      split <;> rfl

theorem deleteContact_foreign_keeps_store (L : Lib) (ctx : Ctx) (s : Store) (req : Request)
    (A : SanitizedUser) (hu : req.user = some A)
    (h : ∀ c ∈ s.contacts, L.castObjectId (Json.str req.id) = some c._id → c.postedBy ≠ A._id) :
    (deleteContact L ctx req s).2 = s := by
  unfold deleteContact
  rw [hu]
  cases hcast : L.castObjectId (Json.str req.id) with
  | none => rfl
  | some id =>
    have hfind : findOwnedContact s id A._id = none :=
      findOwnedContact_none_of_foreign (fun c hc hid => h c hc (by rw [hid, hcast]))
    simp only [hfind]
    split <;> rfl

/-- For a caller `A` who passes the auth middleware, a `PUT /api/contact` whose
`id` member selects no contact owned by `A`, and a `DELETE /api/contact/:id` whose
parameter names no contact owned by `A`, leave the whole store as it was,
whether or not a database call fails. -/
theorem unowned_update_delete_keep_store (L : Lib) (ctx : Ctx) (s : Store) (req : Request)
    (A : SanitizedUser) (idStr : String)
    (hauth : authenticate L ctx req.authorization s = Except.ok A)
    (hne : idStr ≠ "")
    (hput : ∀ sel, (req.body.field "id").bind (idCondition L) = some sel →
      ∀ c ∈ s.contacts, sel c._id = true → c.postedBy ≠ A._id)
    (hdel : ∀ c ∈ s.contacts, L.castObjectId (Json.str idStr) = some c._id →
      c.postedBy ≠ A._id) :
    (app L ctx { req with method := Method.PUT, path := ["api", "contact"] } s).2 = s
    ∧ (app L ctx { req with method := Method.DELETE, path := ["api", "contact", idStr] } s).2
        = s := by
  constructor
  · rw [app_putContact L ctx s _ rfl rfl,
      runChain_auth_ok L _ (neverNext_putContact L) ctx
        { req with method := Method.PUT, path := ["api", "contact"] } s A _ hauth rfl]
    exact putContact_foreign_keeps_store L ctx s _ A rfl hput
  · rw [app_deleteContact L ctx s _ idStr hne rfl rfl,
      runChain_auth_ok L _ (neverNext_deleteContact L) ctx
        { req with method := Method.DELETE, path := ["api", "contact", idStr], id := idStr }
        s A _ hauth rfl]
    exact deleteContact_foreign_keeps_store L ctx s _ A rfl hdel

theorem neverNext_postContact (L : Lib) : NeverNext (postContact L) := by
  intro ctx req s req' s'
  unfold postContact
  repeat' split
  all_goals simp

theorem app_postContact (L : Lib) (ctx : Ctx) (s : Store) (req : Request)
    (hm : req.method = Method.POST) (hp : req.path = ["api", "contact"]) :
    app L ctx req s = runChain [auth L, postContact L] ctx req s := by
  unfold app routes
  iterate 4 rw [dispatch_skip _ _ _ _ _ (by simp [hm, hp, matchPath])]
  rw [dispatch_hit _ _ _ _ _ none (by simp [hm]) (by simp [hp, matchPath])
    (neverNext_chain L _ (neverNext_postContact L))]
  rfl

theorem newContact_postedBy {L : Lib} {ctx : Ctx} {body : Json} {owner : ObjectId} {c : Contact}
    (h : newContact L ctx body owner = some c) :
    c.postedBy = owner ∧ c._id = ctx.freshId ∧ c.createdAt = ctx.nowMs := by
  unfold newContact at h
  split at h
  · split at h
    · simp only [Option.some.injEq] at h
      subst h
      exact ⟨rfl, rfl, rfl⟩
    · exact absurd h (by simp)
  · exact absurd h (by simp)

theorem lookupKey_append (k : String) (l₁ l₂ : List (String × Json)) :
    lookupKey k (l₁ ++ l₂) =
      match lookupKey k l₂ with
      | some w => some w
      | none => lookupKey k l₁ := by
  induction l₁ with
  | nil => simp [lookupKey]; cases lookupKey k l₂ <;> rfl
  | cons x xs ih =>
    obtain ⟨k', v⟩ := x
    rw [List.cons_append]
    simp only [lookupKey]
    rw [ih]
    cases lookupKey k l₂ <;> rfl

theorem toJson_postedBy (c : Contact) : c.toJson.field "postedBy" = some (Json.str c.postedBy) := by
  simp [Contact.toJson, Contact.toJsonWith, Json.field, lookupKey_append, lookupKey]

theorem lookupKey_member (k k' : String) (v : Option Json) :
    lookupKey k (member k' v) = if k' = k then v else none := by
  cases v with
  | none => simp [member, lookupKey]
  | some w => simp [member, lookupKey]

theorem toJsonWith_members (c : Contact) (owner : Json) :
    (c.toJsonWith owner).field "_id" = some (Json.str c._id)
    ∧ (c.toJsonWith owner).field "name" = c.name
    ∧ (c.toJsonWith owner).field "phone" = c.phone
    ∧ (c.toJsonWith owner).field "email" = c.email
    ∧ (c.toJsonWith owner).field "address" = c.address
    ∧ (c.toJsonWith owner).field "notes" = c.notes
    ∧ (c.toJsonWith owner).field "birthday" = c.birthday
    ∧ (c.toJsonWith owner).field "tags" = c.tags
    ∧ (c.toJsonWith owner).field "favorite" = c.favorite
    ∧ (c.toJsonWith owner).field "postedBy" = some owner
    ∧ (c.toJsonWith owner).field "createdAt" = some (Json.num c.createdAt)
    ∧ (c.toJsonWith owner).field "updatedAt" = some (Json.num c.updatedAt) := by
  obtain ⟨id, name, phone, email, address, notes, birthday, tags, favorite, postedBy,
    createdAt, updatedAt⟩ := c
  refine ⟨?_, ?_, ?_, ?_, ?_, ?_, ?_, ?_, ?_, ?_, ?_, ?_⟩
  · simp [Contact.toJsonWith, Json.field, lookupKey_append, lookupKey_member, lookupKey]
  · cases name <;>
      simp [Contact.toJsonWith, Json.field, lookupKey_append, lookupKey_member, lookupKey]
  · cases phone <;>
      simp [Contact.toJsonWith, Json.field, lookupKey_append, lookupKey_member, lookupKey]
  · cases email <;>
      simp [Contact.toJsonWith, Json.field, lookupKey_append, lookupKey_member, lookupKey]
  · cases address <;>
      simp [Contact.toJsonWith, Json.field, lookupKey_append, lookupKey_member, lookupKey]
  · cases notes <;>
      simp [Contact.toJsonWith, Json.field, lookupKey_append, lookupKey_member, lookupKey]
  · cases birthday <;>
      simp [Contact.toJsonWith, Json.field, lookupKey_append, lookupKey_member, lookupKey]
  · cases tags <;>
      simp [Contact.toJsonWith, Json.field, lookupKey_append, lookupKey_member, lookupKey]
  · cases favorite <;>
      simp [Contact.toJsonWith, Json.field, lookupKey_append, lookupKey_member, lookupKey]
  · simp [Contact.toJsonWith, Json.field, lookupKey_append, lookupKey_member, lookupKey]
  · simp [Contact.toJsonWith, Json.field, lookupKey_append, lookupKey_member, lookupKey]
  · simp [Contact.toJsonWith, Json.field, lookupKey_append, lookupKey_member, lookupKey]

theorem postContact_created (L : Lib) (ctx : Ctx) (req : Request) (s : Store) (A : SanitizedUser)
    (hu : req.user = some A) (h : (postContact L ctx req s).1.status? = some 201) :
    ∃ c, newContact L ctx req.body A._id = some c ∧
      postContact L ctx req s =
        (Outcome.respond { status := 201, body := c.toJson },
          { s with contacts := s.contacts ++ [c] }) := by
  unfold postContact at h ⊢
  rw [hu] at h ⊢
  cases hv : validateContact L req.body with
  | some msg => simp [hv, Outcome.status?, errorResponse] at h
  | none =>
    cases hn : newContact L ctx req.body A._id with
    | none => simp [hv, hn, Outcome.status?, errorResponse] at h
    | some c =>
      cases hf : ctx.fault 1 with
      | true => simp [hv, hn, hf, Outcome.status?, errorResponse] at h
      | false => exact ⟨c, rfl, by simp [hv, hn, hf]⟩

/-- Claim C3. For a caller `A` who passes the auth middleware and any request
body, if `POST /api/contact` answers 201 then the new store is the old one
with exactly one contact appended, that contact's `postedBy` is the id of `A`,
and the body of the response is that contact, its `postedBy` member being the
id of `A`. -/
theorem created_contact_owned_by_caller (L : Lib) (ctx : Ctx) (s : Store) (req : Request)
    (A : SanitizedUser)
    (hauth : authenticate L ctx req.authorization s = Except.ok A)
    (h201 : (app L ctx { req with method := Method.POST, path := ["api", "contact"] } s).1.status?
      = some 201) :
    ∃ c : Contact,
      app L ctx { req with method := Method.POST, path := ["api", "contact"] } s
        = (Outcome.respond { status := 201, body := c.toJson },
            { users := s.users, contacts := s.contacts ++ [c] })
      ∧ c.postedBy = A._id
      ∧ c.toJson.field "postedBy" = some (Json.str A._id) := by
  rw [app_postContact L ctx s _ rfl rfl,
    runChain_auth_ok L _ (neverNext_postContact L) ctx
      { req with method := Method.POST, path := ["api", "contact"] } s A _ hauth rfl] at h201 ⊢
  obtain ⟨c, hnew, hres⟩ := postContact_created L ctx _ s A rfl h201
  have hp := (newContact_postedBy hnew).1
  exact ⟨c, hres, hp, by rw [toJson_postedBy, hp]⟩


theorem created_contact_owned_by_caller_witness :
    ∃ c : Contact,
      app demoLib demoCtx
          { demoRequest demoContactBody with method := Method.POST, path := ["api", "contact"] }
          demoStore
        = (Outcome.respond { status := 201, body := c.toJson },
            { users := demoStore.users, contacts := demoStore.contacts ++ [c] })
      ∧ c.postedBy = demoAnn.sanitize._id
      ∧ c.toJson.field "postedBy" = some (Json.str demoAnn.sanitize._id) :=
  created_contact_owned_by_caller demoLib demoCtx demoStore (demoRequest demoContactBody)
    demoAnn.sanitize rfl (by decide)

theorem neverNext_getMyContacts : NeverNext getMyContacts := by
  intro ctx req s req' s'
  unfold getMyContacts
  repeat' split
  all_goals simp

theorem app_getMyContacts (L : Lib) (ctx : Ctx) (s : Store) (req : Request)
    (hm : req.method = Method.GET) (hp : req.path = ["api", "mycontacts"]) :
    app L ctx req s = runChain [auth L, getMyContacts] ctx req s := by
  unfold app routes
  iterate 5 rw [dispatch_skip _ _ _ _ _ (by simp [hm, hp, matchPath])]
  rw [dispatch_hit _ _ _ _ _ none (by simp [hm]) (by simp [hp, matchPath])
    (neverNext_chain L _ neverNext_getMyContacts)]
  rfl

theorem authenticate_congr (L : Lib) (ctx : Ctx) (hdr : Option String) (s t : Store)
    (h : t.users = s.users) : authenticate L ctx hdr t = authenticate L ctx hdr s := by
  unfold authenticate findUserById
  rw [h]

theorem app_postContact_created (L : Lib) (ctx : Ctx) (s t : Store) (req : Request)
    (A : SanitizedUser) (b : Json)
    (hauth : authenticate L ctx req.authorization s = Except.ok A)
    (h : app L ctx { req with method := Method.POST, path := ["api", "contact"] } s
      = (Outcome.respond { status := 201, body := b }, t)) :
    ∃ c : Contact, b = c.toJson ∧ t = { users := s.users, contacts := s.contacts ++ [c] } ∧
      c.postedBy = A._id := by
  rw [app_postContact L ctx s _ rfl rfl,
    runChain_auth_ok L _ (neverNext_postContact L) ctx
      { req with method := Method.POST, path := ["api", "contact"] } s A _ hauth rfl] at h
  obtain ⟨c, hnew, hres⟩ := postContact_created L ctx _ s A rfl (by rw [h]; rfl)
  rw [hres] at h
  simp only [Prod.mk.injEq, Outcome.respond.injEq, Response.mk.injEq, true_and] at h
  exact ⟨c, h.1.symm, h.2.symm, (newContact_postedBy hnew).1⟩

theorem app_getMyContacts_ok (L : Lib) (ctx : Ctx) (s : Store) (req : Request)
    (A : SanitizedUser)
    (hauth : authenticate L ctx req.authorization s = Except.ok A)
    (hf1 : ctx.fault 1 = false) (hf2 : ctx.fault 2 = false) :
    app L ctx { req with method := Method.GET, path := ["api", "mycontacts"] } s
      = (Outcome.respond
          { status := 200,
            body := Json.obj
              [("contacts", Json.arr ((myContactsDocs s A._id).map (populatedJson s)))] }, s) := by
  rw [app_getMyContacts L ctx s _ rfl rfl,
    runChain_auth_ok L _ neverNext_getMyContacts ctx
      { req with method := Method.GET, path := ["api", "mycontacts"] } s A _ hauth rfl]
  simp [getMyContacts, hf1, hf2]

theorem authenticate_ok_find (L : Lib) (ctx : Ctx) (hdr : Option String) (s : Store)
    (A : SanitizedUser) (h : authenticate L ctx hdr s = Except.ok A) :
    ∃ u, findUserById s A._id = some u ∧ A = u.sanitize := by
  unfold authenticate at h
  repeat' split at h
  all_goals first
    | (simp at h; done)
    | skip
  next user hfind =>
    simp only [Except.ok.injEq] at h
    refine ⟨user, ?_, h.symm⟩
    rw [← h]
    show findUserById s user._id = some user
    have hid := hfind
    unfold findUserById at hid
    have hid2 := List.find?_some hid
    simp only [decide_eq_true_eq] at hid2
    rw [hid2]; exact hfind

/-- Claim C4. For a caller `A` who passes the auth middleware (no database
failure), `GET /api/mycontacts` answers 200 with the list `myContactsDocs`, one entry
for each document: its members are exactly the contacts of the store whose
`postedBy` is the id of `A`, it is a permutation of them (each occurs once), and
read backwards it is a sublist of the store, which is kept in creation order,
so the most recently created contact comes first. The entry of a contact
carries its `_id`, its fields `name`, `phone`, `email`, `address`, `notes`, `birthday`, `tags`,
`favorite` and its timestamps, and as `postedBy` the user record of `A` without the
password. After three `POST /api/contact` of `A` answered 201 from a store without
contacts, the store holds the three created contacts, all owned by `A`, and
the list shows exactly these three, the last created first. -/
theorem mycontacts_lists_own_newest_first (L : Lib) (ctx : Ctx) (s : Store) (req : Request)
    (A : SanitizedUser)
    (hauth : authenticate L ctx req.authorization s = Except.ok A)
    (hf1 : ctx.fault 1 = false) (hf2 : ctx.fault 2 = false) :
    (app L ctx { req with method := Method.GET, path := ["api", "mycontacts"] } s
      = (Outcome.respond
          { status := 200,
            body := Json.obj
              [("contacts", Json.arr ((myContactsDocs s A._id).map (populatedJson s)))] }, s))
    ∧ (∀ c, c ∈ myContactsDocs s A._id ↔ c ∈ s.contacts ∧ c.postedBy = A._id)
    ∧ (myContactsDocs s A._id).Perm (s.contacts.filter (fun c => c.postedBy = A._id))
    ∧ (myContactsDocs s A._id).reverse.Sublist s.contacts
    ∧ (∀ c ∈ myContactsDocs s A._id,
        (populatedJson s c).field "_id" = some (Json.str c._id)
        ∧ (populatedJson s c).field "name" = c.name
        ∧ (populatedJson s c).field "phone" = c.phone
        ∧ (populatedJson s c).field "email" = c.email
        ∧ (populatedJson s c).field "address" = c.address
        ∧ (populatedJson s c).field "notes" = c.notes
        ∧ (populatedJson s c).field "birthday" = c.birthday
        ∧ (populatedJson s c).field "tags" = c.tags
        ∧ (populatedJson s c).field "favorite" = c.favorite
        ∧ (populatedJson s c).field "postedBy" = some A.toJson
        ∧ (populatedJson s c).field "createdAt" = some (Json.num c.createdAt)
        ∧ (populatedJson s c).field "updatedAt" = some (Json.num c.updatedAt))
    ∧ ∀ (ctx₁ ctx₂ ctx₃ ctx₄ : Ctx) (r₁ r₂ r₃ r₄ : Request) (s₀ s₁ s₂ s₃ : Store)
        (b₁ b₂ b₃ : Json),
        s₀.contacts = [] →
        authenticate L ctx₁ r₁.authorization s₀ = Except.ok A →
        authenticate L ctx₂ r₂.authorization s₀ = Except.ok A →
        authenticate L ctx₃ r₃.authorization s₀ = Except.ok A →
        authenticate L ctx₄ r₄.authorization s₀ = Except.ok A →
        ctx₄.fault 1 = false → ctx₄.fault 2 = false →
        app L ctx₁ { r₁ with method := Method.POST, path := ["api", "contact"] } s₀
          = (Outcome.respond { status := 201, body := b₁ }, s₁) →
        app L ctx₂ { r₂ with method := Method.POST, path := ["api", "contact"] } s₁
          = (Outcome.respond { status := 201, body := b₂ }, s₂) →
        app L ctx₃ { r₃ with method := Method.POST, path := ["api", "contact"] } s₂
          = (Outcome.respond { status := 201, body := b₃ }, s₃) →
        ∃ c₁ c₂ c₃ : Contact, b₁ = c₁.toJson ∧ b₂ = c₂.toJson ∧ b₃ = c₃.toJson ∧
          s₃.contacts = [c₁, c₂, c₃] ∧
          c₁.postedBy = A._id ∧ c₂.postedBy = A._id ∧ c₃.postedBy = A._id ∧
          myContactsDocs s₃ A._id = [c₃, c₂, c₁] ∧
          app L ctx₄ { r₄ with method := Method.GET, path := ["api", "mycontacts"] } s₃
            = (Outcome.respond
                { status := 200,
                  body := Json.obj
                    [("contacts", Json.arr
                      [populatedJson s₃ c₃, populatedJson s₃ c₂, populatedJson s₃ c₁])] }, s₃)
          ∧ (populatedJson s₃ c₃).field "_id" = some (Json.str c₃._id)
          ∧ (populatedJson s₃ c₂).field "_id" = some (Json.str c₂._id)
          ∧ (populatedJson s₃ c₁).field "_id" = some (Json.str c₁._id) := by
  have hentry : ∀ (t : Store) (c : Contact) (owner : Json),
      (populatedJson t c) = c.toJsonWith owner →
      (populatedJson t c).field "_id" = some (Json.str c._id)
        ∧ (populatedJson t c).field "name" = c.name
        ∧ (populatedJson t c).field "phone" = c.phone
        ∧ (populatedJson t c).field "email" = c.email
        ∧ (populatedJson t c).field "address" = c.address
        ∧ (populatedJson t c).field "notes" = c.notes
        ∧ (populatedJson t c).field "birthday" = c.birthday
        ∧ (populatedJson t c).field "tags" = c.tags
        ∧ (populatedJson t c).field "favorite" = c.favorite
        ∧ (populatedJson t c).field "postedBy" = some owner
        ∧ (populatedJson t c).field "createdAt" = some (Json.num c.createdAt)
        ∧ (populatedJson t c).field "updatedAt" = some (Json.num c.updatedAt) := by
    intro t c owner h
    rw [h]
    exact toJsonWith_members c owner
  have hsome : ∀ (t : Store) (c : Contact), ∃ owner, populatedJson t c = c.toJsonWith owner := by
    intro t c
    unfold populatedJson
    cases findUserById t c.postedBy with
    | none => exact ⟨_, rfl⟩
    | some u => exact ⟨_, rfl⟩
  refine ⟨app_getMyContacts_ok L ctx s req A hauth hf1 hf2, ?_, ?_, ?_, ?_, ?_⟩
  · intro c
    simp [myContactsDocs]
  · exact List.reverse_perm _
  · simp [myContactsDocs]
  · intro c hc
    have hcA : c.postedBy = A._id := by
      simp only [myContactsDocs, List.mem_reverse, List.mem_filter, decide_eq_true_eq] at hc
      exact hc.2
    obtain ⟨u, hu, hA⟩ := authenticate_ok_find L ctx _ s A hauth
    have hpop : populatedJson s c = c.toJsonWith A.toJson := by
      unfold populatedJson
      rw [hcA, hu, hA]
    exact hentry s c _ hpop
  · intro ctx₁ ctx₂ ctx₃ ctx₄ r₁ r₂ r₃ r₄ s₀ s₁ s₂ s₃ b₁ b₂ b₃ hempty hauth₁ hauth₂ hauth₃ hauth₄
      hg1 hg2 hpost₁ hpost₂ hpost₃
    obtain ⟨c₁, hb₁, hs₁, ho₁⟩ := app_postContact_created L ctx₁ s₀ s₁ r₁ A b₁ hauth₁ hpost₁
    have hauth₂' : authenticate L ctx₂ r₂.authorization s₁ = Except.ok A := by
      rw [authenticate_congr L ctx₂ _ s₀ s₁ (by rw [hs₁]), hauth₂]
    obtain ⟨c₂, hb₂, hs₂, ho₂⟩ := app_postContact_created L ctx₂ s₁ s₂ r₂ A b₂ hauth₂' hpost₂
    have hauth₃' : authenticate L ctx₃ r₃.authorization s₂ = Except.ok A := by
      rw [authenticate_congr L ctx₃ _ s₀ s₂ (by rw [hs₂, hs₁]), hauth₃]
    obtain ⟨c₃, hb₃, hs₃, ho₃⟩ := app_postContact_created L ctx₃ s₂ s₃ r₃ A b₃ hauth₃' hpost₃
    have hauth₄' : authenticate L ctx₄ r₄.authorization s₃ = Except.ok A := by
      rw [authenticate_congr L ctx₄ _ s₀ s₃ (by rw [hs₃, hs₂, hs₁]), hauth₄]
    have hc : s₃.contacts = [c₁, c₂, c₃] := by
      rw [hs₃, hs₂, hs₁, hempty]; rfl
    have hdocs : myContactsDocs s₃ A._id = [c₃, c₂, c₁] := by
      simp [myContactsDocs, hc, ho₁, ho₂, ho₃]
    refine ⟨c₁, c₂, c₃, hb₁, hb₂, hb₃, hc, ho₁, ho₂, ho₃, hdocs, ?_, ?_, ?_, ?_⟩
    · rw [app_getMyContacts_ok L ctx₄ s₃ r₄ A hauth₄' hg1 hg2, hdocs]
      rfl
    · obtain ⟨o, ho⟩ := hsome s₃ c₃
      exact (hentry s₃ c₃ o ho).1
    · obtain ⟨o, ho⟩ := hsome s₃ c₂
      exact (hentry s₃ c₂ o ho).1
    · obtain ⟨o, ho⟩ := hsome s₃ c₁
      exact (hentry s₃ c₁ o ho).1

theorem mycontacts_lists_own_newest_first_witness :
    authenticate demoLib demoCtx (demoRequest Json.null).authorization demoStore
      = Except.ok demoAnn.sanitize
    ∧ (myContactsDocs demoStore "u1").reverse.Sublist demoStore.contacts
    ∧ (∀ c ∈ myContactsDocs demoStore "u1",
        (populatedJson demoStore c).field "_id" = some (Json.str c._id)
        ∧ (populatedJson demoStore c).field "name" = c.name
        ∧ (populatedJson demoStore c).field "postedBy" = some demoAnn.sanitize.toJson)
    ∧ ∃ c₁ c₂ c₃ : Contact,
        (demoCreated "n1").toJson = c₁.toJson ∧ (demoCreated "n2").toJson = c₂.toJson ∧
        (demoCreated "n3").toJson = c₃.toJson ∧
        demoAfterThree.contacts = [c₁, c₂, c₃] ∧
        app demoLib demoCtx
            { demoRequest Json.null with method := Method.GET, path := ["api", "mycontacts"] }
            demoAfterThree
          = (Outcome.respond
              { status := 200,
                body := Json.obj
                  [("contacts", Json.arr
                    [populatedJson demoAfterThree c₃, populatedJson demoAfterThree c₂,
                     populatedJson demoAfterThree c₁])] }, demoAfterThree) :=
  have h := mycontacts_lists_own_newest_first demoLib demoCtx demoStore (demoRequest Json.null)
    demoAnn.sanitize rfl rfl rfl
  have h3 := h.2.2.2.2.2 (demoCtxFresh "n1") (demoCtxFresh "n2") (demoCtxFresh "n3") demoCtx
    (demoRequest demoContactBody) (demoRequest demoContactBody) (demoRequest demoContactBody)
    (demoRequest Json.null) demoEmptyStore demoAfterOne demoAfterTwo demoAfterThree
    (demoCreated "n1").toJson (demoCreated "n2").toJson (demoCreated "n3").toJson
    rfl rfl rfl rfl rfl rfl rfl rfl rfl rfl
  ⟨rfl, h.2.2.2.1,
    fun c hc => ⟨(h.2.2.2.2.1 c hc).1, (h.2.2.2.2.1 c hc).2.1,
      (h.2.2.2.2.1 c hc).2.2.2.2.2.2.2.2.2.1⟩,
    h3.elim fun c₁ h1 => h1.elim fun c₂ h2 => h2.elim fun c₃ hh =>
      ⟨c₁, c₂, c₃, hh.1, hh.2.1, hh.2.2.1, hh.2.2.2.1, hh.2.2.2.2.2.2.2.2.1⟩⟩

theorem findOwnedContact_eq_some {s : Store} (h : s.UniqueContactIds) {c : Contact}
    (hc : c ∈ s.contacts) :
    findOwnedContact s c._id c.postedBy = some c := by
  unfold findOwnedContact
  cases hf : s.contacts.find? (fun d => d._id = c._id && d.postedBy = c.postedBy) with
  | none =>
    rw [List.find?_eq_none] at hf
    exact absurd (by simp) (hf c hc)
  | some d =>
    have hp := List.find?_some hf
    simp only [Bool.and_eq_true, decide_eq_true_eq] at hp
    rw [eq_of_id_eq h hc (List.mem_of_find?_eq_some hf) hp.1]

/-- Claim C5. For a contact `c` of the store owned by the caller `A` (who passes
the auth middleware; no database failure, unique `_id`),
`DELETE /api/contact/:id` with the id of `c` answers 200 and the new store is
the old one with exactly `c` taken out: the user records are the same, the
contacts before and after `c` stay in place, `c` is gone and every other
contact is still there. -/
theorem owner_delete_removes_exactly (L : Lib) (ctx : Ctx) (s : Store) (req : Request)
    (A : SanitizedUser) (c : Contact) (idStr : String)
    (hauth : authenticate L ctx req.authorization s = Except.ok A)
    (hfault : ctx.fault 1 = false)
    (hids : s.UniqueContactIds)
    (hc : c ∈ s.contacts) (hown : c.postedBy = A._id)
    (hne : idStr ≠ "") (hid : L.castObjectId (Json.str idStr) = some c._id) :
    ∃ l₁ l₂ : List Contact,
      s.contacts = l₁ ++ c :: l₂
      ∧ app L ctx { req with method := Method.DELETE, path := ["api", "contact", idStr] } s
          = (Outcome.respond (messageResponse 200 "Contact deleted successfully!"),
              { users := s.users, contacts := l₁ ++ l₂ })
      ∧ c ∉ l₁ ++ l₂
      ∧ ∀ d ∈ s.contacts, d ≠ c → d ∈ l₁ ++ l₂ := by
  have hfind : findOwnedContact s c._id A._id = some c := by
    rw [← hown]; exact findOwnedContact_eq_some hids hc
  obtain ⟨a, l₁, l₂, _, hpa, hsplit, herase⟩ :=
    List.exists_of_eraseP (p := fun d => d._id = c._id && d.postedBy = A._id) hc (by simp [hown])
  simp only [Bool.and_eq_true, decide_eq_true_eq] at hpa
  have hac : a = c := eq_of_id_eq hids hc (by rw [hsplit]; simp) hpa.1
  subst hac
  refine ⟨l₁, l₂, hsplit, ?_, ?_, ?_⟩
  · rw [app_deleteContact L ctx s _ idStr hne rfl rfl,
      runChain_auth_ok L _ (neverNext_deleteContact L) ctx
        { req with method := Method.DELETE, path := ["api", "contact", idStr], id := idStr }
        s A _ hauth rfl]
    simp [deleteContact, hid, hfault, hfind, herase]
  · have hnd : (l₁ ++ a :: l₂).Nodup := by
      have := List.Nodup.of_map _ hids
      rwa [hsplit] at this
    intro hmem
    rw [List.mem_append] at hmem
    have h1 := List.nodup_append.mp hnd
    rcases hmem with hm | hm
    · exact h1.2.2 hm (List.mem_cons_self _ _)
    · exact (List.nodup_cons.mp h1.2.1).1 hm
  · intro d hd hne'
    rw [hsplit] at hd
    simp only [List.mem_append, List.mem_cons] at hd ⊢
    rcases hd with hd | hd | hd
    · exact Or.inl hd
    · exact absurd hd hne'
    · exact Or.inr hd


theorem owner_delete_removes_exactly_witness :
    ∃ l₁ l₂ : List Contact,
      demoStore.contacts = l₁ ++ demoContactOfAnn :: l₂
      ∧ app demoLib demoCtx
          { demoRequest Json.null with
            method := Method.DELETE, path := ["api", "contact", "c2"] } demoStore
          = (Outcome.respond (messageResponse 200 "Contact deleted successfully!"),
              { users := demoStore.users, contacts := l₁ ++ l₂ })
      ∧ demoContactOfAnn ∉ l₁ ++ l₂
      ∧ ∀ d ∈ demoStore.contacts, d ≠ demoContactOfAnn → d ∈ l₁ ++ l₂ :=
  owner_delete_removes_exactly demoLib demoCtx demoStore (demoRequest Json.null)
    demoAnn.sanitize demoContactOfAnn "c2" rfl (by decide) (by decide) (by simp [demoStore])
    rfl (by decide) rfl

theorem preserves_runChain (I : Store → Prop) (chain : List Handler)
    (h : ∀ f ∈ chain, Preserves I f) : Preserves I (runChain chain) := by
  induction chain with
  | nil => intro ctx req s hs; exact hs
  | cons f rest ih =>
    intro ctx req s hs
    have hf := h f (List.mem_cons_self _ _) ctx req s hs
    have hrest := ih (fun g hg => h g (List.mem_cons_of_mem _ hg))
    simp only [runChain]
    split
    · next req' s' heq =>
      rw [heq] at hf
      exact hrest ctx req' s' hf
    · exact hf

theorem preserves_dispatch (I : Store → Prop) (rs : List Route)
    (h : ∀ r ∈ rs, ∀ f ∈ r.chain, Preserves I f) : Preserves I (dispatch rs) := by
  induction rs with
  | nil => intro ctx req s hs; exact hs
  | cons r rest ih =>
    intro ctx req s hs
    have hrest := ih (fun r' hr' => h r' (List.mem_cons_of_mem _ hr'))
    have hchain := preserves_runChain I r.chain (h r (List.mem_cons_self _ _))
    simp only [dispatch]
    split
    · split
      · next param _ =>
        have hc := hchain ctx { req with id := param.getD req.id } s hs
        split
        · next req' s' heq =>
          rw [heq] at hc
          exact hrest ctx req' s' hc
        · exact hc
      · exact hrest ctx req s hs
    · exact hrest ctx req s hs

theorem keepsUsers_auth (L : Lib) : KeepsUsers (auth L) := by
  intro ctx req s
  unfold auth
  split <;> rfl

theorem keepsUsers_login (L : Lib) : KeepsUsers (login L) := by
  intro ctx req s
  unfold login
  dsimp only
  repeat' split
  all_goals rfl

theorem keepsUsers_me : KeepsUsers me := by
  intro ctx req s
  unfold me
  split <;> rfl

theorem keepsUsers_postContact (L : Lib) : KeepsUsers (postContact L) := by
  intro ctx req s
  unfold postContact
  repeat' split
  all_goals rfl

theorem keepsUsers_getMyContacts : KeepsUsers getMyContacts := by
  intro ctx req s
  unfold getMyContacts
  repeat' split
  all_goals rfl

theorem keepsUsers_getContactOwned (L : Lib) : KeepsUsers (getContactOwned L) := by
  intro ctx req s
  unfold getContactOwned
  repeat' split
  all_goals rfl

theorem keepsUsers_getContactAny (L : Lib) : KeepsUsers (getContactAny L) := by
  intro ctx req s
  unfold getContactAny
  repeat' split
  all_goals rfl

theorem keepsUsers_putContact (L : Lib) : KeepsUsers (putContact L) := by
  intro ctx req s
  unfold putContact
  repeat' split
  all_goals rfl

theorem keepsUsers_deleteContact (L : Lib) : KeepsUsers (deleteContact L) := by
  intro ctx req s
  unfold deleteContact
  repeat' split
  all_goals rfl

theorem preserves_of_keepsUsers (I : Store → Prop) (hI : ∀ s t : Store, t.users = s.users → I s → I t)
    (h : Handler) (hk : KeepsUsers h) : Preserves I h :=
  fun ctx req s hs => hI s _ (hk ctx req s) hs

theorem savePassword_map_email (id : ObjectId) (hash : String) (now : Nat) (us : List User) :
    (savePassword id hash now us).map (fun u => u.email) = us.map (fun u => u.email) := by
  induction us with
  | nil => rfl
  | cons u rest ih =>
    simp only [savePassword]
    split
    · rfl
    · simp only [List.map_cons, ih]

theorem findUserByEmail_none {s : Store} {e : String} (h : findUserByEmail s e = none) :
    e ∉ s.users.map (fun u => u.email) := by
  unfold findUserByEmail at h
  rw [List.find?_eq_none] at h
  intro hmem
  rw [List.mem_map] at hmem
  obtain ⟨u, hu, hue⟩ := hmem
  exact h u hu (by simp [hue])

theorem preserves_uniqueEmails_register (L : Lib) :
    Preserves Store.UniqueEmails (register L) := by
  intro ctx req s hs
  unfold register
  dsimp only
  repeat' split
  all_goals first
    | exact hs
    | skip
  next e _ hfind _ _ pw n _ _ _ =>
    unfold Store.UniqueEmails at hs ⊢
    simp only [List.map_append, List.map_cons, List.map_nil]
    rw [List.nodup_append]
    refine ⟨hs, List.nodup_singleton _, ?_⟩
    intro a ha hb
    simp only [List.mem_singleton] at hb
    subst hb
    exact findUserByEmail_none hfind ha

theorem preserves_uniqueEmails_changePassword (L : Lib) :
    Preserves Store.UniqueEmails (changePassword L) := by
  intro ctx req s hs
  unfold changePassword
  dsimp only
  repeat' split
  all_goals first
    | exact hs
    | (unfold Store.UniqueEmails at hs ⊢
       simp only [savePassword_map_email]
       exact hs)

theorem uniqueEmails_of_users_eq (s t : Store) (h : t.users = s.users)
    (hs : s.UniqueEmails) : t.UniqueEmails := by
  unfold Store.UniqueEmails at hs ⊢
  rw [h]; exact hs

theorem preserves_uniqueEmails_app (L : Lib) : Preserves Store.UniqueEmails (app L) := by
  apply preserves_dispatch
  intro r hr f hf
  have hk := preserves_of_keepsUsers Store.UniqueEmails uniqueEmails_of_users_eq
  simp only [routes, List.mem_cons, List.mem_singleton, List.not_mem_nil, or_false] at hr
  rcases hr with rfl | rfl | rfl | rfl | rfl | rfl | rfl | rfl | rfl | rfl <;>
    simp only [List.mem_cons, List.mem_singleton, List.not_mem_nil, or_false] at hf <;>
    rcases hf with rfl | rfl
  all_goals first
    | exact preserves_uniqueEmails_register L
    | exact preserves_uniqueEmails_changePassword L
    | exact hk _ (keepsUsers_auth L)
    | exact hk _ (keepsUsers_login L)
    | exact hk _ keepsUsers_me
    | exact hk _ (keepsUsers_postContact L)
    | exact hk _ keepsUsers_getMyContacts
    | exact hk _ (keepsUsers_getContactOwned L)
    | exact hk _ (keepsUsers_getContactAny L)
    | exact hk _ (keepsUsers_putContact L)
    | exact hk _ (keepsUsers_deleteContact L)

theorem reachable_uniqueEmails (L : Lib) {s : Store} (h : Reachable L s) : s.UniqueEmails := by
  induction h with
  | empty => exact List.nodup_nil
  | step ctx req _ ih => exact preserves_uniqueEmails_app L ctx req _ ih

theorem neverNext_single (h : Handler) (hh : NeverNext h) : NeverNext (runChain [h]) := by
  intro ctx req s req' s'
  simp only [runChain]
  split
  · next r1 s1 heq => exact absurd heq (hh _ _ _ _ _)
  · next hres => exact hh _ _ _ _ _

theorem runChain_single (h : Handler) (hh : NeverNext h) (ctx : Ctx) (req : Request) (s : Store) :
    runChain [h] ctx req s = h ctx req s := by
  simp only [runChain]
  split
  · next r1 s1 heq => exact absurd heq (hh _ _ _ _ _)
  · rfl

theorem neverNext_register (L : Lib) : NeverNext (register L) := by
  intro ctx req s req' s'
  unfold register
  dsimp only
  repeat' split
  all_goals simp

theorem app_register (L : Lib) (ctx : Ctx) (s : Store) (req : Request)
    (hm : req.method = Method.POST) (hp : req.path = ["api", "register"]) :
    app L ctx req s = register L ctx req s := by
  unfold app routes
  rw [dispatch_hit _ _ _ _ _ none (by simp [hm]) (by simp [hp, matchPath])
    (neverNext_single _ (neverNext_register L))]
  exact runChain_single _ (neverNext_register L) _ _ _

theorem findUserByEmail_isSome {s : Store} {u : User} (hu : u ∈ s.users) :
    ∃ v, findUserByEmail s u.email = some v := by
  unfold findUserByEmail
  cases hf : s.users.find? (fun w => w.email = u.email) with
  | none =>
    rw [List.find?_eq_none] at hf
    exact absurd (by simp) (hf u hu)
  | some v => exact ⟨v, rfl⟩

/-- Claim C6. When the store holds a user with email `e` and the payload of
`POST /api/register` carries the email `e` and passes the field checks (name,
email and password present, name not longer than 25, email matching the
pattern, password not shorter than 6; no database failure), the answer is 400
with the "already exists" message and the store is unchanged. Moreover every
store reachable from the empty database through requests to the application,
served one after the other, has pairwise distinct user emails. -/
theorem duplicate_email_registration_rejected (L : Lib) (ctx : Ctx) (s : Store) (req : Request)
    (u : User) (e : String)
    (hu : u ∈ s.users) (hue : u.email = e)
    (hemail : req.body.field "email" = some (Json.str e))
    (hcast : L.castUserString (Json.str e) = some e)
    (hname : truthy (req.body.field "name") = true)
    (hnamelen : lengthGt L (lengthOf (req.body.field "name")) 25 = some false)
    (hreg : emailRegTest (some (Json.str e)) = some true)
    (hpw : truthy (req.body.field "password") = true)
    (hpwlen : lengthLt L (lengthOf (req.body.field "password")) 6 = some false)
    (hfault : ctx.fault 0 = false) :
    app L ctx { req with method := Method.POST, path := ["api", "register"] } s
      = (Outcome.respond (errorResponse 400
          ("a user with that email [" ++ e ++ "] already exists so please try another one.")), s)
    ∧ ∀ t : Store, Reachable L t → t.UniqueEmails := by
  refine ⟨?_, fun t ht => reachable_uniqueEmails L ht⟩
  have hne : e ≠ "" := by
    rintro rfl
    exact absurd hreg (by decide)
  obtain ⟨v, hv⟩ := findUserByEmail_isSome hu
  rw [hue] at hv
  rw [app_register L ctx s _ rfl rfl]
  have hte : truthy (some (Json.str e)) = true := by simp [truthy, hne]
  simp [register, hemail, hcast, hname, hnamelen, hreg, hpw, hpwlen, hfault, hte, hv,
    templateText, jsToString]

theorem duplicate_email_registration_rejected_witness :
    app demoLib demoCtx
        { demoRequest demoDuplicateRegistration with
          method := Method.POST, path := ["api", "register"] } demoStore
      = (Outcome.respond (errorResponse 400
          ("a user with that email [" ++ "ann@x.io" ++
            "] already exists so please try another one.")), demoStore) :=
  (duplicate_email_registration_rejected demoLib demoCtx demoStore
    (demoRequest demoDuplicateRegistration) demoAnn "ann@x.io" (by simp [demoStore]) rfl rfl rfl
    (by decide) (by decide) (by decide) (by decide) (by decide) (by decide)).1

theorem neverNext_changePassword (L : Lib) : NeverNext (changePassword L) := by
  intro ctx req s req' s'
  unfold changePassword
  dsimp only
  repeat' split
  all_goals simp

theorem app_changePassword (L : Lib) (ctx : Ctx) (s : Store) (req : Request)
    (hm : req.method = Method.PUT) (hp : req.path = ["api", "change-password"]) :
    app L ctx req s = runChain [auth L, changePassword L] ctx req s := by
  unfold app routes
  iterate 3 rw [dispatch_skip _ _ _ _ _ (by simp [hm, hp, matchPath])]
  rw [dispatch_hit _ _ _ _ _ none (by simp [hm]) (by simp [hp, matchPath])
    (neverNext_chain L _ (neverNext_changePassword L))]
  rfl

theorem changePassword_rejected (L : Lib) (ctx : Ctx) (s : Store) (req : Request)
    (A : SanitizedUser) (new : String)
    (hu : req.user = some A)
    (hnew : req.body.field "newPassword" = some (Json.str new))
    (hbad : jsLength new < 6 ∨
      ∃ cur, req.body.field "currentPassword" = some (Json.str cur) ∧
        ∀ u, findUserById s A._id = some u → L.bcryptCompare cur u.password = false) :
    (changePassword L ctx req s).2 = s ∧
      (ctx.fault 1 = false →
        ∃ msg, (changePassword L ctx req s).1 = Outcome.respond (errorResponse 400 msg)) := by
  unfold changePassword
  simp only [hnew, lengthOf, lengthLt, hu]
  by_cases hlen : jsLength new < 6
  · have : ((jsLength new : Int) < 6) := by exact_mod_cast hlen
    simp [this]
  · have : ¬ ((jsLength new : Int) < 6) := by exact_mod_cast hlen
    simp only [this, decide_False, Bool.false_eq_true, if_false]
    rcases hbad with h | ⟨cur, hcur, hmis⟩
    · exact absurd h hlen
    · cases hf : ctx.fault 1 with
      | true => simp
      | false =>
        simp only [Bool.false_eq_true, if_false]
        cases hfind : findUserById s A._id with
        | none => simp
        | some u => simp [hcur, asString, hmis u hfind]

/-- For a caller `A` who passes the auth middleware and a body whose
`newPassword` is a string, `PUT /api/change-password` leaves the whole store
(the stored hash of `A` and every other record) unchanged and, unless the
database call fails, answers 400, whenever `newPassword` has fewer than 6
characters (UTF-16 code units, as the `length` of JavaScript counts) or
`currentPassword` is a string that bcrypt does not match against the stored
hash of `A`. -/
theorem failed_password_change_keeps_store (L : Lib) (ctx : Ctx) (s : Store) (req : Request)
    (A : SanitizedUser) (new : String)
    (hauth : authenticate L ctx req.authorization s = Except.ok A)
    (hnew : req.body.field "newPassword" = some (Json.str new))
    (hbad : jsLength new < 6 ∨
      ∃ cur, req.body.field "currentPassword" = some (Json.str cur) ∧
        ∀ u, findUserById s A._id = some u → L.bcryptCompare cur u.password = false) :
    (app L ctx { req with method := Method.PUT, path := ["api", "change-password"] } s).2 = s
    ∧ (ctx.fault 1 = false →
        ∃ msg,
          (app L ctx { req with method := Method.PUT, path := ["api", "change-password"] } s).1
            = Outcome.respond (errorResponse 400 msg)) := by
  rw [app_changePassword L ctx s _ rfl rfl,
    runChain_auth_ok L _ (neverNext_changePassword L) ctx
      { req with method := Method.PUT, path := ["api", "change-password"] } s A _ hauth rfl]
  exact changePassword_rejected L ctx s _ A new rfl hnew hbad

theorem failed_password_change_keeps_store_witness :
    (app demoLib demoCtx
        { demoRequest demoWrongPasswordChange with
          method := Method.PUT, path := ["api", "change-password"] } demoStore).2 = demoStore
    ∧ (demoCtx.fault 1 = false →
        ∃ msg,
          (app demoLib demoCtx
              { demoRequest demoWrongPasswordChange with
                method := Method.PUT, path := ["api", "change-password"] } demoStore).1
            = Outcome.respond (errorResponse 400 msg)) :=
  failed_password_change_keeps_store demoLib demoCtx demoStore
    (demoRequest demoWrongPasswordChange) demoAnn.sanitize "longenough" rfl rfl
    (Or.inr ⟨"wrong", rfl, by decide⟩)

theorem splitOnSpace_ne_nil (l : List Char) : splitOnSpace l ≠ [] := by
  cases l with
  | nil => simp [splitOnSpace]
  | cons c cs =>
    simp only [splitOnSpace]
    split
    · simp
    · split <;> simp

theorem splitOnSpace_no_space (l : List Char) (h : ' ' ∉ l) : splitOnSpace l = [l] := by
  induction l with
  | nil => rfl
  | cons c cs ih =>
    have hc : c ≠ ' ' := fun e => h (by simp [e])
    have hcs : ' ' ∉ cs := fun e => h (List.mem_cons_of_mem _ e)
    simp [splitOnSpace, ih hcs, hc]

theorem splitOnSpace_cons_space (l : List Char) :
    splitOnSpace (' ' :: l) = [] :: splitOnSpace l := by
  simp only [splitOnSpace]
  split
  · next h => exact absurd h (splitOnSpace_ne_nil l)
  · next w ws h => simp [h]

theorem splitOnSpace_cons_other (c : Char) (l : List Char) (hc : c ≠ ' ') :
    splitOnSpace (c :: l) =
      ((c :: (splitOnSpace l).head!) :: (splitOnSpace l).tail) := by
  simp only [splitOnSpace]
  split
  · next h => exact absurd h (splitOnSpace_ne_nil l)
  · next w ws h => simp [h, hc]

theorem bearerToken_bearer (t : String) (h : ' ' ∉ t.toList) :
    bearerToken ("Bearer " ++ t) = some t := by
  unfold bearerToken
  have : ("Bearer " ++ t).toList = 'B' :: 'e' :: 'a' :: 'r' :: 'e' :: 'r' :: ' ' :: t.toList := by
    simp [String.toList]
  rw [this]
  have h' : splitOnSpace t.data = [t.data] := splitOnSpace_no_space _ h
  simp [splitOnSpace_cons_other, splitOnSpace_cons_space, h']

theorem neverNext_login (L : Lib) : NeverNext (login L) := by
  intro ctx req s req' s'
  unfold login
  dsimp only
  repeat' split
  all_goals simp

theorem app_login (L : Lib) (ctx : Ctx) (s : Store) (req : Request)
    (hm : req.method = Method.POST) (hp : req.path = ["api", "login"]) :
    app L ctx req s = login L ctx req s := by
  unfold app routes
  rw [dispatch_skip _ _ _ _ _ (by simp [hm, hp, matchPath])]
  rw [dispatch_hit _ _ _ _ _ none (by simp [hm]) (by simp [hp, matchPath])
    (neverNext_single _ (neverNext_login L))]
  exact runChain_single _ (neverNext_login L) _ _ _

/-- The body of a successful login. -/
theorem login_ok_of_status (L : Lib) (ctx : Ctx) (req : Request) (s : Store)
    (h : (login L ctx req s).1.status? = some 200) :
    ∃ (u : User) (e pw : String),
      (req.body.field "email").bind L.castUserString = some e ∧
      findUserByEmail s e = some u ∧
      asString (req.body.field "password") = some pw ∧
      L.bcryptCompare pw u.password = true ∧
      login L ctx req s =
        (Outcome.respond
          { status := 200,
            body := Json.obj
              [("token", Json.str (L.jwtEncode ctx.secret (loginClaims ctx u._id))),
               ("user", u.sanitize.toJson)] }, s) := by
  unfold login at h ⊢
  dsimp only at h ⊢
  split at h
  · simp [Outcome.status?, errorResponse] at h
  · split at h
    · simp [Outcome.status?] at h
    · simp [Outcome.status?, errorResponse] at h
    · split at h
      · simp [Outcome.status?, errorResponse] at h
      · next e he =>
        split at h
        · simp [Outcome.status?, errorResponse] at h
        · split at h
          · simp [Outcome.status?, errorResponse] at h
          · next u hu =>
            split at h
            · simp [Outcome.status?, errorResponse] at h
            · next pw hpw =>
              split at h
              · simp [Outcome.status?, errorResponse] at h
              · next hcmp =>
                refine ⟨u, e, pw, he, hu, hpw, by simpa using hcmp, ?_⟩
                simp_all

theorem bearer_ne_empty (t : String) : "Bearer " ++ t ≠ "" := by
  intro h
  have := congrArg String.length h
  simp only [String.length_append] at this
  have h7 : "Bearer ".length = 7 := by decide
  have h0 : "".length = 0 := by decide
  omega

theorem findUserById_id {s : Store} {id : ObjectId} {u : User} (h : findUserById s id = some u) :
    u._id = id := by
  unfold findUserById at h
  simpa using List.find?_some h

theorem findUserByEmail_mem {s : Store} {e : String} {u : User}
    (h : findUserByEmail s e = some u) : u ∈ s.users ∧ u.email = e := by
  unfold findUserByEmail at h
  exact ⟨List.mem_of_find?_eq_some h, by simpa using List.find?_some h⟩

/-- Claim C8. When `POST /api/login` answers 200, the body is `{ token, user }`
where `user` is the first stored user `u` with the supplied email, without its
password, and `token` is the signature of claims whose `_id` is the id of `u`,
whose `iat` is the time of the login in seconds and whose `exp` lies exactly 3600
seconds after `iat`. Provided the library verifies what it signed, tokens have
no blank and a stored id casts to itself, a later request that presents
`Bearer token` under the same secret strictly before `exp` passes the auth
middleware with the stored user of that id attached, and from `exp` on it is
answered 401. -/
theorem login_token_identifies_user (L : Lib) (ctx : Ctx) (s : Store) (req : Request)
    (hdecode : ∀ u ∈ s.users,
      L.jwtDecode ctx.secret (L.jwtEncode ctx.secret
          { _id := Json.str u._id, iat := ctx.nowMs / 1000, exp := ctx.nowMs / 1000 + 3600 })
        = some { _id := Json.str u._id, iat := ctx.nowMs / 1000, exp := ctx.nowMs / 1000 + 3600 })
    (hnospace : ∀ u ∈ s.users, ' ' ∉ (L.jwtEncode ctx.secret
      { _id := Json.str u._id, iat := ctx.nowMs / 1000, exp := ctx.nowMs / 1000 + 3600 }).toList)
    (hcast : ∀ u ∈ s.users, L.castObjectId (Json.str u._id) = some u._id)
    (h200 : (app L ctx { req with method := Method.POST, path := ["api", "login"] } s).1.status?
      = some 200) :
    ∃ (u : User) (e token : String) (claims : Claims),
      (req.body.field "email").bind L.castUserString = some e
      ∧ findUserByEmail s e = some u
      ∧ app L ctx { req with method := Method.POST, path := ["api", "login"] } s
          = (Outcome.respond
              { status := 200,
                body := Json.obj [("token", Json.str token), ("user", u.sanitize.toJson)] }, s)
      ∧ token = L.jwtEncode ctx.secret claims
      ∧ claims._id = Json.str u._id
      ∧ claims.iat = ctx.nowMs / 1000
      ∧ claims.exp = claims.iat + 3600
      ∧ (∀ (ctx' : Ctx) (req' : Request) (s' : Store) (u' : User),
          ctx'.secret = ctx.secret → ctx'.nowMs / 1000 < claims.exp →
          ctx'.fault 0 = false → findUserById s' u._id = some u' →
          req'.authorization = some ("Bearer " ++ token) →
          auth L ctx' req' s' = (Outcome.next { req' with user := some u'.sanitize }, s')
            ∧ u'._id = u._id)
      ∧ (∀ (ctx' : Ctx) (req' : Request) (s' : Store),
          ctx'.secret = ctx.secret → claims.exp ≤ ctx'.nowMs / 1000 →
          req'.authorization = some ("Bearer " ++ token) →
          auth L ctx' req' s' = (Outcome.respond (errorResponse 401 "Unauthorized!"), s')) := by
  have hdecode' : ∀ u ∈ s.users,
      L.jwtDecode ctx.secret (L.jwtEncode ctx.secret (loginClaims ctx u._id))
        = some (loginClaims ctx u._id) := hdecode
  have hnospace' : ∀ u ∈ s.users,
      ' ' ∉ (L.jwtEncode ctx.secret (loginClaims ctx u._id)).toList := hnospace
  rw [app_login L ctx s _ rfl rfl] at h200 ⊢
  obtain ⟨u, e, pw, he, hu, _, _, hres⟩ := login_ok_of_status L ctx _ s h200
  have hmem := (findUserByEmail_mem hu).1
  refine ⟨u, e, _, loginClaims ctx u._id, he, hu, hres, rfl, rfl, rfl, rfl, ?_, ?_⟩
  · intro ctx' req' s' u' hsec hnow hfault hfind hhdr
    refine ⟨?_, findUserById_id hfind⟩
    have hlt : ¬ ((loginClaims ctx u._id).exp ≤ ctx'.nowMs / 1000) := Nat.not_le.mpr hnow
    simp [auth, authenticate, hhdr, bearer_ne_empty, bearerToken_bearer _ (hnospace' u hmem),
      jwtVerify, hsec, hdecode' u hmem, hlt, hfault, hfind]
    simp [loginClaims, hcast u hmem, hfind]
  · intro ctx' req' s' hsec hnow hhdr
    simp [auth, authenticate, hhdr, bearer_ne_empty, bearerToken_bearer _ (hnospace' u hmem),
      jwtVerify, hsec, hdecode' u hmem, hnow]

theorem login_token_identifies_user_witness :
    ∃ (u : User) (e token : String) (claims : Claims),
      ((demoRequest demoLoginBody).body.field "email").bind demoLib.castUserString = some e
      ∧ findUserByEmail demoStore e = some u
      ∧ app demoLib demoCtx
            { demoRequest demoLoginBody with method := Method.POST, path := ["api", "login"] }
            demoStore
          = (Outcome.respond
              { status := 200,
                body := Json.obj [("token", Json.str token), ("user", u.sanitize.toJson)] }, demoStore)
      ∧ token = demoLib.jwtEncode demoCtx.secret claims
      ∧ claims._id = Json.str u._id
      ∧ claims.iat = demoCtx.nowMs / 1000
      ∧ claims.exp = claims.iat + 3600
      ∧ (∀ (ctx' : Ctx) (req' : Request) (s' : Store) (u' : User),
          ctx'.secret = demoCtx.secret → ctx'.nowMs / 1000 < claims.exp →
          ctx'.fault 0 = false → findUserById s' u._id = some u' →
          req'.authorization = some ("Bearer " ++ token) →
          auth demoLib ctx' req' s' = (Outcome.next { req' with user := some u'.sanitize }, s')
            ∧ u'._id = u._id)
      ∧ (∀ (ctx' : Ctx) (req' : Request) (s' : Store),
          ctx'.secret = demoCtx.secret → claims.exp ≤ ctx'.nowMs / 1000 →
          req'.authorization = some ("Bearer " ++ token) →
          auth demoLib ctx' req' s' = (Outcome.respond (errorResponse 401 "Unauthorized!"), s')) :=
  login_token_identifies_user demoLib demoCtx demoStore (demoRequest demoLoginBody)
    (by intro u hu; simp [demoStore] at hu; rcases hu with rfl | rfl <;> rfl)
    (by decide) (by decide) (by decide)

theorem eq_of_email_eq {s : Store} (h : s.UniqueEmails) {u v : User}
    (hu : u ∈ s.users) (hv : v ∈ s.users) (he : u.email = v.email) : u = v :=
  List.inj_on_of_nodup_map h hu hv he

theorem login_with_credentials (L : Lib) (ctx : Ctx) (s : Store) (req : Request)
    (e pw : String)
    (hemail : req.body.field "email" = some (Json.str e))
    (hpw : req.body.field "password" = some (Json.str pw)) (hpwne : pw ≠ "")
    (hreg : emailRegTest (some (Json.str e)) = some true)
    (hcast : L.castUserString (Json.str e) = some e)
    (hfault : ctx.fault 0 = false) :
    login L ctx req s =
      match findUserByEmail s e with
      | none => (Outcome.respond (errorResponse 400 "Invalid email or password!"), s)
      | some user =>
        if L.bcryptCompare pw user.password then
          (Outcome.respond
            { status := 200,
              body := Json.obj
                [("token", Json.str (L.jwtEncode ctx.secret (loginClaims ctx user._id))),
                 ("user", user.sanitize.toJson)] }, s)
        else (Outcome.respond (errorResponse 400 "Invalid email or password!"), s) := by
  have hne : e ≠ "" := by
    rintro rfl
    exact absurd hreg (by decide)
  have hte : truthy (some (Json.str e)) = true := by simp [truthy, hne]
  have htp : truthy (some (Json.str pw)) = true := by simp [truthy, hpwne]
  unfold login
  simp only [hemail, hpw, hte, htp, hreg, hcast, hfault, asString, Option.bind]
  cases findUserByEmail s e with
  | none => simp
  | some u => cases hc : L.bcryptCompare pw u.password <;> simp [hc]

/-- Claim C9. For a login body whose email is a string matching the email
pattern and whose password is a non-empty string (no database failure, emails
unique in the store, the string cast of mongoose keeping the email),
`POST /api/login` answers 200 with a `token` member exactly when some stored user
has that email and bcrypt matches the password against that user's hash; in
every other case it answers 400 and the body has no `token` member. -/
theorem login_succeeds_iff_credentials_match (L : Lib) (ctx : Ctx) (s : Store) (req : Request)
    (e pw : String)
    (hemail : req.body.field "email" = some (Json.str e))
    (hpw : req.body.field "password" = some (Json.str pw)) (hpwne : pw ≠ "")
    (hreg : emailRegTest (some (Json.str e)) = some true)
    (hcast : L.castUserString (Json.str e) = some e)
    (hfault : ctx.fault 0 = false)
    (huniq : s.UniqueEmails) :
    (((app L ctx { req with method := Method.POST, path := ["api", "login"] } s).1.status?
          = some 200
        ∧ ∃ t, (app L ctx { req with method := Method.POST, path := ["api", "login"] } s).1.member
            "token" = some (Json.str t))
      ↔ ∃ u ∈ s.users, u.email = e ∧ L.bcryptCompare pw u.password = true)
    ∧ ((¬ ∃ u ∈ s.users, u.email = e ∧ L.bcryptCompare pw u.password = true) →
        (app L ctx { req with method := Method.POST, path := ["api", "login"] } s).1.status?
          = some 400
        ∧ (app L ctx { req with method := Method.POST, path := ["api", "login"] } s).1.member
            "token" = none) := by
  rw [app_login L ctx s _ rfl rfl,
    login_with_credentials L ctx s { req with method := Method.POST, path := ["api", "login"] }
      e pw hemail hpw hpwne hreg hcast hfault]
  cases hfind : findUserByEmail s e with
  | none =>
    have hno : ¬ ∃ u ∈ s.users, u.email = e ∧ L.bcryptCompare pw u.password = true := by
      rintro ⟨u, hu, hue, _⟩
      obtain ⟨v, hv⟩ := findUserByEmail_isSome hu
      rw [hue, hfind] at hv
      exact absurd hv (by simp)
    simp [hno, Outcome.status?, Outcome.member, Outcome.body?, errorResponse, Json.field, lookupKey]
  | some v =>
    obtain ⟨hvm, hve⟩ := findUserByEmail_mem hfind
    cases hcmp : L.bcryptCompare pw v.password with
    | false =>
      have hno : ¬ ∃ u ∈ s.users, u.email = e ∧ L.bcryptCompare pw u.password = true := by
        rintro ⟨u, hu, hue, hc⟩
        have := eq_of_email_eq huniq hu hvm (by rw [hue, hve])
        subst this
        rw [hcmp] at hc
        exact absurd hc (by simp)
      simp [hno, hcmp, Outcome.status?, Outcome.member, Outcome.body?, errorResponse, Json.field,
        lookupKey]
    | true =>
      have hyes : ∃ u ∈ s.users, u.email = e ∧ L.bcryptCompare pw u.password = true :=
        ⟨v, hvm, hve, hcmp⟩
      simp [hyes, hcmp, Outcome.status?, Outcome.member, Outcome.body?, Json.field, lookupKey]

theorem login_succeeds_iff_credentials_match_witness :
    (((app demoLib demoCtx
            { demoRequest demoLoginBody with method := Method.POST, path := ["api", "login"] }
            demoStore).1.status? = some 200
        ∧ ∃ t, (app demoLib demoCtx
            { demoRequest demoLoginBody with method := Method.POST, path := ["api", "login"] }
            demoStore).1.member "token" = some (Json.str t))
      ↔ ∃ u ∈ demoStore.users,
          u.email = "ann@x.io" ∧ demoLib.bcryptCompare "secret1" u.password = true)
    ∧ ((¬ ∃ u ∈ demoStore.users,
          u.email = "ann@x.io" ∧ demoLib.bcryptCompare "secret1" u.password = true) →
        (app demoLib demoCtx
            { demoRequest demoLoginBody with method := Method.POST, path := ["api", "login"] }
            demoStore).1.status? = some 400
        ∧ (app demoLib demoCtx
            { demoRequest demoLoginBody with method := Method.POST, path := ["api", "login"] }
            demoStore).1.member "token" = none) :=
  login_succeeds_iff_credentials_match demoLib demoCtx demoStore (demoRequest demoLoginBody)
    "ann@x.io" "secret1" rfl rfl (by decide) (by decide) rfl rfl (by decide)

theorem jwtVerify_none_of_empty (L : Lib) (ctx : Ctx) : jwtVerify L ctx (bearerToken "") = none := by
  have : bearerToken "" = none := by decide
  rw [this]; rfl

/-- Claim C10. The auth middleware calls `next()` exactly when the
`Authorization` header is present, the token taken from it verifies (signature and
expiry), the lookup does not raise and finds a user with the token's `_id`; the
request then carries that user without the password. Otherwise it ends the
request: 403 when the header is absent (or empty), 401 when the verification
fails, 401 when no user has that `_id`, 500 when the lookup raises (a database
failure or an `_id` that does not cast); and whenever the middleware answers, a
route handler registered after it is not run: the chain gives the middleware's
response. -/
theorem auth_passes_iff_token_and_user (L : Lib) (ctx : Ctx) (req : Request) (s : Store) :
    ((∃ req', auth L ctx req s = (Outcome.next req', s)) ↔
      ∃ header payload uid user,
        req.authorization = some header ∧ jwtVerify L ctx (bearerToken header) = some payload ∧
        ctx.fault 0 = false ∧ L.castObjectId payload._id = some uid ∧
        findUserById s uid = some user)
    ∧ (∀ header payload uid user,
        req.authorization = some header → jwtVerify L ctx (bearerToken header) = some payload →
        ctx.fault 0 = false → L.castObjectId payload._id = some uid →
        findUserById s uid = some user →
        auth L ctx req s = (Outcome.next { req with user := some user.sanitize }, s))
    ∧ (req.authorization = none ∨ req.authorization = some "" →
        auth L ctx req s
          = (Outcome.respond (errorResponse 403 "Forbidden: No token provided!"), s))
    ∧ (∀ header, req.authorization = some header → header ≠ "" →
        jwtVerify L ctx (bearerToken header) = none →
        auth L ctx req s = (Outcome.respond (errorResponse 401 "Unauthorized!"), s))
    ∧ (∀ header payload uid,
        req.authorization = some header → jwtVerify L ctx (bearerToken header) = some payload →
        ctx.fault 0 = false → L.castObjectId payload._id = some uid →
        findUserById s uid = none →
        auth L ctx req s = (Outcome.respond (errorResponse 401 "Unauthorized!"), s))
    ∧ (∀ header payload,
        req.authorization = some header → jwtVerify L ctx (bearerToken header) = some payload →
        ctx.fault 0 = true ∨ L.castObjectId payload._id = none →
        auth L ctx req s = (Outcome.respond (errorResponse 500 "Internal Server Error"), s))
    ∧ (∀ (h : Handler) (r : Response),
        auth L ctx req s = (Outcome.respond r, s) →
        runChain [auth L, h] ctx req s = (Outcome.respond r, s)) := by
  have hpass : ∀ header payload uid user,
      req.authorization = some header → jwtVerify L ctx (bearerToken header) = some payload →
      ctx.fault 0 = false → L.castObjectId payload._id = some uid →
      findUserById s uid = some user →
      auth L ctx req s = (Outcome.next { req with user := some user.sanitize }, s) := by
    intro header payload uid user hh hv hf hc hu
    have hne : header ≠ "" := by
      rintro rfl
      rw [jwtVerify_none_of_empty] at hv
      exact absurd hv (by simp)
    simp [auth, authenticate, hh, hne, hv, hf, hc, hu]
  refine ⟨⟨?_, ?_⟩, hpass, ?_, ?_, ?_, ?_, ?_⟩
  · rintro ⟨req', hreq'⟩
    unfold auth authenticate at hreq'
    cases hh : req.authorization with
    | none => simp [hh] at hreq'
    | some header =>
      by_cases hne : header = ""
      · simp [hh, hne] at hreq'
      · cases hv : jwtVerify L ctx (bearerToken header) with
        | none => simp [hh, hne, hv] at hreq'
        | some payload =>
          cases hf : ctx.fault 0 with
          | true => simp [hh, hne, hv, hf] at hreq'
          | false =>
            cases hc : L.castObjectId payload._id with
            | none => simp [hh, hne, hv, hf, hc] at hreq'
            | some uid =>
              cases hu : findUserById s uid with
              | none => simp [hh, hne, hv, hf, hc, hu] at hreq'
              | some user => exact ⟨header, payload, uid, user, rfl, hv, rfl, hc, hu⟩
  · rintro ⟨header, payload, uid, user, hh, hv, hf, hc, hu⟩
    exact ⟨_, hpass header payload uid user hh hv hf hc hu⟩
  · rintro (hh | hh) <;> simp [auth, authenticate, hh]
  · intro header hh hne hv
    simp [auth, authenticate, hh, hne, hv]
  · intro header payload uid hh hv hf hc hu
    have hne : header ≠ "" := by
      rintro rfl
      rw [jwtVerify_none_of_empty] at hv
      exact absurd hv (by simp)
    simp [auth, authenticate, hh, hne, hv, hf, hc, hu]
  · intro header payload hh hv hbad
    have hne : header ≠ "" := by
      rintro rfl
      rw [jwtVerify_none_of_empty] at hv
      exact absurd hv (by simp)
    rcases hbad with hf | hc
    · simp [auth, authenticate, hh, hne, hv, hf]
    · cases hf : ctx.fault 0 <;> simp [auth, authenticate, hh, hne, hv, hf, hc]
  · intro h r hr
    simp [runChain, hr]

theorem neverNext_me : NeverNext me := by
  intro ctx req s req' s'
  unfold me
  split <;> simp

theorem app_me (L : Lib) (ctx : Ctx) (s : Store) (req : Request)
    (hm : req.method = Method.GET) (hp : req.path = ["api", "me"]) :
    app L ctx req s = runChain [auth L, me] ctx req s := by
  unfold app routes
  iterate 2 rw [dispatch_skip _ _ _ _ _ (by simp [hm, hp, matchPath])]
  rw [dispatch_hit _ _ _ _ _ none (by simp [hm]) (by simp [hp, matchPath])
    (neverNext_chain L _ neverNext_me)]
  rfl

theorem runChain_auth_error (L : Lib) (h : Handler) (ctx : Ctx) (req : Request) (s : Store)
    (r : Response) (hdr : Option String)
    (hauth : authenticate L ctx hdr s = Except.error r) (hreq : req.authorization = hdr) :
    runChain [auth L, h] ctx req s = (Outcome.respond r, s) := by
  simp only [runChain, auth, hreq, hauth]

theorem authenticate_no_header (L : Lib) (ctx : Ctx) (s : Store) :
    authenticate L ctx none s = Except.error (errorResponse 403 "Forbidden: No token provided!") :=
  rfl

/-- Claim C11. A request without an `Authorization` header to any of
`GET /api/me`, `PUT /api/change-password`, `POST /api/contact`, `GET /api/mycontacts`,
`GET /api/contact/:id`, `PUT /api/contact` and `DELETE /api/contact/:id` is answered 403 by the
auth middleware registered in front of the handler; the answer is the same in
every store, so nothing of the store is read for it, and the store is returned
as it was. -/
theorem unauthenticated_requests_get_403 (L : Lib) (ctx : Ctx) (req : Request) (idStr : String)
    (hno : req.authorization = none) (hne : idStr ≠ "") :
    ∀ mp ∈ [(Method.GET, ["api", "me"]), (Method.PUT, ["api", "change-password"]),
        (Method.POST, ["api", "contact"]), (Method.GET, ["api", "mycontacts"]),
        (Method.GET, ["api", "contact", idStr]), (Method.PUT, ["api", "contact"]),
        (Method.DELETE, ["api", "contact", idStr])],
      ∀ s : Store,
        app L ctx { req with method := mp.1, path := mp.2 } s
          = (Outcome.respond (errorResponse 403 "Forbidden: No token provided!"), s) := by
  intro mp hmp s
  have h403 := authenticate_no_header L ctx s
  simp only [List.mem_cons, List.mem_singleton, List.not_mem_nil, or_false] at hmp
  rcases hmp with rfl | rfl | rfl | rfl | rfl | rfl | rfl
  · rw [app_me L ctx s _ rfl rfl]
    exact runChain_auth_error L _ ctx _ s _ none h403 hno
  · rw [app_changePassword L ctx s _ rfl rfl]
    exact runChain_auth_error L _ ctx _ s _ none h403 hno
  · rw [app_postContact L ctx s _ rfl rfl]
    exact runChain_auth_error L _ ctx _ s _ none h403 hno
  · rw [app_getMyContacts L ctx s _ rfl rfl]
    exact runChain_auth_error L _ ctx _ s _ none h403 hno
  · rw [app_getContact L ctx s _ idStr hne rfl rfl]
    exact runChain_auth_error L _ ctx _ s _ none h403 hno
  · rw [app_putContact L ctx s _ rfl rfl]
    exact runChain_auth_error L _ ctx _ s _ none h403 hno
  · rw [app_deleteContact L ctx s _ idStr hne rfl rfl]
    exact runChain_auth_error L _ ctx _ s _ none h403 hno

theorem unauthenticated_requests_get_403_witness :
    app demoLib demoCtx { demoAnonymous with method := Method.GET, path := ["api", "me"] }
        demoStore
      = (Outcome.respond (errorResponse 403 "Forbidden: No token provided!"), demoStore)
    ∧ app demoLib demoCtx
        { demoAnonymous with method := Method.DELETE, path := ["api", "contact", "c1"] }
        demoStore
      = (Outcome.respond (errorResponse 403 "Forbidden: No token provided!"), demoStore) :=
  ⟨unauthenticated_requests_get_403 demoLib demoCtx demoAnonymous "c1" rfl (by decide)
      (Method.GET, ["api", "me"]) (by simp) demoStore,
    unauthenticated_requests_get_403 demoLib demoCtx demoAnonymous "c1" rfl (by decide)
      (Method.DELETE, ["api", "contact", "c1"]) (by simp) demoStore⟩

theorem sanitized_no_password (u : SanitizedUser) : u.toJson.field "password" = none := by
  simp [SanitizedUser.toJson, Json.field, lookupKey]

theorem toJsonWith_postedBy (c : Contact) (owner : Json) :
    (c.toJsonWith owner).field "postedBy" = some owner := by
  simp [Contact.toJsonWith, Json.field, lookupKey_append, lookupKey]

theorem register_created_body (L : Lib) (ctx : Ctx) (req : Request) (s : Store) (b : Json)
    (h : (register L ctx req s).1 = Outcome.respond { status := 201, body := b }) :
    ∃ u : User, b = u.sanitize.toJson := by
  unfold register at h
  dsimp only at h
  repeat' split at h
  all_goals first
    | (simp [errorResponse] at h; done)
    | (simp only [Outcome.respond.injEq, Response.mk.injEq, true_and] at h
       exact ⟨_, h.symm⟩)

theorem authenticate_ok_user (L : Lib) (ctx : Ctx) (hdr : Option String) (s : Store)
    (A : SanitizedUser) (h : authenticate L ctx hdr s = Except.ok A) :
    ∃ u ∈ s.users, A = u.sanitize := by
  unfold authenticate at h
  repeat' split at h
  all_goals first
    | (simp at h; done)
    | skip
  next user hfind =>
    simp only [Except.ok.injEq] at h
    exact ⟨user, List.mem_of_find?_eq_some hfind, h.symm⟩

theorem authenticate_error_shape (L : Lib) (ctx : Ctx) (hdr : Option String) (s : Store)
    (r : Response) (h : authenticate L ctx hdr s = Except.error r) :
    ∃ code msg, r = errorResponse code msg ∧ code ≠ 200 := by
  unfold authenticate at h
  repeat' split at h
  all_goals first
    | (simp only [Except.error.injEq] at h
       exact ⟨_, _, h.symm, by decide⟩)
    | (simp at h)

theorem errorResponse_no_password (code : Nat) (msg : String) :
    (errorResponse code msg).body.field "password" = none := by
  simp [errorResponse, Json.field, lookupKey]

/-- Claim C12. The bodies that carry a user have no `password` member: the user
returned by a 201 of `POST /api/register`, the body and its `user` member of a 200 of
`POST /api/login`, every body `GET /api/me` sends, and the `postedBy` member of each
contact listed by `GET /api/mycontacts` (a user object or `null`). The user the auth
middleware attaches to the request is a stored user without its password,
and that sanitized record is the same whatever the stored password is. -/
theorem responses_carry_no_password (L : Lib) (ctx : Ctx) (req : Request) (s : Store) :
    (∀ b, (app L ctx { req with method := Method.POST, path := ["api", "register"] } s).1
          = Outcome.respond { status := 201, body := b } →
        b.field "password" = none)
    ∧ (∀ b, (app L ctx { req with method := Method.POST, path := ["api", "login"] } s).1
          = Outcome.respond { status := 200, body := b } →
        b.field "password" = none ∧
          ∃ user, b.field "user" = some user ∧ user.field "password" = none)
    ∧ (∀ b, (app L ctx { req with method := Method.GET, path := ["api", "me"] } s).1.body?
          = some b →
        b.field "password" = none)
    ∧ (∀ req' s', auth L ctx req s = (Outcome.next req', s') →
        ∃ u ∈ s.users, req'.user = some u.sanitize)
    ∧ (∀ b, (app L ctx { req with method := Method.GET, path := ["api", "mycontacts"] } s).1
          = Outcome.respond { status := 200, body := b } →
        ∃ items, b = Json.obj [("contacts", Json.arr items)] ∧
          ∀ item ∈ items, ∃ owner,
            item.field "postedBy" = some owner ∧ owner.field "password" = none)
    ∧ (∀ (u : User) (p : String), ({ u with password := p } : User).sanitize = u.sanitize) := by
  refine ⟨?_, ?_, ?_, ?_, ?_, fun _ _ => rfl⟩
  · intro b h
    rw [app_register L ctx s _ rfl rfl] at h
    obtain ⟨u, rfl⟩ := register_created_body L ctx _ s b h
    exact sanitized_no_password _
  · intro b h
    rw [app_login L ctx s _ rfl rfl] at h
    obtain ⟨u, e, pw, _, _, _, _, hres⟩ := login_ok_of_status L ctx _ s (by rw [h]; rfl)
    rw [hres] at h
    simp only [Outcome.respond.injEq, Response.mk.injEq, true_and] at h
    subst h
    exact ⟨by simp [Json.field, lookupKey],
      u.sanitize.toJson, by simp [Json.field, lookupKey], sanitized_no_password _⟩
  · intro b h
    rw [app_me L ctx s _ rfl rfl] at h
    cases hauth : authenticate L ctx req.authorization s with
    | error r =>
      rw [runChain_auth_error L _ ctx
        { req with method := Method.GET, path := ["api", "me"] } s r _ hauth rfl] at h
      obtain ⟨code, msg, rfl, _⟩ := authenticate_error_shape L ctx _ s r hauth
      simp only [Outcome.body?, Option.some.injEq] at h
      subst h
      exact errorResponse_no_password code msg
    | ok A =>
      rw [runChain_auth_ok L _ neverNext_me ctx
        { req with method := Method.GET, path := ["api", "me"] } s A _ hauth rfl] at h
      simp only [me, Outcome.body?, Option.some.injEq] at h
      subst h
      exact sanitized_no_password A
  · intro req' s' h
    unfold auth at h
    cases hauth : authenticate L ctx req.authorization s with
    | error r => simp [hauth] at h
    | ok A =>
      simp only [hauth, Prod.mk.injEq, Outcome.next.injEq] at h
      obtain ⟨u, hu, rfl⟩ := authenticate_ok_user L ctx _ s A hauth
      exact ⟨u, hu, by rw [← h.1]⟩
  · intro b h
    rw [app_getMyContacts L ctx s _ rfl rfl] at h
    cases hauth : authenticate L ctx req.authorization s with
    | error r =>
      rw [runChain_auth_error L _ ctx
        { req with method := Method.GET, path := ["api", "mycontacts"] } s r _ hauth rfl] at h
      obtain ⟨code, msg, rfl, hcode⟩ := authenticate_error_shape L ctx _ s r hauth
      simp only [errorResponse, Outcome.respond.injEq, Response.mk.injEq] at h
      exact absurd h.1 hcode
    | ok A =>
      rw [runChain_auth_ok L _ neverNext_getMyContacts ctx
        { req with method := Method.GET, path := ["api", "mycontacts"] } s A _ hauth rfl] at h
      simp only [getMyContacts] at h
      split at h
      · simp [errorResponse] at h
      · simp only [Outcome.respond.injEq, Response.mk.injEq, true_and] at h
        refine ⟨_, h.symm, ?_⟩
        intro item hitem
        rw [List.mem_map] at hitem
        obtain ⟨c, _, rfl⟩ := hitem
        unfold populatedJson
        split
        · exact ⟨_, toJsonWith_postedBy _ _, sanitized_no_password _⟩
        · exact ⟨_, toJsonWith_postedBy _ _, rfl⟩

theorem RE.accepts_none (l : List Char) : RE.accepts RE.none l = false := by
  induction l with
  | nil => rfl
  | cons c cs ih => simpa [RE.accepts, RE.deriv] using ih

theorem RE.accepts_cat_none (r : RE) (l : List Char) :
    RE.accepts (RE.cat RE.none r) l = false := by
  induction l with
  | nil => rfl
  | cons c cs ih => simpa [RE.accepts, RE.deriv, RE.nullable] using ih

theorem RE.accepts_alt (a b : RE) (l : List Char) :
    RE.accepts (RE.alt a b) l = (RE.accepts a l || RE.accepts b l) := by
  induction l generalizing a b with
  | nil => rfl
  | cons c cs ih => simp only [RE.accepts, RE.deriv, ih]

theorem RE.accepts_eps_star_cls (p : Char → Bool) (l : List Char) :
    RE.accepts (RE.cat RE.eps (RE.star (RE.cls p))) l = l.all p := by
  induction l with
  | nil => rfl
  | cons c cs ih =>
    simp only [RE.accepts, RE.deriv, RE.nullable, if_true, RE.accepts_alt, RE.accepts_cat_none,
      Bool.false_or, List.all_cons]
    cases hp : p c
    · simp [RE.accepts_cat_none]
    · simp [ih]

theorem phoneRegExp_accepts (l : List Char) :
    phoneRegExp.accepts l = true ↔ l ≠ [] ∧ ∀ c ∈ l, isPhoneChar c = true := by
  cases l with
  | nil => simp [phoneRegExp, RE.plus, RE.accepts, RE.nullable]
  | cons c cs =>
    simp only [phoneRegExp, RE.plus, RE.accepts, RE.deriv, RE.nullable, Bool.false_eq_true,
      if_false]
    cases hp : isPhoneChar c
    · simp [RE.accepts_cat_none, hp]
    · simp [RE.accepts_eps_star_cls, hp]

theorem utf16Units_of_phoneChar (c : Char) (h : isPhoneChar c = true) : utf16Units c = 1 := by
  have hlt : c.val.toNat < 65536 := by
    simp only [isPhoneChar, isDigit09, Bool.or_eq_true, Bool.and_eq_true, decide_eq_true_eq,
      beq_iff_eq] at h
    rcases h with (((⟨_, h9⟩ | h) | h) | h) | h
    · have h57 : c.val.toNat ≤ ('9' : Char).val.toNat := h9
      have h9val : ('9' : Char).val.toNat = 57 := by decide
      omega
    all_goals (subst h; decide)
  simp [utf16Units, hlt]

theorem jsLength_of_phoneChars (p : String) (h : ∀ c ∈ p.toList, isPhoneChar c = true) :
    jsLength p = p.length := by
  unfold jsLength
  have : ∀ l : List Char, (∀ c ∈ l, isPhoneChar c = true) → (l.map utf16Units).sum = l.length := by
    intro l
    induction l with
    | nil => intro _; rfl
    | cons c cs ih =>
      intro hl
      simp only [List.map_cons, List.sum_cons, List.length_cons]
      rw [utf16Units_of_phoneChar c (hl c (List.mem_cons_self _ _)),
        ih (fun d hd => hl d (List.mem_cons_of_mem _ hd))]
      omega
  rw [this p.toList h]
  rfl

theorem firstError_eq_none (l : List (Option String)) :
    firstError l = none ↔ ∀ e ∈ l, e = none := by
  induction l with
  | nil => simp [firstError]
  | cons x xs ih =>
    cases x with
    | none => simp [firstError, ih]
    | some e => simp [firstError]

theorem phoneCheck_eq_none (v : Option Json) :
    joiRequired "phone" (joiString "phone" false [rulePhonePattern, ruleMin 7, ruleMax 15]) v
      = none ↔ PhoneOk v := by
  unfold PhoneOk
  cases v with
  | none => simp [joiRequired]
  | some j =>
    cases j with
    | str p =>
      simp only [joiRequired, joiString, Option.some.injEq, Json.str.injEq, exists_eq_left']
      by_cases hp : p = ""
      · subst hp
        simp
      · simp only [hp, if_false, List.map_cons, List.map_nil, firstError_eq_none,
          List.mem_cons, List.mem_singleton, List.not_mem_nil, or_false, forall_eq_or_imp,
          forall_eq]
        simp only [rulePhonePattern, ruleMin, ruleMax]
        constructor
        · rintro ⟨h1, h2, h3⟩
          have hacc : phoneRegExp.accepts p.toList = true := by
            by_contra hc
            rw [if_neg hc] at h1
            exact absurd h1 (by simp)
          have hall := ((phoneRegExp_accepts _).mp hacc).2
          have hlen := jsLength_of_phoneChars p hall
          rw [hlen] at h2 h3
          refine ⟨?_, ?_, hall⟩
          · by_contra hc
            simp [Nat.lt_of_not_le hc] at h2
          · by_contra hc
            simp [Nat.lt_of_not_le hc] at h3
        · rintro ⟨h7, h15, hall⟩
          have hlen := jsLength_of_phoneChars p hall
          have hne : p.toList ≠ [] := by
            intro hnil
            exact hp (by cases p; simp only [String.toList] at hnil; subst hnil; rfl)
          have hacc := (phoneRegExp_accepts _).mpr ⟨hne, hall⟩
          rw [hlen]
          refine ⟨by rw [if_pos hacc], ?_, ?_⟩
          · simp [Nat.not_lt.mpr h7]
          · simp [Nat.not_lt.mpr h15]
    | _ => simp [joiRequired, joiString]

theorem validateContact_eq_none_iff (L : Lib) (kvs : List (String × Json)) :
    validateContact L (Json.obj kvs) = none ↔
      validateContactExceptPhone L kvs = none ∧ PhoneOk (lookupKey "phone" kvs) := by
  rw [← phoneCheck_eq_none]
  simp only [validateContact, validateContactExceptPhone, firstError_eq_none, List.mem_cons,
    List.mem_singleton, List.not_mem_nil, or_false, forall_eq_or_imp, forall_eq]
  tauto

theorem postContact_invalid (L : Lib) (ctx : Ctx) (req : Request) (s : Store) (msg : String)
    (h : validateContact L req.body = some msg) :
    postContact L ctx req s = (Outcome.respond (errorResponse 400 msg), s) := by
  simp [postContact, h]

theorem not_phoneOk_abc : ¬ PhoneOk (some (Json.str "abc")) := by
  rintro ⟨p, hp, h7, _⟩
  simp only [Option.some.injEq, Json.str.injEq] at hp
  subst hp
  exact absurd h7 (by decide)

/-- Claim C13. `validateContact` accepts a body exactly when its other members
pass their checks and its `phone` is a string of 7 to 15 characters, each a
digit or one of `+`, `(`, `)`, `-` (`PhoneOk`). For an authenticated caller,
`POST /api/contact` with phone `"abc"` is answered 400 and stores nothing, whatever
the other members are, and with phone `"+1-555-1234"`, the other members valid,
the document accepted by mongoose and no database failure, it is answered
201. -/
theorem phone_accepted_iff_pattern (L : Lib) (ctx : Ctx) (s : Store) (req₁ req₂ : Request)
    (A : SanitizedUser) (kvs : List (String × Json))
    (hauth₁ : authenticate L ctx req₁.authorization s = Except.ok A)
    (hauth₂ : authenticate L ctx req₂.authorization s = Except.ok A)
    (habc : req₁.body.field "phone" = some (Json.str "abc"))
    (hbody : req₂.body = Json.obj kvs)
    (hphone : lookupKey "phone" kvs = some (Json.str "+1-555-1234"))
    (hothers : validateContactExceptPhone L kvs = none)
    (hcast : (newContact L ctx req₂.body A._id).isSome = true)
    (hfault : ctx.fault 1 = false) :
    (∀ kvs', validateContact L (Json.obj kvs') = none ↔
        validateContactExceptPhone L kvs' = none ∧ PhoneOk (lookupKey "phone" kvs'))
    ∧ (app L ctx { req₁ with method := Method.POST, path := ["api", "contact"] } s).1.status?
        = some 400
    ∧ (app L ctx { req₁ with method := Method.POST, path := ["api", "contact"] } s).2 = s
    ∧ (app L ctx { req₂ with method := Method.POST, path := ["api", "contact"] } s).1.status?
        = some 201 := by
  refine ⟨validateContact_eq_none_iff L, ?_⟩
  have h1 : ∃ msg, validateContact L req₁.body = some msg := by
    cases hb : req₁.body with
    | obj kvs₁ =>
      rw [hb] at habc
      cases hv : validateContact L (Json.obj kvs₁) with
      | some msg => exact ⟨msg, rfl⟩
      | none =>
        have := ((validateContact_eq_none_iff L kvs₁).mp hv).2
        simp only [Json.field] at habc
        rw [habc] at this
        exact absurd this not_phoneOk_abc
    | _ => rw [hb] at habc; simp [Json.field] at habc
  obtain ⟨msg, hmsg⟩ := h1
  have h2 : validateContact L req₂.body = none := by
    rw [hbody, validateContact_eq_none_iff]
    refine ⟨hothers, "+1-555-1234", hphone, by decide, by decide, by decide⟩
  rw [app_postContact L ctx s _ rfl rfl, app_postContact L ctx s _ rfl rfl,
    runChain_auth_ok L _ (neverNext_postContact L) ctx
      { req₁ with method := Method.POST, path := ["api", "contact"] } s A _ hauth₁ rfl,
    runChain_auth_ok L _ (neverNext_postContact L) ctx
      { req₂ with method := Method.POST, path := ["api", "contact"] } s A _ hauth₂ rfl]
  obtain ⟨c, hc⟩ := Option.isSome_iff_exists.mp hcast
  refine ⟨?_, ?_, ?_⟩
  · simp [postContact, hmsg, Outcome.status?, errorResponse]
  · simp [postContact, hmsg]
  · simp [postContact, h2, hc, hfault, Outcome.status?]

theorem phone_accepted_iff_pattern_witness :
    (∀ kvs, validateContact demoLib (Json.obj kvs) = none ↔
        validateContactExceptPhone demoLib kvs = none ∧ PhoneOk (lookupKey "phone" kvs))
    ∧ (app demoLib demoCtx
        { demoRequest demoBadPhoneBody with method := Method.POST, path := ["api", "contact"] }
        demoStore).1.status? = some 400
    ∧ (app demoLib demoCtx
        { demoRequest demoBadPhoneBody with method := Method.POST, path := ["api", "contact"] }
        demoStore).2 = demoStore
    ∧ (app demoLib demoCtx
        { demoRequest demoContactBody with method := Method.POST, path := ["api", "contact"] }
        demoStore).1.status? = some 201 :=
  phone_accepted_iff_pattern demoLib demoCtx demoStore (demoRequest demoBadPhoneBody)
    (demoRequest demoContactBody) demoAnn.sanitize
    [("name", Json.str "Dora Smith"), ("phone", Json.str "+1-555-1234"),
      ("email", Json.str "dora@x.io")]
    rfl rfl rfl rfl rfl (by decide) (by decide) (by decide)

theorem firstError_isSome_of_mem (l : List (Option String)) (e : String) (h : some e ∈ l) :
    (firstError l).isSome = true := by
  cases hf : firstError l with
  | some _ => rfl
  | none =>
    have := (firstError_eq_none l).mp hf (some e) h
    exact absurd this (by simp)

theorem validateContact_rejects (L : Lib) (kvs : List (String × Json)) :
    (lookupKey "name" kvs = none →
        validateContact L (Json.obj kvs) = some (quoted "name" ++ " is required"))
    ∧ (∀ n, lookupKey "name" kvs = some (Json.str n) → jsLength n < 4 ∨ 50 < jsLength n →
        (validateContact L (Json.obj kvs)).isSome = true)
    ∧ (lookupKey "phone" kvs = none → (validateContact L (Json.obj kvs)).isSome = true)
    ∧ (lookupKey "email" kvs = none → (validateContact L (Json.obj kvs)).isSome = true) := by
  refine ⟨?_, ?_, ?_, ?_⟩
  · intro h
    simp [validateContact, h, joiRequired, firstError]
  · intro n hn hlen
    have hcheck : ∃ e, joiRequired "name" (joiString "name" false [ruleMin 4, ruleMax 50])
        (lookupKey "name" kvs) = some e := by
      rw [hn]
      simp only [joiRequired, joiString]
      by_cases h0 : n = ""
      · simp [h0]
      · simp only [h0, if_false, List.map_cons, List.map_nil, ruleMin, ruleMax]
        rcases hlen with h | h
        · simp [firstError, h]
        · have h4 : ¬ jsLength n < 4 := by omega
          simp [firstError, h, h4]
    obtain ⟨e, he⟩ := hcheck
    apply firstError_isSome_of_mem _ e
    simp [he]
  · intro h
    apply firstError_isSome_of_mem _ (quoted "phone" ++ " is required")
    simp [h, joiRequired]
  · intro h
    apply firstError_isSome_of_mem _ (quoted "email" ++ " is required")
    simp [h, joiRequired]

/-- Claim C14. When `validateContact` rejects the body with the message `msg`
(the first failing check, in the order of the schema), `POST /api/contact` of an
authenticated caller is answered 400 with `{ error: msg }` and the store is
unchanged. In particular `validateContact` rejects every object whose `name` is
missing (message that the name is required), is a string shorter than 4 or
longer than 50, or whose `phone` or `email` is missing. -/
theorem invalid_contact_rejected (L : Lib) (ctx : Ctx) (s : Store) (req : Request)
    (A : SanitizedUser) (msg : String)
    (hauth : authenticate L ctx req.authorization s = Except.ok A)
    (hinv : validateContact L req.body = some msg) :
    app L ctx { req with method := Method.POST, path := ["api", "contact"] } s
      = (Outcome.respond (errorResponse 400 msg), s)
    ∧ ∀ kvs : List (String × Json),
        (lookupKey "name" kvs = none →
          validateContact L (Json.obj kvs) = some (quoted "name" ++ " is required"))
        ∧ (∀ n, lookupKey "name" kvs = some (Json.str n) → jsLength n < 4 ∨ 50 < jsLength n →
            (validateContact L (Json.obj kvs)).isSome = true)
        ∧ (lookupKey "phone" kvs = none → (validateContact L (Json.obj kvs)).isSome = true)
        ∧ (lookupKey "email" kvs = none → (validateContact L (Json.obj kvs)).isSome = true) := by
  refine ⟨?_, validateContact_rejects L⟩
  rw [app_postContact L ctx s _ rfl rfl,
    runChain_auth_ok L _ (neverNext_postContact L) ctx
      { req with method := Method.POST, path := ["api", "contact"] } s A _ hauth rfl]
  simp [postContact, hinv]

theorem invalid_contact_rejected_witness :
    app demoLib demoCtx
        { demoRequest demoShortNameBody with method := Method.POST, path := ["api", "contact"] }
        demoStore
      = (Outcome.respond
          (errorResponse 400 (quoted "name" ++ " length must be at least 4 characters long")),
          demoStore) :=
  (invalid_contact_rejected demoLib demoCtx demoStore (demoRequest demoShortNameBody)
    demoAnn.sanitize (quoted "name" ++ " length must be at least 4 characters long")
    rfl (by decide)).1

theorem truthy_str_of_jsLength_pos (m : String) (h : 0 < jsLength m) :
    truthy (some (Json.str m)) = true := by
  have : m ≠ "" := by
    rintro rfl
    exact absurd h (by decide)
  simp [truthy, this]

theorem lengthGt_str (L : Lib) (m : String) (k : Int) :
    lengthGt L (lengthOf (some (Json.str m))) k = some (decide (k < (jsLength m : Int))) := rfl

theorem lengthLt_str (L : Lib) (m : String) (k : Int) :
    lengthLt L (lengthOf (some (Json.str m))) k = some (decide ((jsLength m : Int) < k)) := rfl

theorem emailRegTest_str (m : String) :
    emailRegTest (some (Json.str m)) = some (emailRegExp.accepts m.toList) := rfl

theorem register_field_errors (L : Lib) (ctx : Ctx) (s : Store) (req : Request)
    (hbad : req.body.field "name" = none ∨ req.body.field "email" = none ∨
      req.body.field "password" = none ∨
      (∃ m, req.body.field "name" = some (Json.str m) ∧ 25 < jsLength m) ∨
      (∃ m, req.body.field "email" = some (Json.str m) ∧ emailRegExp.accepts m.toList = false ∧
        lengthGt L (lengthOf (req.body.field "name")) 25 ≠ none) ∨
      (∃ m, req.body.field "password" = some (Json.str m) ∧ jsLength m < 6 ∧
        lengthGt L (lengthOf (req.body.field "name")) 25 ≠ none ∧
        emailRegTest (req.body.field "email") ≠ none)) :
    ∃ msg, register L ctx req s = (Outcome.respond (errorResponse 400 msg), s) := by
  unfold register
  dsimp only
  split
  · exact ⟨_, rfl⟩
  · next h1 =>
    simp only [Bool.or_eq_true, Bool.not_eq_true', not_or, Bool.not_eq_false] at h1
    obtain ⟨⟨hn, he⟩, hp⟩ := h1
    have hmissing : ¬ (req.body.field "name" = none ∨ req.body.field "email" = none ∨
        req.body.field "password" = none) := by
      rintro (h | h | h)
      · rw [h] at hn; simp [truthy] at hn
      · rw [h] at he; simp [truthy] at he
      · rw [h] at hp; simp [truthy] at hp
    split
    · next h2 =>
      exfalso
      rcases hbad with h | h | h | ⟨m, hm, hlen⟩ | ⟨m, _, _, hc⟩ | ⟨m, _, _, hc, _⟩
      · exact hmissing (Or.inl h)
      · exact hmissing (Or.inr (Or.inl h))
      · exact hmissing (Or.inr (Or.inr h))
      · rw [hm, lengthGt_str] at h2
        exact absurd h2 (by simp)
      · exact hc h2
      · exact hc h2
    · exact ⟨_, rfl⟩
    · next h2 =>
      have hlong : ¬ ∃ m, req.body.field "name" = some (Json.str m) ∧ 25 < jsLength m := by
        rintro ⟨m, hm, hlen⟩
        rw [hm, lengthGt_str] at h2
        simp only [Option.some.injEq, decide_eq_false_iff_not, not_lt] at h2
        have : (jsLength m : Int) ≤ 25 := h2
        omega
      split
      · next h3 =>
        exfalso
        rcases hbad with h | h | h | h | ⟨m, hm, _, _⟩ | ⟨m, _, _, _, hc⟩
        · exact hmissing (Or.inl h)
        · exact hmissing (Or.inr (Or.inl h))
        · exact hmissing (Or.inr (Or.inr h))
        · exact hlong h
        · rw [hm, emailRegTest_str] at h3
          exact absurd h3 (by simp)
        · exact hc h3
      · exact ⟨_, rfl⟩
      · next h3 =>
        have hmail : ¬ ∃ m, req.body.field "email" = some (Json.str m) ∧
            emailRegExp.accepts m.toList = false := by
          rintro ⟨m, hm, hacc⟩
          rw [hm, emailRegTest_str, hacc] at h3
          exact absurd h3 (by simp)
        split
        · next h4 =>
          exfalso
          rcases hbad with h | h | h | h | ⟨m, hm, hacc, _⟩ | ⟨m, hm, _, _, _⟩
          · exact hmissing (Or.inl h)
          · exact hmissing (Or.inr (Or.inl h))
          · exact hmissing (Or.inr (Or.inr h))
          · exact hlong h
          · exact hmail ⟨m, hm, hacc⟩
          · rw [hm, lengthLt_str] at h4
            exact absurd h4 (by simp)
        · exact ⟨_, rfl⟩
        · next h4 =>
          exfalso
          rcases hbad with h | h | h | h | ⟨m, hm, hacc, _⟩ | ⟨m, hm, hlen, _, _⟩
          · exact hmissing (Or.inl h)
          · exact hmissing (Or.inr (Or.inl h))
          · exact hmissing (Or.inr (Or.inr h))
          · exact hlong h
          · exact hmail ⟨m, hm, hacc⟩
          · rw [hm, lengthLt_str] at h4
            simp only [Option.some.injEq, decide_eq_false_iff_not, not_lt] at h4
            have : (6 : Int) ≤ (jsLength m : Int) := h4
            omega

theorem register_created (L : Lib) (ctx : Ctx) (s : Store) (req : Request) (n e p : String)
    (hname : req.body.field "name" = some (Json.str n)) (hn : 0 < jsLength n ∧ jsLength n ≤ 25)
    (hemail : req.body.field "email" = some (Json.str e))
    (hreg : emailRegExp.accepts e.toList = true)
    (hpw : req.body.field "password" = some (Json.str p)) (hp : 6 ≤ jsLength p)
    (hcaste : L.castUserString (Json.str e) = some e)
    (hcastn : L.castUserString (Json.str n) = some n)
    (hnew : findUserByEmail s e = none)
    (hf0 : ctx.fault 0 = false) (hf1 : ctx.fault 1 = false) :
    register L ctx req s =
      (Outcome.respond
        { status := 201,
          body := (User.sanitize
            { _id := ctx.freshId, name := n, email := e,
              password := L.bcryptHash p 12 ctx.salt,
              createdAt := ctx.nowMs, updatedAt := ctx.nowMs }).toJson },
        { s with users := s.users ++
            [{ _id := ctx.freshId, name := n, email := e,
               password := L.bcryptHash p 12 ctx.salt,
               createdAt := ctx.nowMs, updatedAt := ctx.nowMs }] }) := by
  have htn := truthy_str_of_jsLength_pos n hn.1
  have htp := truthy_str_of_jsLength_pos p (by omega)
  have hte : truthy (some (Json.str e)) = true := by
    have : e ≠ "" := by
      rintro rfl
      exact absurd hreg (by decide)
    simp [truthy, this]
  have hgt : lengthGt L (lengthOf (some (Json.str n))) 25 = some false := by
    rw [lengthGt_str]
    simp only [Option.some.injEq, decide_eq_false_iff_not, not_lt]
    exact_mod_cast hn.2
  have hlt : lengthLt L (lengthOf (some (Json.str p))) 6 = some false := by
    rw [lengthLt_str]
    simp only [Option.some.injEq, decide_eq_false_iff_not, not_lt]
    exact_mod_cast hp
  have hre : emailRegTest (some (Json.str e)) = some true := by
    rw [emailRegTest_str, hreg]
  simp [register, hname, hemail, hpw, htn, htp, hte, hgt, hlt, hre, hcaste, hcastn, hnew, hf0,
    hf1, asString]

/-- Claim C15 (the claim as stated fails). The payload
`{ "name": "N", "email": { "toString": 1 }, "password": "123" }` has a password of fewer than 6
characters, yet `POST /api/register` sends no response: the pattern test converts
the email to a string, which raises a `TypeError` before the password is looked
at, outside the `try` block. -/
theorem register_raises_on_object_email :
    demoObjectEmailRegistration.field "password" = some (Json.str "123")
    ∧ jsLength "123" < 6
    ∧ app demoLib demoCtx
        { demoRequest demoObjectEmailRegistration with
          method := Method.POST, path := ["api", "register"] } demoStore
      = (Outcome.throws, demoStore)
    ∧ ¬ ∃ r, (app demoLib demoCtx
        { demoRequest demoObjectEmailRegistration with
          method := Method.POST, path := ["api", "register"] } demoStore).1
      = Outcome.respond r :=
  ⟨rfl, by decide, rfl, fun ⟨_, h⟩ => Outcome.noConfusion h⟩

/-- Claim C15 (amended). `POST /api/register` is answered 400 and the store is unchanged
(no user is created) when `name`, `email` or `password` is missing, when `name` is a
string of more than 25 characters, when `email` is a string that does not
match the email pattern and the length test of `name` before it does not
raise, or when `password` is a string of fewer than 6 characters and the two
tests before it do not raise (lengths as the `length` of JavaScript). A name of
exactly 25 and a password of exactly 6 characters pass these checks: with a
matching email that no stored user has (and no database failure) the answer
is 201 and the user is created with that name and email. -/
theorem register_field_checks (L : Lib) (ctx : Ctx) (s : Store) (req₁ req₂ : Request)
    (n e p : String)
    (hbad : req₁.body.field "name" = none ∨ req₁.body.field "email" = none ∨
      req₁.body.field "password" = none ∨
      (∃ m, req₁.body.field "name" = some (Json.str m) ∧ 25 < jsLength m) ∨
      (∃ m, req₁.body.field "email" = some (Json.str m) ∧
        emailRegExp.accepts m.toList = false ∧
        lengthGt L (lengthOf (req₁.body.field "name")) 25 ≠ none) ∨
      (∃ m, req₁.body.field "password" = some (Json.str m) ∧ jsLength m < 6 ∧
        lengthGt L (lengthOf (req₁.body.field "name")) 25 ≠ none ∧
        emailRegTest (req₁.body.field "email") ≠ none))
    (hname : req₂.body.field "name" = some (Json.str n)) (hn : jsLength n = 25)
    (hemail : req₂.body.field "email" = some (Json.str e))
    (hreg : emailRegExp.accepts e.toList = true)
    (hpw : req₂.body.field "password" = some (Json.str p)) (hp : jsLength p = 6)
    (hcaste : L.castUserString (Json.str e) = some e)
    (hcastn : L.castUserString (Json.str n) = some n)
    (hnew : findUserByEmail s e = none)
    (hf0 : ctx.fault 0 = false) (hf1 : ctx.fault 1 = false) :
    (∃ msg, app L ctx { req₁ with method := Method.POST, path := ["api", "register"] } s
        = (Outcome.respond (errorResponse 400 msg), s))
    ∧ ∃ u : User,
        app L ctx { req₂ with method := Method.POST, path := ["api", "register"] } s
          = (Outcome.respond { status := 201, body := u.sanitize.toJson },
              { users := s.users ++ [u], contacts := s.contacts })
        ∧ u.name = n ∧ u.email = e := by
  constructor
  · rw [app_register L ctx s _ rfl rfl]
    exact register_field_errors L ctx s
      { req₁ with method := Method.POST, path := ["api", "register"] } hbad
  · rw [app_register L ctx s _ rfl rfl,
      register_created L ctx s { req₂ with method := Method.POST, path := ["api", "register"] }
        n e p hname (by omega) hemail hreg hpw (by omega) hcaste hcastn hnew hf0 hf1]
    exact ⟨_, rfl, rfl, rfl⟩

theorem register_field_checks_witness :
    (∃ msg, app demoLib demoCtx
        { demoRequest demoShortPasswordRegistration with
          method := Method.POST, path := ["api", "register"] } demoStore
        = (Outcome.respond (errorResponse 400 msg), demoStore))
    ∧ ∃ u : User,
        app demoLib demoCtx
            { demoRequest demoBoundaryRegistration with
              method := Method.POST, path := ["api", "register"] } demoStore
          = (Outcome.respond { status := 201, body := u.sanitize.toJson },
              { users := demoStore.users ++ [u], contacts := demoStore.contacts })
        ∧ u.name = "abcdefghijklmnopqrstuvwxy" ∧ u.email = "new@x.io" :=
  register_field_checks demoLib demoCtx demoStore (demoRequest demoShortPasswordRegistration)
    (demoRequest demoBoundaryRegistration) "abcdefghijklmnopqrstuvwxy" "new@x.io" "123456"
    (Or.inr (Or.inr (Or.inr (Or.inr (Or.inr
      ⟨"123", rfl, by decide, by decide, by decide⟩)))))
    rfl (by decide) rfl (by decide) rfl (by decide) rfl rfl (by decide) rfl rfl

theorem dispatch_cases (rs : List Route) (hn : ∀ r ∈ rs, NeverNext (runChain r.chain))
    (ctx : Ctx) (req : Request) (s : Store) :
    dispatch rs ctx req s = (Outcome.respond { status := 404, body := Json.null }, s) ∨
    ∃ r ∈ rs, ∃ param, r.method = req.method ∧ matchPath r.pattern req.path = some param ∧
      dispatch rs ctx req s = runChain r.chain ctx { req with id := param.getD req.id } s := by
  induction rs with
  | nil => exact Or.inl rfl
  | cons r rest ih =>
    have ih' := ih (fun r' hr' => hn r' (List.mem_cons_of_mem _ hr'))
    have lift : (dispatch rest ctx req s
          = (Outcome.respond { status := 404, body := Json.null }, s) ∨
        ∃ r' ∈ rest, ∃ param, r'.method = req.method ∧
          matchPath r'.pattern req.path = some param ∧
          dispatch rest ctx req s
            = runChain r'.chain ctx { req with id := param.getD req.id } s) →
        dispatch (r :: rest) ctx req s = dispatch rest ctx req s →
        (dispatch (r :: rest) ctx req s
          = (Outcome.respond { status := 404, body := Json.null }, s) ∨
        ∃ r' ∈ r :: rest, ∃ param, r'.method = req.method ∧
          matchPath r'.pattern req.path = some param ∧
          dispatch (r :: rest) ctx req s
            = runChain r'.chain ctx { req with id := param.getD req.id } s) := by
      intro h heq
      rcases h with h | ⟨r', hr', param, hm, hp, hd⟩
      · exact Or.inl (heq.trans h)
      · exact Or.inr ⟨r', List.mem_cons_of_mem _ hr', param, hm, hp, heq.trans hd⟩
    by_cases hm : r.method = req.method
    · cases hp : matchPath r.pattern req.path with
      | none => exact lift ih' (dispatch_skip r rest ctx req s (Or.inr hp))
      | some param =>
        exact Or.inr ⟨r, List.mem_cons_self _ _, param, hm, hp,
          dispatch_hit r rest ctx req s param hm hp (hn r (List.mem_cons_self _ _))⟩
    · exact lift ih' (dispatch_skip r rest ctx req s (Or.inl hm))

theorem neverNext_getContactAny (L : Lib) : NeverNext (getContactAny L) := by
  intro ctx req s req' s'
  unfold getContactAny
  repeat' split
  all_goals simp

theorem routes_neverNext (L : Lib) : ∀ r ∈ routes L, NeverNext (runChain r.chain) := by
  intro r hr
  simp only [routes, List.mem_cons, List.mem_singleton, List.not_mem_nil, or_false] at hr
  rcases hr with rfl | rfl | rfl | rfl | rfl | rfl | rfl | rfl | rfl | rfl
  · exact neverNext_single _ (neverNext_register L)
  · exact neverNext_single _ (neverNext_login L)
  · exact neverNext_chain L _ neverNext_me
  · exact neverNext_chain L _ (neverNext_changePassword L)
  · exact neverNext_chain L _ (neverNext_postContact L)
  · exact neverNext_chain L _ neverNext_getMyContacts
  · exact neverNext_chain L _ (neverNext_getContactOwned L)
  · exact neverNext_chain L _ (neverNext_putContact L)
  · exact neverNext_chain L _ (neverNext_deleteContact L)
  · exact neverNext_chain L _ (neverNext_getContactAny L)

theorem matchPath_register (path : List String) (param : Option String)
    (h : matchPath ["api", "register"] path = some param) : path = ["api", "register"] := by
  rcases path with _ | ⟨x, _ | ⟨y, _ | ⟨z, rest⟩⟩⟩ <;> simp [matchPath] at h
  · rw [← h.1, ← h.2.1]

theorem matchPath_login (path : List String) (param : Option String)
    (h : matchPath ["api", "login"] path = some param) : path = ["api", "login"] := by
  rcases path with _ | ⟨x, _ | ⟨y, _ | ⟨z, rest⟩⟩⟩ <;> simp [matchPath] at h
  · rw [← h.1, ← h.2.1]

theorem matchPath_changePassword (path : List String) (param : Option String)
    (h : matchPath ["api", "change-password"] path = some param) :
    path = ["api", "change-password"] := by
  rcases path with _ | ⟨x, _ | ⟨y, _ | ⟨z, rest⟩⟩⟩ <;> simp [matchPath] at h
  · rw [← h.1, ← h.2.1]

theorem login_store (L : Lib) (ctx : Ctx) (req : Request) (s : Store) :
    (login L ctx req s).2 = s := by
  unfold login
  dsimp only
  repeat' split
  all_goals rfl

theorem me_store (ctx : Ctx) (req : Request) (s : Store) : (me ctx req s).2 = s := by
  unfold me
  split <;> rfl

theorem getMyContacts_store (ctx : Ctx) (req : Request) (s : Store) :
    (getMyContacts ctx req s).2 = s := by
  unfold getMyContacts
  repeat' split
  all_goals rfl

theorem getContactOwned_store (L : Lib) (ctx : Ctx) (req : Request) (s : Store) :
    (getContactOwned L ctx req s).2 = s := by
  unfold getContactOwned
  repeat' split
  all_goals rfl

theorem getContactAny_store (L : Lib) (ctx : Ctx) (req : Request) (s : Store) :
    (getContactAny L ctx req s).2 = s := by
  unfold getContactAny
  repeat' split
  all_goals rfl

theorem register_effect (L : Lib) (ctx : Ctx) (req : Request) (s : Store) :
    (register L ctx req s).2 = s ∨
    ∃ u : User, u._id = ctx.freshId ∧ (register L ctx req s).1.status? = some 201 ∧
      (register L ctx req s).2 = { users := s.users ++ [u], contacts := s.contacts } := by
  unfold register
  dsimp only
  repeat' split
  all_goals first
    | exact Or.inl rfl
    | exact Or.inr ⟨_, rfl, rfl, rfl⟩

theorem changePassword_effect (L : Lib) (ctx : Ctx) (req : Request) (s : Store)
    (A : SanitizedUser) (hu : req.user = some A) :
    (changePassword L ctx req s).2 = s ∨
    ∃ hash : String, (changePassword L ctx req s).1.status? = some 200 ∧
      (changePassword L ctx req s).2
        = { users := savePassword A._id hash ctx.nowMs s.users, contacts := s.contacts } := by
  unfold changePassword
  rw [hu]
  dsimp only
  repeat' split
  all_goals first
    | exact Or.inl rfl
    | exact Or.inr ⟨_, rfl, rfl⟩

theorem postContact_effect (L : Lib) (ctx : Ctx) (req : Request) (s : Store)
    (A : SanitizedUser) (hu : req.user = some A) :
    (postContact L ctx req s).2 = s ∨
    ∃ c : Contact, c.postedBy = A._id ∧
      (postContact L ctx req s).2 = { users := s.users, contacts := s.contacts ++ [c] } := by
  unfold postContact
  rw [hu]
  cases hv : validateContact L req.body with
  | some msg => exact Or.inl rfl
  | none =>
    cases hn : newContact L ctx req.body A._id with
    | none => exact Or.inl (by simp [hn])
    | some c =>
      cases hf : ctx.fault 1 with
      | true => exact Or.inl (by simp [hn, hf])
      | false => exact Or.inr ⟨c, (newContact_postedBy hn).1, by simp [hn, hf]⟩

theorem forall₂_sameIdentity_refl (l : List Contact) : List.Forall₂ SameIdentity l l := by
  induction l with
  | nil => exact List.Forall₂.nil
  | cons c cs ih => exact List.Forall₂.cons ⟨rfl, rfl⟩ ih

theorem replaceWhere_sameIdentity (sel : ObjectId → Bool) (target updated : Contact)
    (hsame : SameIdentity target updated) (l : List Contact)
    (hfind : l.find? (fun c => sel c._id) = some target) :
    List.Forall₂ SameIdentity l (replaceWhere sel updated l) := by
  induction l with
  | nil => exact List.Forall₂.nil
  | cons c cs ih =>
    simp only [replaceWhere]
    by_cases hc : sel c._id = true
    · simp only [hc, if_true]
      have : c = target := by
        simpa [List.find?, hc] using hfind
      subst this
      exact List.Forall₂.cons hsame (forall₂_sameIdentity_refl cs)
    · simp only [hc]
      have : cs.find? (fun c => sel c._id) = some target := by
        simpa [List.find?, hc] using hfind
      exact List.Forall₂.cons ⟨rfl, rfl⟩ (ih this)

theorem applyUpdate_sameIdentity {L : Lib} {ctx : Ctx} {body : Json} {c d : Contact}
    (h : applyUpdate L ctx body c = some d) : SameIdentity c d := by
  unfold applyUpdate at h
  split at h
  · simp only [Option.some.injEq] at h
    subst h
    exact ⟨rfl, rfl⟩
  · exact absurd h (by simp)

theorem putContact_effect (L : Lib) (ctx : Ctx) (req : Request) (s : Store) :
    (putContact L ctx req s).2.users = s.users ∧
      List.Forall₂ SameIdentity s.contacts (putContact L ctx req s).2.contacts := by
  have hrefl := forall₂_sameIdentity_refl s.contacts
  unfold putContact
  split
  · exact ⟨rfl, hrefl⟩
  · split
    · next user id _ _ =>
      split
      · exact ⟨rfl, hrefl⟩
      · split
        · exact ⟨rfl, hrefl⟩
        · cases hfind : findWhere s id with
          | none => simp only; split <;> exact ⟨rfl, hrefl⟩
          | some target =>
            simp only
            cases hupd : applyUpdate L ctx req.body target with
            | none => exact ⟨rfl, hrefl⟩
            | some updated =>
              simp only
              split
              · exact ⟨rfl, hrefl⟩
              · exact ⟨rfl, replaceWhere_sameIdentity id target updated
                  (applyUpdate_sameIdentity hupd) s.contacts hfind⟩
    · exact ⟨rfl, hrefl⟩

theorem deleteContact_effect (L : Lib) (ctx : Ctx) (req : Request) (s : Store) :
    (deleteContact L ctx req s).2.users = s.users ∧
      ((deleteContact L ctx req s).2.contacts).Sublist s.contacts := by
  unfold deleteContact
  repeat' split
  all_goals first
    | exact ⟨rfl, List.Sublist.refl _⟩
    | exact ⟨rfl, List.eraseP_sublist _⟩

theorem stepEffect_of_eq (L : Lib) (ctx : Ctx) (req : Request) (s t : Store) (o : Outcome)
    (h : t = s) : StepEffect L ctx req s o t := by
  subst h
  exact StepEffect.unchanged

theorem stepEffect_auth_chain (L : Lib) (ctx : Ctx) (req : Request) (s : Store) (h : Handler)
    (hh : NeverNext h) (id : String)
    (heff : ∀ A, authenticate L ctx req.authorization s = Except.ok A →
      StepEffect L ctx req s (h ctx { req with id := id, user := some A } s).1
        (h ctx { req with id := id, user := some A } s).2) :
    StepEffect L ctx req s (runChain [auth L, h] ctx { req with id := id } s).1
      (runChain [auth L, h] ctx { req with id := id } s).2 := by
  cases hauth : authenticate L ctx req.authorization s with
  | error r =>
    rw [runChain_auth_error L h ctx { req with id := id } s r _ hauth rfl]
    exact StepEffect.unchanged
  | ok A =>
    rw [runChain_auth_ok L h hh ctx { req with id := id } s A _ hauth rfl]
    exact heff A hauth

theorem app_step_effect (L : Lib) (ctx : Ctx) (req : Request) (s : Store) :
    StepEffect L ctx req s (app L ctx req s).1 (app L ctx req s).2 := by
  rcases dispatch_cases (routes L) (routes_neverNext L) ctx req s with h | ⟨r, hr, param, hm, hp, h⟩
  · unfold app
    rw [h]
    exact StepEffect.unchanged
  · unfold app
    rw [h]
    simp only [routes, List.mem_cons, List.mem_singleton, List.not_mem_nil, or_false] at hr
    rcases hr with rfl | rfl | rfl | rfl | rfl | rfl | rfl | rfl | rfl | rfl
    · rw [runChain_single _ (neverNext_register L)]
      have hpath := matchPath_register _ _ hp
      rcases register_effect L ctx { req with id := param.getD req.id } s with he | ⟨u, hu, hst, he⟩
      · exact stepEffect_of_eq _ _ _ _ _ _ he
      · rw [he]
        exact StepEffect.registered u hm.symm hpath hst hu
    · rw [runChain_single _ (neverNext_login L)]
      exact stepEffect_of_eq _ _ _ _ _ _ (login_store L ctx _ s)
    · apply stepEffect_auth_chain L ctx req s _ neverNext_me
      intro A _
      exact stepEffect_of_eq _ _ _ _ _ _ (me_store ctx _ s)
    · apply stepEffect_auth_chain L ctx req s _ (neverNext_changePassword L)
      intro A hA
      have hpath := matchPath_changePassword _ _ hp
      rcases changePassword_effect L ctx
        { req with id := param.getD req.id, user := some A } s A rfl with he | ⟨hash, hst, he⟩
      · exact stepEffect_of_eq _ _ _ _ _ _ he
      · rw [he]
        exact StepEffect.passwordChanged A hash hm.symm hpath hst hA
    · apply stepEffect_auth_chain L ctx req s _ (neverNext_postContact L)
      intro A hA
      rcases postContact_effect L ctx
        { req with id := param.getD req.id, user := some A } s A rfl with he | ⟨c, hc, he⟩
      · exact stepEffect_of_eq _ _ _ _ _ _ he
      · rw [he]
        exact StepEffect.created A c hA hc
    · apply stepEffect_auth_chain L ctx req s _ neverNext_getMyContacts
      intro A _
      exact stepEffect_of_eq _ _ _ _ _ _ (getMyContacts_store ctx _ s)
    · apply stepEffect_auth_chain L ctx req s _ (neverNext_getContactOwned L)
      intro A _
      exact stepEffect_of_eq _ _ _ _ _ _ (getContactOwned_store L ctx _ s)
    · apply stepEffect_auth_chain L ctx req s _ (neverNext_putContact L)
      intro A _
      obtain ⟨hu, hc⟩ := putContact_effect L ctx
        { req with id := param.getD req.id, user := some A } s
      have := @StepEffect.updated L ctx req s
        (putContact L ctx { req with id := param.getD req.id, user := some A } s).1 _ hc
      rw [← hu] at this
      exact this
    · apply stepEffect_auth_chain L ctx req s _ (neverNext_deleteContact L)
      intro A _
      obtain ⟨hu, hc⟩ := deleteContact_effect L ctx
        { req with id := param.getD req.id, user := some A } s
      have := @StepEffect.deleted L ctx req s
        (deleteContact L ctx { req with id := param.getD req.id, user := some A } s).1 _ hc
      rw [← hu] at this
      exact this
    · apply stepEffect_auth_chain L ctx req s _ (neverNext_getContactAny L)
      intro A _
      exact stepEffect_of_eq _ _ _ _ _ _ (getContactAny_store L ctx _ s)

theorem forall₂_userKept_refl (id : ObjectId) (l : List User) :
    List.Forall₂ (UserKept id) l l := by
  induction l with
  | nil => exact List.Forall₂.nil
  | cons u us ih => exact List.Forall₂.cons ⟨rfl, rfl, rfl, fun _ => rfl⟩ ih

theorem savePassword_userKept (id : ObjectId) (hash : String) (now : Nat) (l : List User) :
    List.Forall₂ (UserKept id) l (savePassword id hash now l) := by
  induction l with
  | nil => exact List.Forall₂.nil
  | cons u us ih =>
    simp only [savePassword]
    split
    · next h =>
      exact List.Forall₂.cons ⟨rfl, rfl, rfl, fun hne => absurd h hne⟩
        (forall₂_userKept_refl id us)
    · exact List.Forall₂.cons ⟨rfl, rfl, rfl, fun _ => rfl⟩ ih

/-- Claim C18. Serving any request leaves the user collection as it was, with
two exceptions. A 201 of `POST /api/register` appends one record and keeps the
others. A 200 of `PUT /api/change-password` by the authenticated caller `A` keeps
the records position by position: each keeps its `_id`, `name` and `email`, and
every record whose `_id` is not that of `A` is kept whole. In no case is a user
record removed. -/
theorem users_change_only_by_register_and_password (L : Lib) (ctx : Ctx) (req : Request)
    (s : Store) :
    (app L ctx req s).2.users = s.users
    ∨ (req.method = Method.POST ∧ req.path = ["api", "register"] ∧
        (app L ctx req s).1.status? = some 201 ∧
        ∃ u, (app L ctx req s).2.users = s.users ++ [u])
    ∨ (req.method = Method.PUT ∧ req.path = ["api", "change-password"] ∧
        (app L ctx req s).1.status? = some 200 ∧
        ∃ A, authenticate L ctx req.authorization s = Except.ok A ∧
          List.Forall₂ (UserKept A._id) s.users (app L ctx req s).2.users) := by
  have h := app_step_effect L ctx req s
  generalize (app L ctx req s).2 = t at h
  cases h with
  | unchanged => exact Or.inl rfl
  | registered u hm hp hst _ => exact Or.inr (Or.inl ⟨hm, hp, hst, u, rfl⟩)
  | passwordChanged A hash hm hp hst hA =>
    exact Or.inr (Or.inr ⟨hm, hp, hst, A, hA, savePassword_userKept _ _ _ _⟩)
  | created A c _ _ => exact Or.inl rfl
  | updated cs _ => exact Or.inl rfl
  | deleted cs _ => exact Or.inl rfl

theorem savePassword_map_id (id : ObjectId) (hash : String) (now : Nat) (us : List User) :
    (savePassword id hash now us).map (fun u => u._id) = us.map (fun u => u._id) := by
  induction us with
  | nil => rfl
  | cons u rest ih =>
    simp only [savePassword]
    split
    · rfl
    · simp only [List.map_cons, ih]

theorem forall₂_sameIdentity_owner {l₁ l₂ : List Contact}
    (h : List.Forall₂ SameIdentity l₁ l₂) :
    ∀ d ∈ l₂, ∃ c ∈ l₁, d.postedBy = c.postedBy := by
  induction h with
  | nil => intro d hd; simp at hd
  | cons hcd _ ih =>
    intro d hd
    rcases List.mem_cons.mp hd with rfl | hd
    · exact ⟨_, List.mem_cons_self _ _, hcd.2⟩
    · obtain ⟨c, hc, hcd'⟩ := ih d hd
      exact ⟨c, List.mem_cons_of_mem _ hc, hcd'⟩

theorem ownersPresent_step (L : Lib) (ctx : Ctx) (req : Request) (s t : Store) (o : Outcome)
    (h : StepEffect L ctx req s o t) (hs : s.OwnersPresent)
    (hfresh : ctx.freshId ∉ s.users.map (fun u => u._id)) : t.OwnersPresent := by
  obtain ⟨hnd, hown⟩ := hs
  cases h with
  | unchanged => exact ⟨hnd, hown⟩
  | registered u _ _ _ hu =>
    refine ⟨?_, ?_⟩
    · simp only [List.map_append, List.map_cons, List.map_nil]
      rw [List.nodup_append]
      refine ⟨hnd, List.nodup_singleton _, ?_⟩
      intro a ha hb
      simp only [List.mem_singleton] at hb
      subst hb
      rw [hu] at ha
      exact hfresh ha
    · intro c hc
      simp only [List.map_append, List.mem_append]
      exact Or.inl (hown c hc)
  | passwordChanged A hash _ _ _ _ =>
    refine ⟨?_, ?_⟩
    · simp only [savePassword_map_id]; exact hnd
    · intro c hc
      simp only [savePassword_map_id]
      exact hown c hc
  | created A c hA hc =>
    refine ⟨hnd, ?_⟩
    intro d hd
    rcases List.mem_append.mp hd with hd | hd
    · exact hown d hd
    · simp only [List.mem_singleton] at hd
      subst hd
      obtain ⟨u, hu, rfl⟩ := authenticate_ok_user L ctx _ s A hA
      rw [hc]
      exact List.mem_map.mpr ⟨u, hu, rfl⟩
  | updated cs hcs =>
    refine ⟨hnd, ?_⟩
    intro d hd
    obtain ⟨c, hc, hdc⟩ := forall₂_sameIdentity_owner hcs d hd
    rw [hdc]
    exact hown c hc
  | deleted cs hcs =>
    exact ⟨hnd, fun d hd => hown d (hcs.subset hd)⟩

theorem reachableFresh_ownersPresent (L : Lib) {s : Store} (h : ReachableFresh L s) :
    s.OwnersPresent := by
  induction h with
  | empty => exact ⟨List.nodup_nil, fun c hc => by simp at hc⟩
  | step ctx req _ hfresh ih =>
    exact ownersPresent_step L ctx req _ _ _ (app_step_effect L ctx req _) ih hfresh

/-- Claim C19. In every store reachable from the empty database by requests
served with fresh identifiers, each contact's `postedBy` is the `_id` of a stored
user and of no second one. `PUT /api/contact` keeps the contacts position by
position with the same `_id` and the same `postedBy`, whatever the body holds. And
whatever the request, the contacts afterwards are the old ones with some
removed, or the old ones each with its `_id` and `postedBy` kept, or the old ones
followed by one contact whose `postedBy` is the id of the authenticated caller:
the owner of a contact is the user who created it. -/
theorem every_contact_has_one_owner (L : Lib) :
    (∀ s, ReachableFresh L s → ∀ c ∈ s.contacts,
        ∃ u ∈ s.users, u._id = c.postedBy ∧ ∀ v ∈ s.users, v._id = c.postedBy → v = u)
    ∧ (∀ ctx req s, req.method = Method.PUT → req.path = ["api", "contact"] →
        List.Forall₂ SameIdentity s.contacts (app L ctx req s).2.contacts)
    ∧ (∀ ctx req s,
        ((app L ctx req s).2.contacts).Sublist s.contacts
        ∨ List.Forall₂ SameIdentity s.contacts (app L ctx req s).2.contacts
        ∨ ∃ A c, authenticate L ctx req.authorization s = Except.ok A ∧ c.postedBy = A._id ∧
            (app L ctx req s).2.contacts = s.contacts ++ [c]) := by
  refine ⟨?_, ?_, ?_⟩
  · intro s hs c hc
    obtain ⟨hnd, hown⟩ := reachableFresh_ownersPresent L hs
    obtain ⟨u, hu, hid⟩ := List.mem_map.mp (hown c hc)
    refine ⟨u, hu, hid, ?_⟩
    intro v hv hvid
    exact List.inj_on_of_nodup_map hnd hv hu (hvid.trans hid.symm)
  · intro ctx req s hm hp
    rw [app_putContact L ctx s req hm hp]
    cases hauth : authenticate L ctx req.authorization s with
    | error r =>
      rw [runChain_auth_error L _ ctx req s r _ hauth rfl]
      exact forall₂_sameIdentity_refl _
    | ok A =>
      rw [runChain_auth_ok L _ (neverNext_putContact L) ctx req s A _ hauth rfl]
      exact (putContact_effect L ctx _ s).2
  · intro ctx req s
    have h := app_step_effect L ctx req s
    generalize (app L ctx req s).2 = t at h
    cases h with
    | unchanged => exact Or.inl (List.Sublist.refl _)
    | registered u _ _ _ _ => exact Or.inl (List.Sublist.refl _)
    | passwordChanged A hash _ _ _ _ => exact Or.inl (List.Sublist.refl _)
    | created A c hA hc => exact Or.inr (Or.inr ⟨A, c, hA, hc, rfl⟩)
    | updated cs hcs => exact Or.inr (Or.inl hcs)
    | deleted cs hcs => exact Or.inl hcs

theorem register_throws (L : Lib) (ctx : Ctx) (req : Request) (s : Store)
    (h : (register L ctx req s).1 = Outcome.throws) :
    lengthGt L (lengthOf (req.body.field "name")) 25 = none ∨
      emailRegTest (req.body.field "email") = none ∨
      lengthLt L (lengthOf (req.body.field "password")) 6 = none := by
  unfold register at h
  dsimp only at h
  split at h
  · simp at h
  · split at h
    · next h2 => exact Or.inl h2
    · simp at h
    · split at h
      · next h3 => exact Or.inr (Or.inl h3)
      · simp at h
      · split at h
        · next h4 => exact Or.inr (Or.inr h4)
        · simp at h
        · exfalso
          revert h
          repeat' split
          all_goals simp

theorem login_throws (L : Lib) (ctx : Ctx) (req : Request) (s : Store)
    (h : (login L ctx req s).1 = Outcome.throws) :
    emailRegTest (req.body.field "email") = none := by
  unfold login at h
  dsimp only at h
  split at h
  · simp at h
  · split at h
    · next h2 => exact h2
    · simp at h
    · exfalso
      revert h
      repeat' split
      all_goals simp

theorem neverThrows_postContact (L : Lib) : NeverThrows (postContact L) := by
  intro ctx req s
  unfold postContact
  repeat' split
  all_goals simp

theorem neverThrows_getMyContacts : NeverThrows getMyContacts := by
  intro ctx req s
  unfold getMyContacts
  repeat' split
  all_goals simp

theorem neverThrows_getContactOwned (L : Lib) : NeverThrows (getContactOwned L) := by
  intro ctx req s
  unfold getContactOwned
  repeat' split
  all_goals simp

theorem neverThrows_getContactAny (L : Lib) : NeverThrows (getContactAny L) := by
  intro ctx req s
  unfold getContactAny
  repeat' split
  all_goals simp

theorem neverThrows_putContact (L : Lib) : NeverThrows (putContact L) := by
  intro ctx req s
  unfold putContact
  repeat' split
  all_goals simp

theorem neverThrows_deleteContact (L : Lib) : NeverThrows (deleteContact L) := by
  intro ctx req s
  unfold deleteContact
  repeat' split
  all_goals simp

theorem changePassword_throws_iff (L : Lib) (ctx : Ctx) (req : Request) (s : Store) :
    (changePassword L ctx req s).1 = Outcome.throws ↔
      lengthLt L (lengthOf (req.body.field "newPassword")) 6 = none := by
  unfold changePassword
  dsimp only
  constructor
  · intro h
    split at h
    · next h1 => exact h1
    · simp at h
    · exfalso
      revert h
      repeat' split
      all_goals simp
  · intro h
    rw [h]

theorem runChain_auth_throws (L : Lib) (h : Handler) (hh : NeverNext h) (ctx : Ctx)
    (req : Request) (s : Store) (ht : (runChain [auth L, h] ctx req s).1 = Outcome.throws) :
    ∃ A, authenticate L ctx req.authorization s = Except.ok A ∧
      (h ctx { req with user := some A } s).1 = Outcome.throws := by
  cases hauth : authenticate L ctx req.authorization s with
  | error r =>
    rw [runChain_auth_error L h ctx req s r _ hauth rfl] at ht
    exact absurd ht (by simp)
  | ok A =>
    rw [runChain_auth_ok L h hh ctx req s A _ hauth rfl] at ht
    exact ⟨A, rfl, ht⟩

/-- An exception leaves the application only from one of the tests that stand
before a `try` block: the three tests of `register`, the pattern test of `login` and
the length test of `changePassword`, when the conversion or the property access
of the test raises. -/
theorem app_throws_only_before_try (L : Lib) (ctx : Ctx) (req : Request) (s : Store)
    (ht : (app L ctx req s).1 = Outcome.throws) :
    (req.method = Method.POST ∧ req.path = ["api", "register"] ∧
      (lengthGt L (lengthOf (req.body.field "name")) 25 = none ∨
        emailRegTest (req.body.field "email") = none ∨
        lengthLt L (lengthOf (req.body.field "password")) 6 = none))
    ∨ (req.method = Method.POST ∧ req.path = ["api", "login"] ∧
      emailRegTest (req.body.field "email") = none)
    ∨ (req.method = Method.PUT ∧ req.path = ["api", "change-password"] ∧
      lengthLt L (lengthOf (req.body.field "newPassword")) 6 = none) := by
  unfold app at ht
  rcases dispatch_cases (routes L) (routes_neverNext L) ctx req s with h | ⟨r, hr, param, hm, hp, h⟩
  · rw [h] at ht
    exact absurd ht (by simp)
  · rw [h] at ht
    simp only [routes, List.mem_cons, List.mem_singleton, List.not_mem_nil, or_false] at hr
    rcases hr with rfl | rfl | rfl | rfl | rfl | rfl | rfl | rfl | rfl | rfl
    · rw [runChain_single _ (neverNext_register L)] at ht
      exact Or.inl ⟨hm.symm, matchPath_register _ _ hp, register_throws L ctx _ s ht⟩
    · rw [runChain_single _ (neverNext_login L)] at ht
      exact Or.inr (Or.inl ⟨hm.symm, matchPath_login _ _ hp, login_throws L ctx _ s ht⟩)
    · obtain ⟨A, _, hA⟩ := runChain_auth_throws L _ neverNext_me ctx _ s ht
      simp [me] at hA
    · obtain ⟨A, _, hA⟩ := runChain_auth_throws L _ (neverNext_changePassword L) ctx _ s ht
      have hbody := (changePassword_throws_iff L ctx _ s).mp hA
      exact Or.inr (Or.inr ⟨hm.symm, matchPath_changePassword _ _ hp, hbody⟩)
    · obtain ⟨A, _, hA⟩ := runChain_auth_throws L _ (neverNext_postContact L) ctx _ s ht
      exact absurd hA (neverThrows_postContact L _ _ _)
    · obtain ⟨A, _, hA⟩ := runChain_auth_throws L _ neverNext_getMyContacts ctx _ s ht
      exact absurd hA (neverThrows_getMyContacts _ _ _)
    · obtain ⟨A, _, hA⟩ := runChain_auth_throws L _ (neverNext_getContactOwned L) ctx _ s ht
      exact absurd hA (neverThrows_getContactOwned L _ _ _)
    · obtain ⟨A, _, hA⟩ := runChain_auth_throws L _ (neverNext_putContact L) ctx _ s ht
      exact absurd hA (neverThrows_putContact L _ _ _)
    · obtain ⟨A, _, hA⟩ := runChain_auth_throws L _ (neverNext_deleteContact L) ctx _ s ht
      exact absurd hA (neverThrows_deleteContact L _ _ _)
    · obtain ⟨A, _, hA⟩ := runChain_auth_throws L _ (neverNext_getContactAny L) ctx _ s ht
      exact absurd hA (neverThrows_getContactAny L _ _ _)

/-- Claim C16 (the code at the failing input). An authenticated
`PUT /api/change-password` whose body has `currentPassword` but no `newPassword` ends with
an exception that leaves the handler: the test `newPassword.length < 6` stands
before the `try` block, and no response is sent. -/
theorem change_password_without_new_password_throws :
    authenticate demoLib demoCtx
        (demoRequest (Json.obj [("currentPassword", Json.str "secret1")])).authorization
        demoStore
      = Except.ok demoAnn.sanitize
    ∧ (Json.obj [("currentPassword", Json.str "secret1")]).field "newPassword" = none
    ∧ app demoLib demoCtx
        { demoRequest (Json.obj [("currentPassword", Json.str "secret1")]) with
          method := Method.PUT, path := ["api", "change-password"] } demoStore
      = (Outcome.throws, demoStore)
    ∧ ¬ ∃ r, (app demoLib demoCtx
        { demoRequest (Json.obj [("currentPassword", Json.str "secret1")]) with
          method := Method.PUT, path := ["api", "change-password"] } demoStore).1
      = Outcome.respond r :=
  ⟨rfl, rfl, rfl, fun ⟨_, h⟩ => Outcome.noConfusion h⟩

/-- Claim C17 (the code at the failing input). The contact fields `name: "ab"`,
`phone: "abc"` fail `validateContact`, yet `PUT /api/contact` of the owner with these
fields is answered 200 and the stored contact then carries them: the update
handler never calls `validateContact`. -/
theorem put_writes_unvalidated_fields :
    validateContact demoLib (Json.obj [("name", Json.str "ab"), ("phone", Json.str "abc")])
      = some (quoted "name" ++ " length must be at least 4 characters long")
    ∧ app demoLib demoCtx
        { demoRequest demoInvalidUpdate with method := Method.PUT, path := ["api", "contact"] }
        demoStore
      = (Outcome.respond { status := 200, body := demoContactAfterInvalidUpdate.toJson },
          { users := demoStore.users,
            contacts := [demoContactOfBob, demoContactAfterInvalidUpdate] }) :=
  ⟨by decide, rfl⟩

theorem splitOnSpace_append_space (w t : List Char) (hw : ' ' ∉ w) :
    splitOnSpace (w ++ ' ' :: t) = w :: splitOnSpace t := by
  induction w with
  | nil => exact splitOnSpace_cons_space t
  | cons c cs ih =>
    have hc : c ≠ ' ' := fun e => hw (by simp [e])
    have hcs : ' ' ∉ cs := fun e => hw (List.mem_cons_of_mem _ e)
    rw [List.cons_append, splitOnSpace_cons_other c _ hc, ih hcs]
    rfl

theorem bearerToken_second_word (w t : String) (hw : ' ' ∉ w.toList) (ht : ' ' ∉ t.toList) :
    bearerToken (w ++ " " ++ t) = some t := by
  unfold bearerToken
  have : (w ++ " " ++ t).toList = w.toList ++ ' ' :: t.toList := by
    simp [String.toList]
  rw [this, splitOnSpace_append_space _ _ hw, splitOnSpace_no_space _ ht]
  rfl

theorem bearerToken_no_space (h : String) (hs : ' ' ∉ h.toList) : bearerToken h = none := by
  unfold bearerToken
  rw [splitOnSpace_no_space _ hs]
  rfl

theorem append_space_ne_empty (w t : String) : w ++ " " ++ t ≠ "" := by
  intro h
  have := congrArg String.length h
  simp only [String.length_append] at this
  have h1 : " ".length = 1 := by decide
  have h0 : "".length = 0 := by decide
  omega

/-- Claim C20 (the claim as stated fails). The header `Basic k.u1.5.3605`, whose second
word is a token that verifies, passes the auth middleware although its first
word is not `Bearer`: the caller is authenticated as the user of the token. -/
theorem basic_scheme_is_accepted :
    jwtVerify demoLib demoCtx (some "k.u1.5.3605") = some (loginClaims demoCtx "u1")
    ∧ auth demoLib demoCtx
        { demoRequest Json.null with authorization := some "Basic k.u1.5.3605" } demoStore
      = (Outcome.next
          { demoRequest Json.null with
            authorization := some "Basic k.u1.5.3605", user := some demoAnn.sanitize },
          demoStore) :=
  ⟨rfl, rfl⟩

/-- Claim C20 (amended). The auth middleware reads the token as the second
blank-separated word of the `Authorization` header and does not look at the
first word: a header `word token` is treated exactly as `Bearer token`, whatever
the word is, and a non-empty header without a blank (the bare token, or the
word `Bearer` alone) is answered 401, so that a route handler registered after
the middleware is not run. -/
theorem auth_reads_second_word (L : Lib) (ctx : Ctx) (s : Store) (req : Request)
    (w t h : String) (hw : ' ' ∉ w.toList) (ht : ' ' ∉ t.toList)
    (hh : ' ' ∉ h.toList) (hne : h ≠ "") :
    authenticate L ctx (some (w ++ " " ++ t)) s = authenticate L ctx (some ("Bearer " ++ t)) s
    ∧ authenticate L ctx (some h) s = Except.error (errorResponse 401 "Unauthorized!")
    ∧ ∀ f : Handler,
        runChain [auth L, f] ctx { req with authorization := some h } s
          = (Outcome.respond (errorResponse 401 "Unauthorized!"), s) := by
  have h401 : authenticate L ctx (some h) s
      = Except.error (errorResponse 401 "Unauthorized!") := by
    simp [authenticate, hne, bearerToken_no_space h hh, jwtVerify]
  refine ⟨?_, h401, ?_⟩
  · simp only [authenticate, append_space_ne_empty, bearer_ne_empty, if_false,
      bearerToken_second_word w t hw ht, bearerToken_bearer t ht]
  · intro f
    exact runChain_auth_error L f ctx _ s _ (some h) h401 rfl

theorem auth_reads_second_word_witness :
    authenticate demoLib demoCtx (some ("Basic" ++ " " ++ "k.u1.5.3605")) demoStore
      = authenticate demoLib demoCtx (some ("Bearer " ++ "k.u1.5.3605")) demoStore
    ∧ authenticate demoLib demoCtx (some "k.u1.5.3605") demoStore
      = Except.error (errorResponse 401 "Unauthorized!")
    ∧ ∀ f : Handler,
        runChain [auth demoLib, f] demoCtx
            { demoRequest Json.null with authorization := some "k.u1.5.3605" } demoStore
          = (Outcome.respond (errorResponse 401 "Unauthorized!"), demoStore) :=
  auth_reads_second_word demoLib demoCtx demoStore (demoRequest Json.null)
    "Basic" "k.u1.5.3605" "k.u1.5.3605" (by decide) (by decide) (by decide) (by decide)

theorem findContactById_eq_some {s : Store} (h : s.UniqueContactIds) {c : Contact}
    (hc : c ∈ s.contacts) : findContactById s c._id = some c := by
  unfold findContactById
  cases hf : s.contacts.find? (fun d => d._id = c._id) with
  | none =>
    rw [List.find?_eq_none] at hf
    exact absurd (by simp) (hf c hc)
  | some d =>
    have hp := List.find?_some hf
    simp only [decide_eq_true_eq] at hp
    rw [eq_of_id_eq h hc (List.mem_of_find?_eq_some hf) hp]

/-- Claim C21. The handler registered second for `GET /api/contact/:id`, run on its
own, answers 200 with the contact for every valid id of a contact in the
store, whoever the caller is (unique `_id`, no database failure): the body
carries the `_id`, the fields `name`, `phone`, `email`, `address`, `notes`, `birthday`, `tags`,
`favorite`, the owner id `postedBy` and the timestamps of that contact. The
handler registered first answers 404 to every caller who does not own the
contact. So the two are not equivalent: there are a store, two distinct users
and a contact of the second for which the later handler gives the first user
the contact and the earlier handler answers 404. -/
theorem second_get_handler_ignores_owner (L : Lib) (ctx : Ctx) (req : Request) (s : Store)
    (c : Contact)
    (hids : s.UniqueContactIds) (hc : c ∈ s.contacts)
    (hne : req.id ≠ "") (hid : L.castObjectId (Json.str req.id) = some c._id)
    (hfault : ctx.fault 1 = false) :
    (∃ body, getContactAny L ctx req s = (Outcome.respond { status := 200, body := body }, s)
      ∧ body = c.toJson
      ∧ body.field "_id" = some (Json.str c._id)
      ∧ body.field "name" = c.name
      ∧ body.field "phone" = c.phone
      ∧ body.field "email" = c.email
      ∧ body.field "address" = c.address
      ∧ body.field "notes" = c.notes
      ∧ body.field "birthday" = c.birthday
      ∧ body.field "tags" = c.tags
      ∧ body.field "favorite" = c.favorite
      ∧ body.field "postedBy" = some (Json.str c.postedBy)
      ∧ body.field "createdAt" = some (Json.num c.createdAt)
      ∧ body.field "updatedAt" = some (Json.num c.updatedAt))
    ∧ (∀ A : SanitizedUser, c.postedBy ≠ A._id →
        getContactOwned L ctx { req with user := some A } s
          = (Outcome.respond (errorResponse 404 "Contact not found"), s))
    ∧ ∃ (s' : Store) (A B : User) (d : Contact) (r : Request) (body : Json),
        A ∈ s'.users ∧ B ∈ s'.users ∧ A._id ≠ B._id ∧ d ∈ s'.contacts ∧ d.postedBy = B._id ∧
        r.user = some A.sanitize ∧
        getContactAny demoLib demoCtx r s'
          = (Outcome.respond { status := 200, body := body }, s') ∧
        body.field "_id" = some (Json.str d._id) ∧
        body.field "name" = d.name ∧ body.field "phone" = d.phone ∧
        body.field "email" = d.email ∧
        body.field "postedBy" = some (Json.str B._id) ∧
        getContactOwned demoLib demoCtx r s'
          = (Outcome.respond (errorResponse 404 "Contact not found"), s') := by
  refine ⟨⟨c.toJson, ?_, rfl, toJsonWith_members c (Json.str c.postedBy)⟩, ?_, ?_⟩
  · simp [getContactAny, hne, isValidObjectId, hid, hfault, findContactById_eq_some hids hc]
  · intro A hown
    simp [getContactOwned, hne, isValidObjectId, hid, hfault,
      findOwnedContact_eq_none hids hc hown]
  · exact ⟨demoStore, demoAnn, demoBob, demoContactOfBob,
      { demoRequest Json.null with id := "c1", user := some demoAnn.sanitize },
      demoContactOfBob.toJson,
      by simp [demoStore], by simp [demoStore], by decide, by simp [demoStore], rfl, rfl, rfl,
      rfl, rfl, rfl, rfl, rfl, rfl⟩

theorem second_get_handler_ignores_owner_witness :
    (∃ body, getContactAny demoLib demoCtx
        { demoRequest Json.null with id := "c1", user := some demoAnn.sanitize } demoStore
      = (Outcome.respond { status := 200, body := body }, demoStore)
      ∧ body.field "_id" = some (Json.str "c1")
      ∧ body.field "name" = some (Json.str "Carl")
      ∧ body.field "postedBy" = some (Json.str "u2"))
    ∧ getContactOwned demoLib demoCtx
        { demoRequest Json.null with id := "c1", user := some demoAnn.sanitize } demoStore
      = (Outcome.respond (errorResponse 404 "Contact not found"), demoStore) :=
  have h := second_get_handler_ignores_owner demoLib demoCtx
      { demoRequest Json.null with id := "c1", user := some demoAnn.sanitize } demoStore
      demoContactOfBob (by decide) (by simp [demoStore]) (by decide) rfl rfl
  ⟨h.1.elim fun body hb =>
      ⟨body, hb.1, hb.2.2.1, hb.2.2.2.1, hb.2.2.2.2.2.2.2.2.2.2.2.1⟩,
    h.2.1 demoAnn.sanitize (by decide)⟩

theorem findOwnedContact_filter (s : Store) (id owner : ObjectId) :
    findOwnedContact s id owner
      = (s.contacts.filter (fun c => c.postedBy = owner)).find? (fun c => c._id = id) := by
  unfold findOwnedContact
  induction s.contacts with
  | nil => rfl
  | cons c cs ih =>
    by_cases ho : c.postedBy = owner
    · by_cases hi : c._id = id
      · simp [List.find?, List.filter, ho, hi]
      · simp [List.find?, List.filter, ho, hi, ih]
    · by_cases hi : c._id = id
      · simp [List.find?, List.filter, ho, hi, ih]
      · simp [List.find?, List.filter, ho, hi, ih]

theorem findOwnedContact_agree (s₁ s₂ : Store) (id owner : ObjectId)
    (h : s₁.contacts.filter (fun c => c.postedBy = owner)
      = s₂.contacts.filter (fun c => c.postedBy = owner)) :
    findOwnedContact s₁ id owner = findOwnedContact s₂ id owner := by
  rw [findOwnedContact_filter, findOwnedContact_filter, h]

theorem findContactById_of_owned {s : Store} (hids : s.UniqueContactIds) {id owner : ObjectId}
    {c : Contact} (h : findOwnedContact s id owner = some c) :
    findContactById s id = some c := by
  unfold findOwnedContact at h
  have hmem := List.mem_of_find?_eq_some h
  have hp := List.find?_some h
  simp only [Bool.and_eq_true, decide_eq_true_eq] at hp
  rw [← hp.1]
  exact findContactById_eq_some hids hmem

theorem getMyContacts_agree (ctx : Ctx) (req : Request) (s₁ s₂ : Store) (A : SanitizedUser)
    (hu : req.user = some A)
    (huser : findUserById s₁ A._id = findUserById s₂ A._id)
    (hown : s₁.contacts.filter (fun c => c.postedBy = A._id)
      = s₂.contacts.filter (fun c => c.postedBy = A._id)) :
    (getMyContacts ctx req s₁).1 = (getMyContacts ctx req s₂).1 := by
  unfold getMyContacts
  rw [hu]
  simp only
  have hdocs : myContactsDocs s₁ A._id = myContactsDocs s₂ A._id := by
    unfold myContactsDocs; rw [hown]
  have hmap : (myContactsDocs s₁ A._id).map (populatedJson s₁)
      = (myContactsDocs s₂ A._id).map (populatedJson s₂) := by
    rw [← hdocs]
    apply List.map_congr_left
    intro c hc
    have hcA : c.postedBy = A._id := by
      simp only [myContactsDocs, List.mem_reverse, List.mem_filter, decide_eq_true_eq] at hc
      exact hc.2
    unfold populatedJson
    rw [hcA, huser]
  split
  · rfl
  · simp only [hmap]

theorem getContactOwned_agree (L : Lib) (ctx : Ctx) (req : Request) (s₁ s₂ : Store)
    (A : SanitizedUser) (hu : req.user = some A)
    (hown : s₁.contacts.filter (fun c => c.postedBy = A._id)
      = s₂.contacts.filter (fun c => c.postedBy = A._id)) :
    (getContactOwned L ctx req s₁).1 = (getContactOwned L ctx req s₂).1 := by
  unfold getContactOwned
  rw [hu]
  split
  · rfl
  · split
    · rfl
    · cases hcast : L.castObjectId (Json.str req.id) with
      | none => rfl
      | some id =>
        simp only
        rw [findOwnedContact_agree s₁ s₂ id A._id hown]
        split
        · rfl
        · split <;> rfl

theorem deleteContact_agree (L : Lib) (ctx : Ctx) (req : Request) (s₁ s₂ : Store)
    (A : SanitizedUser) (hu : req.user = some A)
    (hown : s₁.contacts.filter (fun c => c.postedBy = A._id)
      = s₂.contacts.filter (fun c => c.postedBy = A._id)) :
    (deleteContact L ctx req s₁).1 = (deleteContact L ctx req s₂).1 := by
  unfold deleteContact
  rw [hu]
  cases hcast : L.castObjectId (Json.str req.id) with
  | none => rfl
  | some id =>
    simp only
    rw [findOwnedContact_agree s₁ s₂ id A._id hown]
    split
    · rfl
    · split <;> rfl

theorem putContact_agree (L : Lib) (ctx : Ctx) (req : Request) (s₁ s₂ : Store)
    (A : SanitizedUser) (hu : req.user = some A)
    (hplain : ∀ v, req.body.field "id" = some v → L.castIdOperators v = none)
    (hids₁ : s₁.UniqueContactIds) (hids₂ : s₂.UniqueContactIds)
    (hown : s₁.contacts.filter (fun c => c.postedBy = A._id)
      = s₂.contacts.filter (fun c => c.postedBy = A._id)) :
    (putContact L ctx req s₁).1 = (putContact L ctx req s₂).1 := by
  unfold putContact
  rw [hu]
  split
  · rfl
  · cases hv : req.body.field "id" with
    | none => rfl
    | some v =>
      cases hcast : L.castObjectId v with
      | none =>
        have hc : idCondition L v = none := by
          simp only [idCondition, hcast, hplain v hv]
        simp only [Option.bind, hc]
      | some id =>
        simp only [Option.bind, idCondition_of_cast hcast, findOwnedWhere_eq, findWhere_eq]
        split
        · rfl
        · have hag := findOwnedContact_agree s₁ s₂ id A._id hown
          cases hf : findOwnedContact s₁ id A._id with
          | none =>
            rw [← hag, hf]
          | some c =>
            have hf₂ : findOwnedContact s₂ id A._id = some c := by rw [← hag, hf]
            rw [hf₂]
            simp only [findContactById_of_owned hids₁ hf, findContactById_of_owned hids₂ hf₂]
            cases applyUpdate L ctx req.body c with
            | none => rfl
            | some updated =>
              simp only
              split <;> rfl

/-- For a caller `A` whom the auth middleware accepts in two stores that agree on
the user record of `A` and on the contacts owned by `A` (both with unique `_id`),
the responses of `GET /api/mycontacts`, `GET /api/contact/:id` (as dispatched),
`DELETE /api/contact/:id` and of a `PUT /api/contact` whose `id` is no object of query
operators are the same in the two stores, whatever contacts other users own
there, under the same context. -/
theorem plain_id_responses_depend_only_on_own_contacts (L : Lib) (ctx : Ctx) (req : Request)
    (s₁ s₂ : Store) (A : SanitizedUser) (idStr : String)
    (hauth₁ : authenticate L ctx req.authorization s₁ = Except.ok A)
    (hauth₂ : authenticate L ctx req.authorization s₂ = Except.ok A)
    (huser : findUserById s₁ A._id = findUserById s₂ A._id)
    (hown : s₁.contacts.filter (fun c => c.postedBy = A._id)
      = s₂.contacts.filter (fun c => c.postedBy = A._id))
    (hplain : ∀ v, req.body.field "id" = some v → L.castIdOperators v = none)
    (hids₁ : s₁.UniqueContactIds) (hids₂ : s₂.UniqueContactIds) (hne : idStr ≠ "") :
    ∀ mp ∈ [(Method.GET, ["api", "mycontacts"]), (Method.GET, ["api", "contact", idStr]),
        (Method.PUT, ["api", "contact"]), (Method.DELETE, ["api", "contact", idStr])],
      (app L ctx { req with method := mp.1, path := mp.2 } s₁).1
        = (app L ctx { req with method := mp.1, path := mp.2 } s₂).1 := by
  intro mp hmp
  simp only [List.mem_cons, List.mem_singleton, List.not_mem_nil, or_false] at hmp
  rcases hmp with rfl | rfl | rfl | rfl
  · rw [app_getMyContacts L ctx s₁ _ rfl rfl, app_getMyContacts L ctx s₂ _ rfl rfl,
      runChain_auth_ok L _ neverNext_getMyContacts ctx
        { req with method := Method.GET, path := ["api", "mycontacts"] } s₁ A _ hauth₁ rfl,
      runChain_auth_ok L _ neverNext_getMyContacts ctx
        { req with method := Method.GET, path := ["api", "mycontacts"] } s₂ A _ hauth₂ rfl]
    exact getMyContacts_agree ctx _ s₁ s₂ A rfl huser hown
  · rw [app_getContact L ctx s₁ _ idStr hne rfl rfl, app_getContact L ctx s₂ _ idStr hne rfl rfl,
      runChain_auth_ok L _ (neverNext_getContactOwned L) ctx
        { req with method := Method.GET, path := ["api", "contact", idStr], id := idStr }
        s₁ A _ hauth₁ rfl,
      runChain_auth_ok L _ (neverNext_getContactOwned L) ctx
        { req with method := Method.GET, path := ["api", "contact", idStr], id := idStr }
        s₂ A _ hauth₂ rfl]
    exact getContactOwned_agree L ctx _ s₁ s₂ A rfl hown
  · rw [app_putContact L ctx s₁ _ rfl rfl, app_putContact L ctx s₂ _ rfl rfl,
      runChain_auth_ok L _ (neverNext_putContact L) ctx
        { req with method := Method.PUT, path := ["api", "contact"] } s₁ A _ hauth₁ rfl,
      runChain_auth_ok L _ (neverNext_putContact L) ctx
        { req with method := Method.PUT, path := ["api", "contact"] } s₂ A _ hauth₂ rfl]
    exact putContact_agree L ctx _ s₁ s₂ A rfl hplain hids₁ hids₂ hown
  · rw [app_deleteContact L ctx s₁ _ idStr hne rfl rfl,
      app_deleteContact L ctx s₂ _ idStr hne rfl rfl,
      runChain_auth_ok L _ (neverNext_deleteContact L) ctx
        { req with method := Method.DELETE, path := ["api", "contact", idStr], id := idStr }
        s₁ A _ hauth₁ rfl,
      runChain_auth_ok L _ (neverNext_deleteContact L) ctx
        { req with method := Method.DELETE, path := ["api", "contact", idStr], id := idStr }
        s₂ A _ hauth₂ rfl]
    exact deleteContact_agree L ctx _ s₁ s₂ A rfl hown

theorem app_unregistered (L : Lib) (ctx : Ctx) (req : Request) (s : Store)
    (h : ∀ r ∈ routes L, r.method ≠ req.method ∨ matchPath r.pattern req.path = none) :
    app L ctx req s = (Outcome.respond { status := 404, body := Json.null }, s) := by
  unfold app
  have key : ∀ rs : List Route,
      (∀ r ∈ rs, r.method ≠ req.method ∨ matchPath r.pattern req.path = none) →
      dispatch rs ctx req s = (Outcome.respond { status := 404, body := Json.null }, s) := by
    intro rs
    induction rs with
    | nil => intro _; rfl
    | cons r rest ih =>
      intro hr
      rw [dispatch_skip r rest ctx req s (hr r (List.mem_cons_self _ _))]
      exact ih (fun r' hr' => hr r' (List.mem_cons_of_mem _ hr'))
  exact key _ h

theorem serverRegisters_eq_false (L : Lib) (call : ClientCall)
    (h : serverRegisters L call = false) :
    ∀ r ∈ routes L, r.method ≠ call.method ∨ matchPath r.pattern call.path = none := by
  intro r hr
  unfold serverRegisters at h
  rw [List.any_eq_false] at h
  have := h r hr
  simp only [Bool.and_eq_true, decide_eq_true_eq, not_and, Option.isSome_iff_ne_none,
    ne_eq, not_not] at this
  by_cases hm : r.method = call.method
  · exact Or.inr (this hm)
  · exact Or.inl hm

theorem unregistered_calls (L : Lib) (id : String) :
    serverRegisters L (callDeleteContact id) = false ∧
    serverRegisters L (callFavoriteToggle id) = false ∧
    serverRegisters L callChangePassword = false := by
  refine ⟨?_, ?_, ?_⟩ <;>
    simp [serverRegisters, routes, matchPath, callDeleteContact, callFavoriteToggle,
      callChangePassword]

theorem registered_calls (L : Lib) (id : String) (hne : id ≠ "") :
    serverRegisters L callFetchContacts = true ∧
    serverRegisters L callCreateContact = true ∧
    serverRegisters L (callFetchContact id) = true ∧
    serverRegisters L callUpdateContact = true ∧
    serverRegisters L callFetchProfile = true := by
  refine ⟨?_, ?_, ?_, ?_, ?_⟩ <;>
    simp [serverRegisters, routes, matchPath, callFetchContacts, callCreateContact,
      callFetchContact, callUpdateContact, callFetchProfile, hne]

/-- Claim C22 (the code at the failing inputs). Three of the requests the views
send match no route the server registers: `deleteContact` sends
`DELETE /api/delete/:id` (the server registers `DELETE /api/contact/:id`),
`handleFavoriteToggle` sends `PATCH /api/favorite/:id` (no route at all handles `PATCH`) and
`handlePasswordChange` sends `PUT /user/change-password` (the server registers
`PUT /api/change-password`). The application answers each with the default 404 and
leaves the store as it was. The other five calls (list, create, fetch,
update, profile) match a registered route. -/
theorem client_calls_unregistered_routes :
    (∀ (L : Lib) (id : String),
        serverRegisters L (callDeleteContact id) = false ∧
        serverRegisters L (callFavoriteToggle id) = false ∧
        serverRegisters L callChangePassword = false)
    ∧ (∀ (L : Lib) (ctx : Ctx) (req : Request) (s : Store) (id : String),
        ∀ call ∈ [callDeleteContact id, callFavoriteToggle id, callChangePassword],
          app L ctx { req with method := call.method, path := call.path } s
            = (Outcome.respond { status := 404, body := Json.null }, s))
    ∧ (∀ (L : Lib) (id : String), id ≠ "" →
        serverRegisters L callFetchContacts = true ∧
        serverRegisters L callCreateContact = true ∧
        serverRegisters L (callFetchContact id) = true ∧
        serverRegisters L callUpdateContact = true ∧
        serverRegisters L callFetchProfile = true) := by
  refine ⟨unregistered_calls, ?_, registered_calls⟩
  intro L ctx req s id call hcall
  obtain ⟨h1, h2, h3⟩ := unregistered_calls L id
  simp only [List.mem_cons, List.mem_singleton, List.not_mem_nil, or_false] at hcall
  apply app_unregistered
  rcases hcall with rfl | rfl | rfl
  · exact serverRegisters_eq_false L _ h1
  · exact serverRegisters_eq_false L _ h2
  · exact serverRegisters_eq_false L _ h3

theorem startsWithChars_iff (hay needle : List Char) :
    startsWithChars hay needle = true ↔ needle <+: hay := by
  induction hay generalizing needle with
  | nil =>
    cases needle with
    | nil => simp [startsWithChars]
    | cons n ns => simp [startsWithChars]
  | cons h hs ih =>
    cases needle with
    | nil => simp [startsWithChars]
    | cons n ns =>
      simp only [startsWithChars, Bool.and_eq_true, beq_iff_eq, ih, List.cons_prefix_cons]
      constructor
      · rintro ⟨rfl, hp⟩; exact ⟨rfl, hp⟩
      · rintro ⟨rfl, hp⟩; exact ⟨rfl, hp⟩

theorem includesChars_iff (hay needle : List Char) :
    includesChars hay needle = true ↔ needle <:+: hay := by
  induction hay with
  | nil =>
    simp only [includesChars, startsWithChars_iff, List.prefix_nil, List.infix_nil]
  | cons h hs ih =>
    simp only [includesChars, Bool.or_eq_true, startsWithChars_iff, ih, List.infix_cons_iff]

theorem jsIncludes_iff (hay needle : String) :
    jsIncludes hay needle = true ↔ needle.toList <:+: hay.toList :=
  includesChars_iff _ _

theorem dropWhile_eq_nil_of_all (p : Char → Bool) (l : List Char) (h : ∀ c ∈ l, p c = true) :
    l.dropWhile p = [] := by
  induction l with
  | nil => rfl
  | cons c cs ih =>
    simp only [List.dropWhile, h c (List.mem_cons_self _ _)]
    exact ih (fun d hd => h d (List.mem_cons_of_mem _ hd))

theorem dropWhile_head_not (p : Char → Bool) (l : List Char) (d : Char) (ds : List Char)
    (h : l.dropWhile p = d :: ds) : p d = false := by
  induction l with
  | nil => simp at h
  | cons c cs ih =>
    by_cases hc : p c = true
    · simp only [List.dropWhile, hc] at h
      exact ih h
    · simp only [List.dropWhile, hc] at h
      simp only [List.cons.injEq] at h
      rw [← h.1]
      simpa using hc

theorem jsTrim_eq_empty_iff (s : String) :
    jsTrim s = "" ↔ ∀ c ∈ s.toList, isJsSpace c = true := by
  unfold jsTrim
  constructor
  · intro h
    have hnil : ((s.toList.dropWhile isJsSpace).reverse.dropWhile isJsSpace).reverse = [] := by
      have := congrArg String.toList h
      simpa using this
    have h1 : (s.toList.dropWhile isJsSpace).reverse.dropWhile isJsSpace = [] := by
      simpa using hnil
    have h2 : ∀ c ∈ s.toList.dropWhile isJsSpace, isJsSpace c = true := by
      intro c hc
      have := List.dropWhile_eq_nil_iff.mp h1 c (by simpa using hc)
      exact this
    intro c hc
    by_contra hsp
    -- the first character that is not a space stays in `dropWhile`
    have hex : ∃ d ∈ s.toList.dropWhile isJsSpace, isJsSpace d ≠ true := by
      have : s.toList.dropWhile isJsSpace ≠ [] := by
        intro hnil'
        exact hsp (List.dropWhile_eq_nil_iff.mp hnil' c hc)
      cases hd : s.toList.dropWhile isJsSpace with
      | nil => exact absurd hd this
      | cons d ds =>
        refine ⟨d, List.mem_cons_self _ _, ?_⟩
        rw [dropWhile_head_not isJsSpace s.toList d ds hd]
        simp
    obtain ⟨d, hd, hnd⟩ := hex
    exact hnd (h2 d hd)
  · intro h
    rw [dropWhile_eq_nil_of_all _ _ h]
    rfl

/-- Claim C23. When the search input has a character that is not white space,
`handleSearchSubmit` sets the displayed contacts to the filter of `originalContacts`
(not of the displayed list) by the test that the lower-cased name contains
the lower-cased input as a run of consecutive characters: a sublist of
`originalContacts` in the original order with exactly those members; the rest of
the state stays. When every character of the input is white space (or there
is none) the state is unchanged. `clearSearch` sets the displayed list to
`originalContacts` and empties the input. -/
theorem search_filters_original_contacts (B : Browser) (v : ListView) :
    ((∃ c ∈ v.searchInput.toList, isJsSpace c = false) →
      (handleSearchSubmit B v).contacts
          = v.originalContacts.filter (fun r =>
              decide ((B.toLowerCase v.searchInput).toList <:+: (B.toLowerCase r.name).toList))
        ∧ ((handleSearchSubmit B v).contacts).Sublist v.originalContacts
        ∧ (∀ r, r ∈ (handleSearchSubmit B v).contacts ↔
            r ∈ v.originalContacts ∧
              (B.toLowerCase v.searchInput).toList <:+: (B.toLowerCase r.name).toList)
        ∧ (handleSearchSubmit B v).originalContacts = v.originalContacts
        ∧ (handleSearchSubmit B v).searchInput = v.searchInput
        ∧ (handleSearchSubmit B v).sortField = v.sortField
        ∧ (handleSearchSubmit B v).sortOrder = v.sortOrder
        ∧ (handleSearchSubmit B v).currentPage = v.currentPage)
    ∧ ((∀ c ∈ v.searchInput.toList, isJsSpace c = true) → handleSearchSubmit B v = v)
    ∧ (clearSearch v).contacts = v.originalContacts
    ∧ (clearSearch v).originalContacts = v.originalContacts
    ∧ (clearSearch v).searchInput = "" := by
  refine ⟨?_, ?_, rfl, rfl, rfl⟩
  · rintro ⟨c, hc, hsp⟩
    have hnb : jsTrim v.searchInput ≠ "" := by
      intro h
      have := (jsTrim_eq_empty_iff _).mp h c hc
      rw [hsp] at this
      exact absurd this (by simp)
    have hfilter : (handleSearchSubmit B v).contacts
        = v.originalContacts.filter (fun r =>
            decide ((B.toLowerCase v.searchInput).toList <:+: (B.toLowerCase r.name).toList)) := by
      simp only [handleSearchSubmit, hnb, if_false]
      apply List.filter_congr
      intro r _
      rw [Bool.eq_iff_iff, jsIncludes_iff, decide_eq_true_eq]
    refine ⟨hfilter, ?_, ?_, ?_, ?_, ?_, ?_, ?_⟩
    · rw [hfilter]; exact List.filter_sublist _
    · intro r
      rw [hfilter, List.mem_filter, decide_eq_true_eq]
    all_goals simp only [handleSearchSubmit, hnb, if_false]
  · intro h
    simp only [handleSearchSubmit, (jsTrim_eq_empty_iff _).mpr h, if_true]

theorem pageRows_eq (rows : List Row) (i : Nat) :
    pageRows rows ((i : Int) + 1) = (rows.drop (5 * i)).take 5 := by
  unfold pageRows jsSlice clampIndex contactsPerPage
  have h1 : ¬ (((i : Int) + 1) * ((5 : Nat) : Int) - ((5 : Nat) : Int) < 0) := by
    push_cast; omega
  have h2 : ¬ (((i : Int) + 1) * ((5 : Nat) : Int) < 0) := by
    push_cast; omega
  have e1 : ((((i : Int) + 1) * ((5 : Nat) : Int) - ((5 : Nat) : Int))).toNat = 5 * i := by
    push_cast; omega
  have e2 : (((i : Int) + 1) * ((5 : Nat) : Int)).toNat = 5 * i + 5 := by
    push_cast; omega
  simp only [h1, h2, if_false, e1, e2]
  by_cases hlen : rows.length ≤ 5 * i
  · rw [List.drop_eq_nil_of_le hlen, List.drop_eq_nil_of_le (by omega)]
    simp
  · have hk : min (5 * i) rows.length = 5 * i := by omega
    rw [hk]
    apply List.ext_getElem?
    intro n
    simp only [List.getElem?_take, List.getElem?_drop]
    by_cases hn : n < 5
    · by_cases hn' : n < min (5 * i + 5) rows.length - 5 * i
      · simp [hn, hn']
      · simp only [hn, hn', if_true, if_false]
        symm
        rw [List.getElem?_eq_none_iff]
        omega
    · have : ¬ n < min (5 * i + 5) rows.length - 5 * i := by omega
      simp [hn, this]

theorem join_pages (rows : List Row) (n : Nat) :
    ((List.range n).map (fun i => (rows.drop (5 * i)).take 5)).flatten = rows.take (5 * n) := by
  induction n with
  | zero => simp
  | succ n ih =>
    rw [List.range_succ, List.map_append, List.flatten_append, ih]
    simp only [List.map_cons, List.map_nil, List.flatten_cons, List.flatten_nil, List.append_nil]
    rw [show 5 * (n + 1) = 5 * n + 5 by ring, List.take_add]

theorem pageCount_bounds (rows : List Row) :
    rows.length ≤ 5 * pageCount rows ∧ 5 * pageCount rows < rows.length + 5 := by
  unfold pageCount contactsPerPage
  omega

/-- Claim C26. With 5 contacts per page and `totalPages = ceil(length / 5)`, the pages
`1..totalPages` computed by the pagination logic, put one after the other, give
the displayed list; every such page holds at most 5 contacts and at least
one. -/
theorem pages_partition_list (rows : List Row) :
    ((List.range (pageCount rows)).map (fun i : Nat => pageRows rows ((i : Int) + 1))).flatten
        = rows
    ∧ ∀ p : Nat, 1 ≤ p → p ≤ pageCount rows →
        (pageRows rows (p : Int)).length ≤ 5 ∧ pageRows rows (p : Int) ≠ [] := by
  obtain ⟨hb1, hb2⟩ := pageCount_bounds rows
  constructor
  · have hfun : (fun i : Nat => pageRows rows ((i : Int) + 1))
        = fun i : Nat => (rows.drop (5 * i)).take 5 := funext (pageRows_eq rows)
    rw [hfun, join_pages, List.take_of_length_le hb1]
  · intro p hp1 hp2
    obtain ⟨i, rfl⟩ : ∃ i, p = i + 1 := ⟨p - 1, by omega⟩
    have hcast : ((i + 1 : Nat) : Int) = (i : Int) + 1 := by push_cast; rfl
    rw [hcast, pageRows_eq]
    constructor
    · rw [List.length_take]; omega
    · intro hnil
      have := congrArg List.length hnil
      rw [List.length_take, List.length_drop] at this
      simp only [List.length_nil] at this
      omega

theorem orderedInsert_pairwise (r : Row → Row → Prop) [DecidableRel r] (P : Row → Prop)
    (htot : ∀ a b, P a → P b → r a b ∨ r b a)
    (htrans : ∀ a b c, P a → P b → P c → r a b → r b c → r a c)
    (a : Row) (l : List Row) (ha : P a) (hl : ∀ x ∈ l, P x) (hs : l.Pairwise r) :
    (l.orderedInsert r a).Pairwise r := by
  induction l with
  | nil => simp
  | cons b l ih =>
    have hb : P b := hl b (List.mem_cons_self _ _)
    have hl' : ∀ x ∈ l, P x := fun x hx => hl x (List.mem_cons_of_mem _ hx)
    obtain ⟨hbl, hsl⟩ := List.pairwise_cons.mp hs
    simp only [List.orderedInsert]
    split
    · next hab =>
      refine List.pairwise_cons.mpr ⟨?_, hs⟩
      intro x hx
      rcases List.mem_cons.mp hx with rfl | hx
      · exact hab
      · exact htrans a b x ha hb (hl' x hx) hab (hbl x hx)
    · next hab =>
      have hba : r b a := (htot a b ha hb).resolve_left hab
      refine List.pairwise_cons.mpr ⟨?_, ih hl' hsl⟩
      intro x hx
      rcases (List.mem_orderedInsert r).mp hx with rfl | hx
      · exact hba
      · exact hbl x hx

theorem insertionSort_pairwise (r : Row → Row → Prop) [DecidableRel r] (P : Row → Prop)
    (htot : ∀ a b, P a → P b → r a b ∨ r b a)
    (htrans : ∀ a b c, P a → P b → P c → r a b → r b c → r a c)
    (l : List Row) (hl : ∀ x ∈ l, P x) : (l.insertionSort r).Pairwise r := by
  induction l with
  | nil => simp
  | cons a l ih =>
    have hl' : ∀ x ∈ l, P x := fun x hx => hl x (List.mem_cons_of_mem _ hx)
    simp only [List.insertionSort]
    apply orderedInsert_pairwise r P htot htrans a _ (hl a (List.mem_cons_self _ _))
    · intro x hx
      exact hl' x ((List.perm_insertionSort r l).subset hx)
    · exact ih hl'

theorem demoCompareChars_total (x y : List Char) :
    demoCompareChars x y ≤ 0 ∨ demoCompareChars y x ≤ 0 := by
  induction x generalizing y with
  | nil => cases y <;> simp [demoCompareChars]
  | cons a as ih =>
    cases y with
    | nil => simp [demoCompareChars]
    | cons b bs =>
      simp only [demoCompareChars]
      by_cases h1 : a.toNat < b.toNat
      · simp [h1]
      · by_cases h2 : b.toNat < a.toNat
        · simp [h1, h2]
        · simp only [h1, h2, if_false]
          exact ih bs

theorem demoCompareChars_trans (x y z : List Char)
    (hxy : demoCompareChars x y ≤ 0) (hyz : demoCompareChars y z ≤ 0) :
    demoCompareChars x z ≤ 0 := by
  induction x generalizing y z with
  | nil => cases z <;> simp [demoCompareChars]
  | cons a as ih =>
    cases y with
    | nil => simp [demoCompareChars] at hxy
    | cons b bs =>
      cases z with
      | nil => simp [demoCompareChars] at hyz
      | cons c cs =>
        simp only [demoCompareChars] at hxy hyz ⊢
        by_cases h1 : a.toNat < b.toNat
        · by_cases h3 : b.toNat < c.toNat
          · have : a.toNat < c.toNat := by omega
            simp [this]
          · by_cases h4 : c.toNat < b.toNat
            · simp [h3, h4] at hyz
            · have : a.toNat < c.toNat := by omega
              simp [this]
        · by_cases h2 : b.toNat < a.toNat
          · simp [h1, h2] at hxy
          · simp only [h1, h2, if_false] at hxy
            have hab : a.toNat = b.toNat := by omega
            by_cases h3 : b.toNat < c.toNat
            · have : a.toNat < c.toNat := by omega
              simp [this]
            · by_cases h4 : c.toNat < b.toNat
              · simp [h3, h4] at hyz
              · simp only [h3, h4, if_false] at hyz
                have h5 : ¬ a.toNat < c.toNat := by omega
                have h6 : ¬ c.toNat < a.toNat := by omega
                simp only [h5, h6, if_false]
                exact ih bs cs hxy hyz

theorem jsSort_perm (cmp : Row → Row → Int) (rows : List Row) :
    (jsSort cmp rows).Perm rows :=
  List.perm_insertionSort _ rows

theorem jsSort_name_sorted (B : Browser) (order : String) (rows : List Row)
    (htot : ∀ x y, B.localeCompare x y ≤ 0 ∨ B.localeCompare y x ≤ 0)
    (htrans : ∀ x y z, B.localeCompare x y ≤ 0 → B.localeCompare y z ≤ 0 →
      B.localeCompare x z ≤ 0) :
    (jsSort (sortCompare B "name" order) rows).Pairwise
      (fun a b => sortCompare B "name" order a b ≤ 0) := by
  apply insertionSort_pairwise _ (fun _ => True) _ _ rows (fun _ _ => trivial)
  · intro a b _ _
    by_cases ho : order = "asc"
    · simp only [sortCompare, ho, if_true]; exact htot _ _
    · simp only [sortCompare, ho, if_true, if_false]; exact htot _ _
  · intro a b c _ _ _ hab hbc
    by_cases ho : order = "asc"
    · simp only [sortCompare, ho, if_true] at hab hbc ⊢; exact htrans _ _ _ hab hbc
    · simp only [sortCompare, ho, if_true, if_false] at hab hbc ⊢
      exact htrans _ _ _ hbc hab

theorem jsSort_birthday_sorted (B : Browser) (order : String) (rows : List Row)
    (hvalid : ∀ r ∈ rows, (B.dateValue r.birthday).isSome = true) :
    (jsSort (sortCompare B "birthday" order) rows).Pairwise
      (fun a b => sortCompare B "birthday" order a b ≤ 0) := by
  have hne : ("birthday" : String) ≠ "name" := by decide
  apply insertionSort_pairwise _ (fun r => (B.dateValue r.birthday).isSome = true) _ _ rows hvalid
  · intro a b ha hb
    obtain ⟨x, hx⟩ := Option.isSome_iff_exists.mp ha
    obtain ⟨y, hy⟩ := Option.isSome_iff_exists.mp hb
    by_cases ho : order = "asc"
    · simp only [sortCompare, hne, if_false, if_true, hx, hy, ho]; omega
    · simp only [sortCompare, hne, if_false, if_true, hx, hy, ho]; omega
  · intro a b c ha hb hc hab hbc
    obtain ⟨x, hx⟩ := Option.isSome_iff_exists.mp ha
    obtain ⟨y, hy⟩ := Option.isSome_iff_exists.mp hb
    obtain ⟨z, hz⟩ := Option.isSome_iff_exists.mp hc
    by_cases ho : order = "asc"
    · simp only [sortCompare, hne, if_false, if_true, hx, hy, hz, ho] at hab hbc ⊢; omega
    · simp only [sortCompare, hne, if_false, if_true, hx, hy, hz, ho] at hab hbc ⊢; omega

/-- Claim C24. On a runtime whose `localeCompare` is a total preorder, `handleSort field`
sets the sort field to `field`, sets the sort order to "desc" exactly when `field` was
already the sort field with order "asc" and to "asc" otherwise, and replaces the displayed
list by a permutation of itself; for the field "name" the new list is ordered by
`localeCompare` on the names in the new order, and for the field "birthday", every
displayed contact having a valid birthday, it is ordered chronologically in the new
order. The fetched list, the search input and the current page are unchanged. -/
theorem sort_orders_displayed_list (B : Browser) (v : ListView) (field : String)
    (htot : ∀ x y, B.localeCompare x y ≤ 0 ∨ B.localeCompare y x ≤ 0)
    (htrans : ∀ x y z, B.localeCompare x y ≤ 0 → B.localeCompare y z ≤ 0 →
      B.localeCompare x z ≤ 0) :
    (handleSort B field v).sortField = field
    ∧ ((handleSort B field v).sortOrder = "desc" ↔ v.sortField = field ∧ v.sortOrder = "asc")
    ∧ ((handleSort B field v).sortOrder = "asc" ↔ ¬ (v.sortField = field ∧ v.sortOrder = "asc"))
    ∧ ((handleSort B field v).contacts).Perm v.contacts
    ∧ (field = "name" →
        ((handleSort B field v).sortOrder = "asc" →
          ((handleSort B field v).contacts).Pairwise
            (fun a b => B.localeCompare a.name b.name ≤ 0))
        ∧ ((handleSort B field v).sortOrder = "desc" →
          ((handleSort B field v).contacts).Pairwise
            (fun a b => B.localeCompare b.name a.name ≤ 0)))
    ∧ (field = "birthday" → (∀ r ∈ v.contacts, (B.dateValue r.birthday).isSome = true) →
        ((handleSort B field v).sortOrder = "asc" →
          ((handleSort B field v).contacts).Pairwise (fun a b => BirthdayLe B a b))
        ∧ ((handleSort B field v).sortOrder = "desc" →
          ((handleSort B field v).contacts).Pairwise (fun a b => BirthdayLe B b a)))
    ∧ (handleSort B field v).originalContacts = v.originalContacts
    ∧ (handleSort B field v).searchInput = v.searchInput
    ∧ (handleSort B field v).currentPage = v.currentPage := by
  have hda : ("desc" : String) ≠ "asc" := by decide
  refine ⟨rfl, ?_, ?_, jsSort_perm _ _, ?_, ?_, rfl, rfl, rfl⟩
  · simp only [handleSort, newSortOrder]
    split <;> simp_all
  · simp only [handleSort, newSortOrder]
    split <;> simp_all
  · intro hf
    subst hf
    have hs := jsSort_name_sorted B (newSortOrder "name" v) v.contacts htot htrans
    constructor
    · intro ho
      simp only [handleSort] at ho ⊢
      refine hs.imp ?_
      intro a b hab
      simpa [sortCompare, ho] using hab
    · intro ho
      simp only [handleSort] at ho ⊢
      refine hs.imp ?_
      intro a b hab
      simpa [sortCompare, ho, hda] using hab
  · intro hf hvalid
    subst hf
    have hne : ("birthday" : String) ≠ "name" := by decide
    have hs := jsSort_birthday_sorted B (newSortOrder "birthday" v) v.contacts hvalid
    have hvalid' : ∀ r ∈ jsSort (sortCompare B "birthday" (newSortOrder "birthday" v)) v.contacts,
        (B.dateValue r.birthday).isSome = true :=
      fun r hr => hvalid r ((jsSort_perm _ _).subset hr)
    constructor
    · intro ho
      simp only [handleSort] at ho ⊢
      refine hs.imp_of_mem ?_
      intro a b ha hb hab
      obtain ⟨x, hx⟩ := Option.isSome_iff_exists.mp (hvalid' a ha)
      obtain ⟨y, hy⟩ := Option.isSome_iff_exists.mp (hvalid' b hb)
      simp only [sortCompare, hne, if_false, if_true, hx, hy, ho] at hab
      exact ⟨x, y, hx, hy, by omega⟩
    · intro ho
      simp only [handleSort] at ho ⊢
      refine hs.imp_of_mem ?_
      intro a b ha hb hab
      obtain ⟨x, hx⟩ := Option.isSome_iff_exists.mp (hvalid' a ha)
      obtain ⟨y, hy⟩ := Option.isSome_iff_exists.mp (hvalid' b hb)
      simp only [sortCompare, hne, if_false, if_true, hx, hy, ho, hda] at hab
      exact ⟨y, x, hy, hx, by omega⟩

theorem sort_orders_displayed_list_witness :
    (∀ x y, demoBrowser.localeCompare x y ≤ 0 ∨ demoBrowser.localeCompare y x ≤ 0)
    ∧ (∀ x y z, demoBrowser.localeCompare x y ≤ 0 → demoBrowser.localeCompare y z ≤ 0 →
        demoBrowser.localeCompare x z ≤ 0)
    ∧ (demoListView.sortField = "name" ∧ demoListView.sortOrder = "asc")
    ∧ (∀ r ∈ demoListView.contacts, (demoBrowser.dateValue r.birthday).isSome = true)
    ∧ (handleSort demoBrowser "name" demoListView).sortOrder = "desc"
    ∧ ((handleSort demoBrowser "name" demoListView).contacts).Perm demoListView.contacts
    ∧ ((handleSort demoBrowser "name" demoListView).contacts).Pairwise
        (fun a b => demoBrowser.localeCompare b.name a.name ≤ 0)
    ∧ (handleSort demoBrowser "birthday" demoListView).sortOrder = "asc"
    ∧ ((handleSort demoBrowser "birthday" demoListView).contacts).Pairwise
        (fun a b => BirthdayLe demoBrowser a b) :=
  have htot : ∀ x y, demoBrowser.localeCompare x y ≤ 0 ∨ demoBrowser.localeCompare y x ≤ 0 :=
    fun x y => demoCompareChars_total x.toList y.toList
  have htrans : ∀ x y z, demoBrowser.localeCompare x y ≤ 0 →
      demoBrowser.localeCompare y z ≤ 0 → demoBrowser.localeCompare x z ≤ 0 :=
    fun x y z => demoCompareChars_trans x.toList y.toList z.toList
  have hstate : demoListView.sortField = "name" ∧ demoListView.sortOrder = "asc" :=
    ⟨rfl, rfl⟩
  have hvalid : ∀ r ∈ demoListView.contacts,
      (demoBrowser.dateValue r.birthday).isSome = true := by decide
  have hname := sort_orders_displayed_list demoBrowser demoListView "name" htot htrans
  have hbirth := sort_orders_displayed_list demoBrowser demoListView "birthday" htot htrans
  have hdesc : (handleSort demoBrowser "name" demoListView).sortOrder = "desc" :=
    hname.2.1.mpr hstate
  have hasc : (handleSort demoBrowser "birthday" demoListView).sortOrder = "asc" :=
    hbirth.2.2.1.mpr (fun h => absurd h.1 (by decide))
  ⟨htot, htrans, hstate, hvalid, hdesc, hname.2.2.2.1, (hname.2.2.2.2.1 rfl).2 hdesc,
    hasc, (hbirth.2.2.2.2.2.1 rfl hvalid).1 hasc⟩

theorem pageInRange_clickNext (v : ListView) (h : PageInRange v) :
    PageInRange (clickNext v) := by
  unfold clickNext
  by_cases hd : v.nextDisabled = true
  · simp only [hd, if_true]; exact h
  · simp only [hd, if_false]
    simp only [ListView.nextDisabled, decide_eq_true_eq] at hd
    obtain ⟨h1, h2⟩ := h
    refine ⟨?_, ?_⟩
    · show 1 ≤ v.currentPage + 1
      omega
    · show v.currentPage + 1 ≤ v.totalPages
      omega

theorem pageInRange_clickPrevious (v : ListView) (h : PageInRange v) :
    PageInRange (clickPrevious v) := by
  unfold clickPrevious
  by_cases hd : v.previousDisabled = true
  · simp only [hd, if_true]; exact h
  · simp only [hd, if_false]
    simp only [ListView.previousDisabled, decide_eq_true_eq] at hd
    obtain ⟨h1, h2⟩ := h
    refine ⟨?_, ?_⟩
    · show 1 ≤ v.currentPage - 1
      omega
    · show v.currentPage - 1 ≤ v.totalPages
      omega

theorem pageInRange_handleSort (B : Browser) (field : String) (v : ListView)
    (h : PageInRange v) : PageInRange (handleSort B field v) := by
  have hlen : (handleSort B field v).contacts.length = v.contacts.length :=
    (List.perm_insertionSort _ _).length_eq
  have ht : (handleSort B field v).totalPages = v.totalPages := by
    simp only [ListView.totalPages, pageCount, hlen]
  exact ⟨h.1, by rw [ht]; exact h.2⟩

/-- Claim C27 (the code at the failing input). With six contacts fetched, Next is enabled
on page 1 and leads to page 2; submitting the search "ann" there leaves two contacts
displayed, so `totalPages` is 1, while the current page stays 2: the page shown is empty
although the displayed list is not, Next is enabled, and clicking it leads to page 3. -/
theorem search_leaves_page_out_of_range :
    demoListView.nextDisabled = false
    ∧ (clickNext demoListView).currentPage = 2
    ∧ (clickNext demoListView).totalPages = 2
    ∧ demoSearchOnSecondPage.contacts.map (fun contact => contact.name) = ["Ann", "Anna"]
    ∧ demoSearchOnSecondPage.totalPages = 1
    ∧ demoSearchOnSecondPage.currentPage = 2
    ∧ demoSearchOnSecondPage.currentContacts.length = 0
    ∧ demoSearchOnSecondPage.nextDisabled = false
    ∧ (clickNext demoSearchOnSecondPage).currentPage = 3 := by
  decide

theorem search_filters_original_contacts_witness :
    (∃ c ∈ (ListView.setSearchInput "ann" demoListView).searchInput.toList,
        isJsSpace c = false)
    ∧ (handleSearchSubmit demoBrowser (ListView.setSearchInput "ann" demoListView)).contacts
        = (ListView.setSearchInput "ann" demoListView).originalContacts.filter (fun r =>
            decide ((demoBrowser.toLowerCase
                (ListView.setSearchInput "ann" demoListView).searchInput).toList
              <:+: (demoBrowser.toLowerCase r.name).toList))
    ∧ (handleSearchSubmit demoBrowser
          (ListView.setSearchInput "ann" demoListView)).contacts.map (fun r => r.name)
        = ["Ann", "Anna"]
    ∧ (∀ c ∈ (ListView.setSearchInput "  " demoListView).searchInput.toList,
        isJsSpace c = true)
    ∧ handleSearchSubmit demoBrowser (ListView.setSearchInput "  " demoListView)
        = ListView.setSearchInput "  " demoListView :=
  have hsome : ∃ c ∈ (ListView.setSearchInput "ann" demoListView).searchInput.toList,
      isJsSpace c = false := by decide
  have hall : ∀ c ∈ (ListView.setSearchInput "  " demoListView).searchInput.toList,
      isJsSpace c = true := by decide
  ⟨hsome,
    ((search_filters_original_contacts demoBrowser
      (ListView.setSearchInput "ann" demoListView)).1 hsome).1,
    by decide, hall,
    (search_filters_original_contacts demoBrowser
      (ListView.setSearchInput "  " demoListView)).2.1 hall⟩

theorem pages_partition_list_witness :
    pageCount demoRows = 2
    ∧ (1 ≤ 2 ∧ 2 ≤ pageCount demoRows)
    ∧ (pageRows demoRows ((2 : Nat) : Int)).length ≤ 5
    ∧ pageRows demoRows ((2 : Nat) : Int) ≠ []
    ∧ (pageRows demoRows 2).map (fun r => r.name) = ["Anna"] :=
  have h1 : 1 ≤ 2 := by decide
  have h2 : 2 ≤ pageCount demoRows := by decide
  ⟨by decide, ⟨h1, h2⟩, ((pages_partition_list demoRows).2 2 h1 h2).1,
    ((pages_partition_list demoRows).2 2 h1 h2).2, by decide⟩

/-- Claim C2 (the code at the failing input). In the example store the first contact
belongs to the second user. The first user sends `PUT /api/contact` with the body
`{ "id": { "$ne": null }, "name": "Renamed" }`: the owner-scoped `findOne` finds her own
contact, `findByIdAndUpdate` then takes the first contact of the collection, and
the answer is 200 with the second user's contact under its new name, which
the store now holds. -/
theorem operator_id_update_rewrites_foreign_contact :
    demoStore.contacts = [demoContactOfBob, demoContactOfAnn]
    ∧ demoContactOfBob.postedBy = demoBob._id
    ∧ demoContactOfBob.postedBy ≠ demoAnn._id
    ∧ authenticate demoLib demoCtx (demoRequest demoOperatorUpdate).authorization demoStore
        = Except.ok demoAnn.sanitize
    ∧ app demoLib demoCtx
        { demoRequest demoOperatorUpdate with method := Method.PUT, path := ["api", "contact"] }
        demoStore
      = (Outcome.respond { status := 200, body := demoContactOfBobRenamed.toJson },
          { users := demoStore.users,
            contacts := [demoContactOfBobRenamed, demoContactOfAnn] })
    ∧ demoContactOfBobRenamed.name = some (Json.str "Renamed")
    ∧ demoContactOfBob.name = some (Json.str "Carl") :=
  ⟨rfl, rfl, by decide, rfl, rfl, rfl, rfl⟩

/-- Claim C25 (the code at the failing input). The two example stores agree on the
user record of the first user and on the contacts she owns; the first also
holds a contact of the second user, in front. Her `PUT /api/contact` with the body
`{ "id": { "$ne": null }, "name": "Renamed" }` is answered 200 in both, with the second user's
contact `c1` in the one store and with her own contact `c2` in the other: the
response shows what another user owns. -/
theorem operator_id_response_shows_foreign_contact :
    findUserById demoStore demoAnn._id = findUserById demoStoreWithoutBob demoAnn._id
    ∧ demoStore.contacts.filter (fun c => c.postedBy = demoAnn._id)
        = demoStoreWithoutBob.contacts.filter (fun c => c.postedBy = demoAnn._id)
    ∧ (app demoLib demoCtx
        { demoRequest demoOperatorUpdate with method := Method.PUT, path := ["api", "contact"] }
        demoStore).1
      = Outcome.respond { status := 200, body := demoContactOfBobRenamed.toJson }
    ∧ (app demoLib demoCtx
        { demoRequest demoOperatorUpdate with method := Method.PUT, path := ["api", "contact"] }
        demoStoreWithoutBob).1
      = Outcome.respond
          { status := 200,
            body := Contact.toJson
              { demoContactOfAnn with name := some (Json.str "Renamed"), updatedAt := 5000 } }
    ∧ demoContactOfBobRenamed.toJson.field "_id" = some (Json.str "c1")
    ∧ demoContactOfBobRenamed.toJson.field "postedBy" = some (Json.str demoBob._id)
    ∧ (Contact.toJson
        { demoContactOfAnn with name := some (Json.str "Renamed"), updatedAt := 5000 }).field "_id"
      = some (Json.str "c2") :=
  ⟨rfl, rfl, rfl, rfl, rfl, rfl, rfl⟩

/-- Claim C7 (the code at the failing input). The first example user sends
`PUT /api/change-password` with the body `{ "currentPassword": "wrong" }`: the current password
does not match her stored hash, yet no 400 is sent, because the test
`newPassword.length < 6`, which stands before the `try` block, raises on the missing
`newPassword` and the exception leaves the handler. The store is unchanged. -/
theorem wrong_password_without_new_password_throws :
    authenticate demoLib demoCtx (demoRequest demoWrongPasswordOnly).authorization demoStore
      = Except.ok demoAnn.sanitize
    ∧ findUserById demoStore demoAnn._id = some demoAnn
    ∧ demoWrongPasswordOnly.field "currentPassword" = some (Json.str "wrong")
    ∧ demoLib.bcryptCompare "wrong" demoAnn.password = false
    ∧ app demoLib demoCtx
        { demoRequest demoWrongPasswordOnly with
          method := Method.PUT, path := ["api", "change-password"] } demoStore
      = (Outcome.throws, demoStore)
    ∧ ¬ ∃ r, (app demoLib demoCtx
        { demoRequest demoWrongPasswordOnly with
          method := Method.PUT, path := ["api", "change-password"] } demoStore).1
      = Outcome.respond r :=
  ⟨rfl, rfl, rfl, by decide, rfl, fun ⟨_, h⟩ => Outcome.noConfusion h⟩

end ContactApp

